import Mathlib

/-!
# Offset turret rotation: a shallow embedding of `UTurretRotationFunctionLibrary`

The C++ library computes the yaw and the pitch an offset aim joint needs so that a turret
barrel points at a target.  Every function of
`Source/TurretRotation/TurretRotationFunctionLibrary.cpp` that takes part in the
computation is transcribed below, statement by statement, under its own name.

Conventions of the embedding.

* C++ `float` is idealised as `ℝ`: arithmetic is exact, there is no rounding, no
  overflow and no NaN.  The numerical tolerances of the engine are kept as the
  exact real `SMALL_NUMBER = 10⁻⁸`.  Because `Real.sqrt`, `Real.arccos` and
  `Complex.arg` are not computable, the definitions live in a `noncomputable section`;
  concrete inputs are evaluated by `simp` and `norm_num`.
* A C++ function returning `bool` and writing its result through a reference returns an
  `Option` here: `none` is `false`, `some r` is `true` with output `r`.
* The engine types and helpers the library calls (`FVector2D`, `FVector`, `FQuat`,
  `FRotator`, `FTransform`, `FMath`) are not part of the repository; the parts that are
  used are modelled in the first half of the file.
-/

noncomputable section

namespace TurretRotation

/-! ## Engine scalars: `FMath` -/

/-- Modelled from the spec: the engine constant `SMALL_NUMBER` (`1.e-8f`), the default
tolerance of `FMath::IsNearlyZero`, `FVector2D::GetSafeNormal` and
`FTransform::GetSafeScaleReciprocal` ("numerically zero"). -/
def SMALL_NUMBER : ℝ := 1 / 100000000

namespace FMath

/-- Modelled from the spec: engine `FMath::IsNearlyZero(Value)`, which is
`Abs(Value) <= SMALL_NUMBER` ("within numerical tolerance of zero"). -/
def IsNearlyZero (Value : ℝ) : Prop := |Value| ≤ SMALL_NUMBER

instance (Value : ℝ) : Decidable (IsNearlyZero Value) := by
  unfold IsNearlyZero; infer_instance

/-- Modelled from the spec: engine `FMath::Min`, `(A <= B) ? A : B`. -/
def Min (A B : ℝ) : ℝ := if A ≤ B then A else B

/-- Modelled from the spec: engine `FMath::Max`, `(A >= B) ? A : B`. -/
def Max (A B : ℝ) : ℝ := if A ≥ B then A else B

/-- Modelled from the spec: engine `FMath::Sqrt` (`sqrtf`), exact on non-negative input. -/
def Sqrt (Value : ℝ) : ℝ := Real.sqrt Value

/-- Modelled from the spec: engine `FMath::InvSqrt`, `1 / sqrt(Value)`. -/
def InvSqrt (Value : ℝ) : ℝ := 1 / Real.sqrt Value

/-- Modelled from the spec: engine `FMath::Pow` (`powf`). -/
def Pow (A B : ℝ) : ℝ := Real.rpow A B

/-- Modelled from the spec: engine `FMath::Acos` (`acosf`), exact on `[-1, 1]`. -/
def Acos (Value : ℝ) : ℝ := Real.arccos Value

/-- Modelled from the spec: engine `FMath::FastAsin`, idealised as the exact arcsine. -/
def FastAsin (Value : ℝ) : ℝ := Real.arcsin Value

/-- Modelled from the spec: engine `FMath::Atan2(Y, X)`, the angle in `(-π, π]` of the
point `(X, Y)`, with `Atan2(0, 0) = 0`. -/
def Atan2 (Y X : ℝ) : ℝ := Complex.arg ⟨X, Y⟩

/-- Modelled from the spec: engine `FMath::RadiansToDegrees`, `RadVal * (180 / PI)`. -/
def RadiansToDegrees (RadVal : ℝ) : ℝ := RadVal * (180 / Real.pi)

/-- Modelled from the spec: engine `FMath::DegreesToRadians`, `DegVal * (PI / 180)`. -/
def DegreesToRadians (DegVal : ℝ) : ℝ := DegVal * (Real.pi / 180)

/-- Modelled from the spec: engine `FMath::Fmod` (`fmodf`), the remainder of the
division truncated towards zero. -/
def Fmod (X Y : ℝ) : ℝ :=
  X - Y * (if 0 ≤ X / Y then (⌊X / Y⌋ : ℝ) else (⌈X / Y⌉ : ℝ))

end FMath

/-! ## Engine vectors: `FVector2D`, `FVector` -/

/-- Modelled from the spec: engine `FVector2D`, a pair of scalars. -/
@[ext]
structure FVector2D where
  X : ℝ
  Y : ℝ

namespace FVector2D

instance : Add FVector2D := ⟨fun A B => ⟨A.X + B.X, A.Y + B.Y⟩⟩

instance : Sub FVector2D := ⟨fun A B => ⟨A.X - B.X, A.Y - B.Y⟩⟩

instance : HMul FVector2D ℝ FVector2D := ⟨fun A Scale => ⟨A.X * Scale, A.Y * Scale⟩⟩

/-- Modelled from the spec: engine `FVector2D::operator|`, the dot product. -/
def dot (A B : FVector2D) : ℝ := A.X * B.X + A.Y * B.Y

/-- Modelled from the spec: engine `FVector2D::Size`, `Sqrt(X*X + Y*Y)`. -/
def Size (V : FVector2D) : ℝ := FMath.Sqrt (V.X * V.X + V.Y * V.Y)

/-- Modelled from the spec: engine `FVector2D::GetSafeNormal`; the zero vector is
returned when the squared length does not exceed the tolerance `SMALL_NUMBER`. -/
def GetSafeNormal (V : FVector2D) : FVector2D :=
  let SquareSum := V.X * V.X + V.Y * V.Y
  if SquareSum > SMALL_NUMBER then
    let Scale := FMath.InvSqrt SquareSum
    ⟨V.X * Scale, V.Y * Scale⟩
  else ⟨0, 0⟩

/-- Modelled from the spec: engine `FVector2D::GetRotated`, the counter-clockwise
rotation by `AngleDeg` degrees. -/
def GetRotated (V : FVector2D) (AngleDeg : ℝ) : FVector2D :=
  let S := Real.sin (FMath.DegreesToRadians AngleDeg)
  let C := Real.cos (FMath.DegreesToRadians AngleDeg)
  ⟨C * V.X - S * V.Y, S * V.X + C * V.Y⟩

end FVector2D

/-- Modelled from the spec: engine `FVector`, a triple of scalars. -/
@[ext]
structure FVector where
  X : ℝ
  Y : ℝ
  Z : ℝ

namespace FVector

instance : Add FVector := ⟨fun A B => ⟨A.X + B.X, A.Y + B.Y, A.Z + B.Z⟩⟩

instance : Sub FVector := ⟨fun A B => ⟨A.X - B.X, A.Y - B.Y, A.Z - B.Z⟩⟩

instance : Neg FVector := ⟨fun A => ⟨-A.X, -A.Y, -A.Z⟩⟩

/-- Component-wise product, engine `FVector::operator*(const FVector&)`. -/
instance : Mul FVector := ⟨fun A B => ⟨A.X * B.X, A.Y * B.Y, A.Z * B.Z⟩⟩

/-- Modelled from the spec: engine `operator*(float, const FVector&)`. -/
def scale (S : ℝ) (V : FVector) : FVector := ⟨S * V.X, S * V.Y, S * V.Z⟩

/-- Modelled from the spec: engine `FVector::ZeroVector`. -/
def ZeroVector : FVector := ⟨0, 0, 0⟩

/-- Modelled from the spec: engine `FVector::OneVector`. -/
def OneVector : FVector := ⟨1, 1, 1⟩

/-- Modelled from the spec: engine `FVector::CrossProduct`. -/
def CrossProduct (A B : FVector) : FVector :=
  ⟨A.Y * B.Z - A.Z * B.Y, A.Z * B.X - A.X * B.Z, A.X * B.Y - A.Y * B.X⟩

end FVector

/-! ## Engine rotations: `FRotator`, `FQuat` -/

/-- Modelled from the spec: engine `FRotator`, three angles in degrees. -/
@[ext]
structure FRotator where
  Pitch : ℝ
  Yaw : ℝ
  Roll : ℝ

/-- Modelled from the spec: engine `FQuat`. -/
@[ext]
structure FQuat where
  X : ℝ
  Y : ℝ
  Z : ℝ
  W : ℝ

namespace FRotator

/-- Modelled from the spec: engine `FRotator::ZeroRotator`. -/
def ZeroRotator : FRotator := ⟨0, 0, 0⟩

/-- Modelled from the spec: engine `FRotator::ClampAxis`, the angle brought to `[0, 360)`. -/
def ClampAxis (Angle : ℝ) : ℝ :=
  let A := FMath.Fmod Angle 360
  if A < 0 then A + 360 else A

/-- Modelled from the spec: engine `FRotator::NormalizeAxis`, the angle brought to
`(-180, 180]`. -/
def NormalizeAxis (Angle : ℝ) : ℝ :=
  let A := ClampAxis Angle
  if A > 180 then A - 360 else A

/-- Modelled from the spec: engine `FRotator::Quaternion`. -/
def Quaternion (R : FRotator) : FQuat :=
  let DEG_TO_RAD := Real.pi / 180
  let RADS_DIVIDED_BY_2 := DEG_TO_RAD / 2
  let PitchNoWinding := FMath.Fmod R.Pitch 360
  let YawNoWinding := FMath.Fmod R.Yaw 360
  let RollNoWinding := FMath.Fmod R.Roll 360
  let SP := Real.sin (PitchNoWinding * RADS_DIVIDED_BY_2)
  let CP := Real.cos (PitchNoWinding * RADS_DIVIDED_BY_2)
  let SY := Real.sin (YawNoWinding * RADS_DIVIDED_BY_2)
  let CY := Real.cos (YawNoWinding * RADS_DIVIDED_BY_2)
  let SR := Real.sin (RollNoWinding * RADS_DIVIDED_BY_2)
  let CR := Real.cos (RollNoWinding * RADS_DIVIDED_BY_2)
  { X := CR * SP * SY - SR * CP * CY
    Y := -CR * SP * CY - SR * CP * SY
    Z := CR * CP * SY - SR * SP * CY
    W := CR * CP * CY + SR * SP * SY }

/-- Modelled from the spec: engine `FRotator::RotateVector`, the product of the row
vector `V` with `FRotationMatrix(R)`. -/
def RotateVector (R : FRotator) (V : FVector) : FVector :=
  let SP := Real.sin (FMath.DegreesToRadians R.Pitch)
  let CP := Real.cos (FMath.DegreesToRadians R.Pitch)
  let SY := Real.sin (FMath.DegreesToRadians R.Yaw)
  let CY := Real.cos (FMath.DegreesToRadians R.Yaw)
  let SR := Real.sin (FMath.DegreesToRadians R.Roll)
  let CR := Real.cos (FMath.DegreesToRadians R.Roll)
  let M00 := CP * CY
  let M01 := CP * SY
  let M02 := SP
  let M10 := SR * SP * CY - CR * SY
  let M11 := SR * SP * SY + CR * CY
  let M12 := -SR * CP
  let M20 := -(CR * SP * CY + SR * SY)
  let M21 := CY * SR - CR * SP * SY
  let M22 := CR * CP
  { X := V.X * M00 + V.Y * M10 + V.Z * M20
    Y := V.X * M01 + V.Y * M11 + V.Z * M21
    Z := V.X * M02 + V.Y * M12 + V.Z * M22 }

end FRotator

namespace FQuat

/-- Modelled from the spec: engine `FQuat::Identity`. -/
def Identity : FQuat := ⟨0, 0, 0, 1⟩

/-- Modelled from the spec: engine `FQuat::operator*(const FQuat&)`, the Hamilton product. -/
instance : Mul FQuat := ⟨fun Q1 Q2 =>
  { X := Q1.W * Q2.X + Q1.X * Q2.W + Q1.Y * Q2.Z - Q1.Z * Q2.Y
    Y := Q1.W * Q2.Y - Q1.X * Q2.Z + Q1.Y * Q2.W + Q1.Z * Q2.X
    Z := Q1.W * Q2.Z + Q1.X * Q2.Y - Q1.Y * Q2.X + Q1.Z * Q2.W
    W := Q1.W * Q2.W - Q1.X * Q2.X - Q1.Y * Q2.Y - Q1.Z * Q2.Z }⟩

/-- Modelled from the spec: engine `FQuat::Inverse` (of a normalised quaternion). -/
def Inverse (Q : FQuat) : FQuat := ⟨-Q.X, -Q.Y, -Q.Z, Q.W⟩

/-- Modelled from the spec: engine `FQuat::RotateVector`. -/
def RotateVector (Q : FQuat) (V : FVector) : FVector :=
  let Qv : FVector := ⟨Q.X, Q.Y, Q.Z⟩
  let T := FVector.scale 2 (FVector.CrossProduct Qv V)
  V + FVector.scale Q.W T + FVector.CrossProduct Qv T

/-- Modelled from the spec: engine `FQuat::Rotator`. -/
def Rotator (Q : FQuat) : FRotator :=
  let SingularityTest := Q.Z * Q.X - Q.W * Q.Y
  let YawY := 2 * (Q.W * Q.Z + Q.X * Q.Y)
  let YawX := 1 - 2 * (Q.Y * Q.Y + Q.Z * Q.Z)
  let SINGULARITY_THRESHOLD : ℝ := 4999995 / 10000000
  let RAD_TO_DEG := 180 / Real.pi
  if SingularityTest < -SINGULARITY_THRESHOLD then
    let Yaw := FMath.Atan2 YawY YawX * RAD_TO_DEG
    { Pitch := -90
      Yaw := Yaw
      Roll := FRotator.NormalizeAxis (-Yaw - 2 * FMath.Atan2 Q.X Q.W * RAD_TO_DEG) }
  else if SingularityTest > SINGULARITY_THRESHOLD then
    let Yaw := FMath.Atan2 YawY YawX * RAD_TO_DEG
    { Pitch := 90
      Yaw := Yaw
      Roll := FRotator.NormalizeAxis (Yaw - 2 * FMath.Atan2 Q.X Q.W * RAD_TO_DEG) }
  else
    { Pitch := FMath.FastAsin (2 * SingularityTest) * RAD_TO_DEG
      Yaw := FMath.Atan2 YawY YawX * RAD_TO_DEG
      Roll := FMath.Atan2 (-2 * (Q.W * Q.X + Q.Y * Q.Z))
        (1 - 2 * (Q.X * Q.X + Q.Y * Q.Y)) * RAD_TO_DEG }

end FQuat

/-- Modelled from the spec: engine `FRotator::GetInverse`,
`Quaternion().Inverse().Rotator()`. -/
def FRotator.GetInverse (R : FRotator) : FRotator := R.Quaternion.Inverse.Rotator

/-! ## Engine transforms: `FTransform` -/

/-- Modelled from the spec: engine `FTransform`, a rotation, a translation and a
non-uniform scale, applied in the order scale, rotate, translate. -/
@[ext]
structure FTransform where
  Rotation : FQuat
  Translation : FVector
  Scale3D : FVector

namespace FTransform

/-- Modelled from the spec: the default constructor `FTransform()`, the identity. -/
def Default : FTransform := ⟨FQuat.Identity, FVector.ZeroVector, FVector.OneVector⟩

/-- Modelled from the spec: the constructor `FTransform(const FVector& InTranslation)`. -/
def ofTranslation (InTranslation : FVector) : FTransform :=
  ⟨FQuat.Identity, InTranslation, FVector.OneVector⟩

/-- Modelled from the spec: engine `FTransform::SetScale3D`. -/
def SetScale3D (T : FTransform) (NewScale3D : FVector) : FTransform :=
  { T with Scale3D := NewScale3D }

/-- Modelled from the spec: engine `FTransform::GetScale3D`. -/
def GetScale3D (T : FTransform) : FVector := T.Scale3D

/-- Modelled from the spec: engine `FTransform::TransformPosition`, scale, then rotate,
then translate. -/
def TransformPosition (T : FTransform) (V : FVector) : FVector :=
  T.Rotation.RotateVector (T.Scale3D * V) + T.Translation

/-- Modelled from the spec: engine `FTransform::GetSafeScaleReciprocal`. -/
def GetSafeScaleReciprocal (InScale : FVector) : FVector :=
  { X := if |InScale.X| ≤ SMALL_NUMBER then 0 else 1 / InScale.X
    Y := if |InScale.Y| ≤ SMALL_NUMBER then 0 else 1 / InScale.Y
    Z := if |InScale.Z| ≤ SMALL_NUMBER then 0 else 1 / InScale.Z }

/-- Modelled from the spec: engine `FTransform::Inverse`. -/
def Inverse (T : FTransform) : FTransform :=
  let InvRotation := T.Rotation.Inverse
  let InvScale3D := GetSafeScaleReciprocal T.Scale3D
  let InvTranslation := InvRotation.RotateVector (InvScale3D * (-T.Translation))
  ⟨InvRotation, InvTranslation, InvScale3D⟩

/-- Modelled from the spec: engine `FTransform::AnyHasNegativeScale`. -/
def AnyHasNegativeScale (InScale3D InOtherScale3D : FVector) : Prop :=
  InScale3D.X < 0 ∨ InScale3D.Y < 0 ∨ InScale3D.Z < 0 ∨
    InOtherScale3D.X < 0 ∨ InOtherScale3D.Y < 0 ∨ InOtherScale3D.Z < 0

instance (A B : FVector) : Decidable (AnyHasNegativeScale A B) := by
  unfold AnyHasNegativeScale; infer_instance

/-- Modelled from the spec: engine `FTransform::operator*`, `A * B` applies `A` first and
`B` second.  When a scale component is negative the engine takes a matrix path,
`MultiplyUsingMatrixWithScale`, which is left as a parameter. -/
def Multiply (MultiplyUsingMatrixWithScale : FTransform → FTransform → FTransform)
    (A B : FTransform) : FTransform :=
  if AnyHasNegativeScale A.Scale3D B.Scale3D then MultiplyUsingMatrixWithScale A B
  else
    { Rotation := B.Rotation * A.Rotation
      Scale3D := A.Scale3D * B.Scale3D
      Translation := B.Rotation.RotateVector (B.Scale3D * A.Translation) + B.Translation }

end FTransform

/-! ## The library: `UTurretRotationFunctionLibrary` -/

/-- `UTurretRotationFunctionLibrary::CalculateTurretYaw`. -/
def CalculateTurretYaw (AimJointLocation TargetLocation : FVector) : ℝ :=
  let AimJoint_To_Target := TargetLocation - AimJointLocation
  let AngleFromAimJointToTarget_Radians :=
    FMath.Atan2 AimJoint_To_Target.Y AimJoint_To_Target.X
  let AngleFromAimJointToTarget_Degrees :=
    FMath.RadiansToDegrees AngleFromAimJointToTarget_Radians
  AngleFromAimJointToTarget_Degrees

/-- `UTurretRotationFunctionLibrary::CalculateNearestValidTargetLocation2D`. -/
def CalculateNearestValidTargetLocation2D
    (AimJointLocation2D BarrelStartLocation2D BarrelEndLocation2D TargetLocation2D : FVector2D) :
    FVector2D :=
  let AimJoint_To_BarrelStart_Distance := (BarrelStartLocation2D - AimJointLocation2D).Size
  let AimJoint_To_BarrelEnd_Distance := (BarrelEndLocation2D - AimJointLocation2D).Size
  let AimJoint_To_Target := TargetLocation2D - AimJointLocation2D
  let AimJoint_To_Target_Distance := AimJoint_To_Target.Size
  let MinimumDistance0 := FMath.Min AimJoint_To_BarrelStart_Distance AimJoint_To_BarrelEnd_Distance
  let MinimumDistance_Tolerance := FMath.Min 3 (1 / 100 * MinimumDistance0)
  let MinimumDistance := MinimumDistance0 + MinimumDistance_Tolerance
  if AimJoint_To_Target_Distance < MinimumDistance then
    AimJoint_To_Target.GetSafeNormal * MinimumDistance
  else TargetLocation2D

/-- `UTurretRotationFunctionLibrary::CalculateQuadraticCoefficients`; the three outputs
`(Out_A, Out_B, Out_C)` are returned as a triple. -/
def CalculateQuadraticCoefficients
    (AimJointLocation2D BarrelStartLocation2D BarrelEndLocation2D TargetLocation2D : FVector2D) :
    ℝ × ℝ × ℝ :=
  let J := AimJointLocation2D
  let S := BarrelStartLocation2D
  let E := BarrelEndLocation2D
  let R := (E - S).GetSafeNormal
  let T := TargetLocation2D
  let A_Term1 := FMath.Pow R.X 2
  let A_Term2 := FMath.Pow R.Y 2
  let B_Term1 := (2 * S.X * R.X) - (2 * J.X * R.X)
  let B_Term2 := (2 * S.Y * R.Y) - (2 * J.Y * R.Y)
  let C_Term1 := FMath.Pow (J.X - S.X) 2
  let C_Term2 := FMath.Pow (J.Y - S.Y) 2
  let C_Term3 := -FMath.Pow (T.X - J.X) 2
  let C_Term4 := -FMath.Pow (T.Y - J.Y) 2
  (A_Term1 + A_Term2, B_Term1 + B_Term2, C_Term1 + C_Term2 + C_Term3 + C_Term4)

/-- `UTurretRotationFunctionLibrary::CalculateQuadraticRoots`; `none` is the `false`
return, `some (Out_X1, Out_X2)` the `true` return. -/
def CalculateQuadraticRoots (A B C : ℝ) : Option (ℝ × ℝ) :=
  let Denominator := 2 * A
  if FMath.IsNearlyZero Denominator then none
  else
    let RadicalInput := FMath.Pow B 2 - (4 * A * C)
    if RadicalInput < 0 then none
    else
      let Radical := FMath.Sqrt RadicalInput
      some (((-B) - Radical) / Denominator, ((-B) + Radical) / Denominator)

/-- `UTurretRotationFunctionLibrary::SelectBestRayDistance`. -/
def SelectBestRayDistance (FirstDistance SecondDistance : ℝ) : ℝ :=
  if FirstDistance < 0 ∧ SecondDistance < 0 then FMath.Min FirstDistance SecondDistance
  else FMath.Max FirstDistance SecondDistance

/-- `UTurretRotationFunctionLibrary::CalculateBarrelRayDistance`; `none` is the `false`
return, `some Out_BarrelRayDistance` the `true` return. -/
def CalculateBarrelRayDistance
    (AimJointLocation2D BarrelStartLocation2D BarrelEndLocation2D TargetLocation2D : FVector2D) :
    Option ℝ :=
  let abc := CalculateQuadraticCoefficients AimJointLocation2D BarrelStartLocation2D
    BarrelEndLocation2D TargetLocation2D
  match CalculateQuadraticRoots abc.1 abc.2.1 abc.2.2 with
  | none => none
  | some (d1, d2) => some (SelectBestRayDistance d1 d2)

/-- `UTurretRotationFunctionLibrary::CalculateAngleBetweenNormalizedVectors`. -/
def CalculateAngleBetweenNormalizedVectors
    (FirstVector_Normalized SecondVector_Normalized : FVector2D) : ℝ :=
  let DotProduct := FirstVector_Normalized.dot SecondVector_Normalized
  FMath.Acos DotProduct

/-- `UTurretRotationFunctionLibrary::ShouldTurnCounterClockwiseToMeet`. -/
def ShouldTurnCounterClockwiseToMeet (FirstVector SecondVector : FVector2D) : Prop :=
  (FirstVector.GetRotated 90).dot SecondVector ≥ 0

instance (A B : FVector2D) : Decidable (ShouldTurnCounterClockwiseToMeet A B) := by
  unfold ShouldTurnCounterClockwiseToMeet; infer_instance

/-- `UTurretRotationFunctionLibrary::CalculateAngleToRotateFromFirstVectorToSecondVector`. -/
def CalculateAngleToRotateFromFirstVectorToSecondVector
    (FirstVector SecondVector : FVector2D) : ℝ :=
  let FirstVector_Normalized := FirstVector.GetSafeNormal
  let SecondVector_Normalized := SecondVector.GetSafeNormal
  let AngleBetweenAimJointVectors_Radians :=
    CalculateAngleBetweenNormalizedVectors FirstVector_Normalized SecondVector_Normalized
  let AngleBetweenAimJointVectors_Degrees :=
    FMath.RadiansToDegrees AngleBetweenAimJointVectors_Radians
  let RotationSign : ℝ :=
    if ShouldTurnCounterClockwiseToMeet FirstVector_Normalized SecondVector_Normalized
    then 1 else -1
  RotationSign * AngleBetweenAimJointVectors_Degrees

/-- `UTurretRotationFunctionLibrary::CalculateTurretPitch`. -/
def CalculateTurretPitch
    (AimJointLocation BarrelStartLocation BarrelEndLocation TargetLocation : FVector) : ℝ :=
  let AimJointLocation2D : FVector2D := ⟨AimJointLocation.X, AimJointLocation.Z⟩
  let BarrelStartLocation2D : FVector2D := ⟨BarrelStartLocation.X, BarrelStartLocation.Z⟩
  let BarrelEndLocation2D : FVector2D := ⟨BarrelEndLocation.X, BarrelEndLocation.Z⟩
  let TargetLocation2D0 : FVector2D := ⟨TargetLocation.X, TargetLocation.Z⟩
  let TargetLocation2D := CalculateNearestValidTargetLocation2D AimJointLocation2D
    BarrelStartLocation2D BarrelEndLocation2D TargetLocation2D0
  match CalculateBarrelRayDistance AimJointLocation2D BarrelStartLocation2D
      BarrelEndLocation2D TargetLocation2D with
  | none => 0
  | some BarrelRayDistance =>
    let BarrelRay := (BarrelEndLocation2D - BarrelStartLocation2D).GetSafeNormal
    let ScaledBarrelEndLocation2D := BarrelStartLocation2D + (BarrelRay * BarrelRayDistance)
    let AimJoint_To_ScaledBarrelEnd := ScaledBarrelEndLocation2D - AimJointLocation2D
    let AimJoint_To_Target := TargetLocation2D - AimJointLocation2D
    CalculateAngleToRotateFromFirstVectorToSecondVector AimJoint_To_ScaledBarrelEnd
      AimJoint_To_Target

/-- `UTurretRotationFunctionLibrary::CalculateTurretRotation_ForAimJoint`; the output
`Out_AimJointRotation` is the returned rotator. -/
def CalculateTurretRotation_ForAimJoint (AimJointWorldTransform : FTransform)
    (AimJoint_To_BarrelStart BarrelStart_To_BarrelEnd TargetWorldLocation : FVector) :
    FRotator :=
  let AimJointWorldTransform_WithoutScale :=
    AimJointWorldTransform.SetScale3D FVector.OneVector
  let World_To_AimJoint_Transform := AimJointWorldTransform_WithoutScale.Inverse
  let AimJoint_InAimJointSpace := FVector.ZeroVector
  let BarrelStart_InAimJointSpace := AimJoint_To_BarrelStart
  let BarrelEnd_InAimJointSpace := BarrelStart_InAimJointSpace + BarrelStart_To_BarrelEnd
  let Target_InAimJointSpace := World_To_AimJoint_Transform.TransformPosition TargetWorldLocation
  let NewYaw := CalculateTurretYaw AimJoint_InAimJointSpace Target_InAimJointSpace
  let Align_Turret_With_Target_Rotator : FRotator := ⟨0, NewYaw, 0⟩
  let Align_Target_With_Turret_Rotator := Align_Turret_With_Target_Rotator.GetInverse
  let Target_InAimJointSpace_AlignedWithTurret :=
    Align_Target_With_Turret_Rotator.RotateVector Target_InAimJointSpace
  let NewPitch := CalculateTurretPitch AimJoint_InAimJointSpace BarrelStart_InAimJointSpace
    BarrelEnd_InAimJointSpace Target_InAimJointSpace_AlignedWithTurret
  { FRotator.ZeroRotator with Yaw := NewYaw, Pitch := NewPitch }

/-- `UTurretRotationFunctionLibrary::CalculateTurretRotation_ForActor`; the output
`Out_AimJointRotation` is the returned rotator.  The first argument is the engine's
negative-scale path of `FTransform::operator*` (see `FTransform.Multiply`). -/
def CalculateTurretRotation_ForActor
    (MultiplyUsingMatrixWithScale : FTransform → FTransform → FTransform)
    (ActorWorldTransform : FTransform)
    (Actor_To_AimJoint AimJoint_To_TurretBarrelStart TurretBarrelStart_To_TurretBarrelEnd
      TargetWorldLocation : FVector) : FRotator :=
  let ActorWorldTransform_ScaleOnly :=
    FTransform.Default.SetScale3D ActorWorldTransform.GetScale3D
  let AimJoint_To_BarrelStart_Scaled :=
    ActorWorldTransform_ScaleOnly.TransformPosition AimJoint_To_TurretBarrelStart
  let BarrelStart_To_BarrelEnd_Scaled :=
    ActorWorldTransform_ScaleOnly.TransformPosition TurretBarrelStart_To_TurretBarrelEnd
  let Actor_To_AimJointTransform := FTransform.ofTranslation Actor_To_AimJoint
  let AimJointWorldTransform :=
    FTransform.Multiply MultiplyUsingMatrixWithScale Actor_To_AimJointTransform
      ActorWorldTransform
  CalculateTurretRotation_ForAimJoint AimJointWorldTransform AimJoint_To_BarrelStart_Scaled
    BarrelStart_To_BarrelEnd_Scaled TargetWorldLocation

/-- The projection onto the X-Z plane, `FVector2D( V.X, V.Z )`, that
`CalculateTurretPitch` applies to each of its four arguments. -/
def FVector.XZ (V : FVector) : FVector2D := ⟨V.X, V.Z⟩

/-- The padded minimum reach in the words of the specification:
`m + min(3.0, 0.01*m)` with `m = min(|S - J|, |E - J|)`.  It is compared below with the
`MinimumDistance` that `CalculateNearestValidTargetLocation2D` computes. -/
def paddedMin (J S E : FVector2D) : ℝ :=
  min (S - J).Size (E - J).Size + min 3 (1 / 100 * min (S - J).Size (E - J).Size)

/-- The synthetic target in the words of the specification: the point at distance
`paddedMin` from the joint `J` along the direction from the joint to the target `T`.  It
is compared below with what `CalculateNearestValidTargetLocation2D` returns. -/
def syntheticTarget (J S E T : FVector2D) : FVector2D :=
  J + (T - J) * (paddedMin J S E / (T - J).Size)

/-! ## Basic facts about the engine model -/

theorem SMALL_NUMBER_pos : 0 < SMALL_NUMBER := by
  unfold SMALL_NUMBER; norm_num

@[simp] theorem FVector2D.add2_X (A B : FVector2D) : (A + B).X = A.X + B.X := rfl

@[simp] theorem FVector2D.add2_Y (A B : FVector2D) : (A + B).Y = A.Y + B.Y := rfl

@[simp] theorem FVector2D.sub2_X (A B : FVector2D) : (A - B).X = A.X - B.X := rfl

@[simp] theorem FVector2D.sub2_Y (A B : FVector2D) : (A - B).Y = A.Y - B.Y := rfl

@[simp] theorem FVector2D.mul2_X (A : FVector2D) (k : ℝ) : (A * k).X = A.X * k := rfl

@[simp] theorem FVector2D.mul2_Y (A : FVector2D) (k : ℝ) : (A * k).Y = A.Y * k := rfl

@[simp] theorem FVector.add3_X (A B : FVector) : (A + B).X = A.X + B.X := rfl

@[simp] theorem FVector.add3_Y (A B : FVector) : (A + B).Y = A.Y + B.Y := rfl

@[simp] theorem FVector.add3_Z (A B : FVector) : (A + B).Z = A.Z + B.Z := rfl

@[simp] theorem FVector.sub3_X (A B : FVector) : (A - B).X = A.X - B.X := rfl

@[simp] theorem FVector.sub3_Y (A B : FVector) : (A - B).Y = A.Y - B.Y := rfl

@[simp] theorem FVector.sub3_Z (A B : FVector) : (A - B).Z = A.Z - B.Z := rfl

@[simp] theorem FVector.neg3_X (A : FVector) : (-A).X = -A.X := rfl

@[simp] theorem FVector.neg3_Y (A : FVector) : (-A).Y = -A.Y := rfl

@[simp] theorem FVector.neg3_Z (A : FVector) : (-A).Z = -A.Z := rfl

@[simp] theorem FVector.mul3_X (A B : FVector) : (A * B).X = A.X * B.X := rfl

@[simp] theorem FVector.mul3_Y (A B : FVector) : (A * B).Y = A.Y * B.Y := rfl

@[simp] theorem FVector.mul3_Z (A B : FVector) : (A * B).Z = A.Z * B.Z := rfl

theorem FMath.Pow_two (x : ℝ) : FMath.Pow x 2 = x ^ 2 := by
  unfold FMath.Pow
  exact Real.rpow_two x

theorem FMath.Min_eq_min (a b : ℝ) : FMath.Min a b = min a b := by
  unfold FMath.Min
  split_ifs with h
  · exact (min_eq_left h).symm
  · exact (min_eq_right (le_of_lt (not_le.mp h))).symm

theorem FMath.Max_eq_max (a b : ℝ) : FMath.Max a b = max a b := by
  unfold FMath.Max
  split_ifs with h
  · exact (max_eq_left h).symm
  · exact (max_eq_right (le_of_lt (not_le.mp h))).symm

/-- The two outputs of a successful `CalculateQuadraticRoots`, and what success means. -/
theorem CalculateQuadraticRoots_eq_some {A B C X1 X2 : ℝ}
    (h : CalculateQuadraticRoots A B C = some (X1, X2)) :
    SMALL_NUMBER < |2 * A| ∧ 0 ≤ B ^ 2 - 4 * A * C ∧
      X1 = (-B - Real.sqrt (B ^ 2 - 4 * A * C)) / (2 * A) ∧
      X2 = (-B + Real.sqrt (B ^ 2 - 4 * A * C)) / (2 * A) := by
  simp only [CalculateQuadraticRoots, FMath.IsNearlyZero, FMath.Pow_two, FMath.Sqrt] at h
  split_ifs at h with h1 h2
  simp only [Option.some.injEq, Prod.mk.injEq] at h
  exact ⟨not_le.mp h1, not_lt.mp h2, h.1.symm, h.2.symm⟩

/-- A real number built with the quadratic formula solves the quadratic. -/
theorem quadratic_formula_root {A B C s : ℝ} (hA : 2 * A ≠ 0) (hs : s ^ 2 = B ^ 2 - 4 * A * C) :
    A * ((-B + s) / (2 * A)) ^ 2 + B * ((-B + s) / (2 * A)) + C = 0 := by
  have hA0 : A ≠ 0 := fun h0 => hA (by rw [h0]; ring)
  field_simp
  nlinarith [hs]

/-! ## The quadratic solver -/

/-- C3: `CalculateQuadraticRoots(A, B, C)` returns `false` (here `none`) exactly when
`2*A` is nearly zero (`IsNearlyZero`) or the discriminant `B^2 - 4*A*C` is negative; on
every other input it returns `true` (here `some`). -/
theorem C3_CalculateQuadraticRoots_fails_iff (A B C : ℝ) :
    (CalculateQuadraticRoots A B C = none ↔
      (FMath.IsNearlyZero (2 * A) ∨ B ^ 2 - 4 * A * C < 0)) ∧
    ((CalculateQuadraticRoots A B C).isSome = true ↔
      ¬ (FMath.IsNearlyZero (2 * A) ∨ B ^ 2 - 4 * A * C < 0)) := by
  simp only [CalculateQuadraticRoots, FMath.Pow_two]
  by_cases h1 : FMath.IsNearlyZero (2 * A)
  · simp [h1]
  · by_cases h2 : B ^ 2 - 4 * A * C < 0
    · simp [h1, h2]
    · simp [h1, h2]

/-- C4: when `CalculateQuadraticRoots(A, B, C)` succeeds with outputs `X1`, `X2`, then
`X1 = (-B - sqrt(B^2 - 4AC)) / (2A)`, `X2 = (-B + sqrt(B^2 - 4AC)) / (2A)`, and both are
real roots of `A*x^2 + B*x + C = 0`. -/
theorem C4_CalculateQuadraticRoots_are_roots (A B C X1 X2 : ℝ)
    (h : CalculateQuadraticRoots A B C = some (X1, X2)) :
    X1 = (-B - Real.sqrt (B ^ 2 - 4 * A * C)) / (2 * A) ∧
    X2 = (-B + Real.sqrt (B ^ 2 - 4 * A * C)) / (2 * A) ∧
    A * X1 ^ 2 + B * X1 + C = 0 ∧ A * X2 ^ 2 + B * X2 + C = 0 := by
  obtain ⟨hA, hD, h1, h2⟩ := CalculateQuadraticRoots_eq_some h
  have hA0 : 2 * A ≠ 0 := by
    intro h0
    rw [h0, abs_zero] at hA
    exact absurd hA (not_lt.mpr SMALL_NUMBER_pos.le)
  have hs : Real.sqrt (B ^ 2 - 4 * A * C) ^ 2 = B ^ 2 - 4 * A * C := Real.sq_sqrt hD
  have hs' : (-Real.sqrt (B ^ 2 - 4 * A * C)) ^ 2 = B ^ 2 - 4 * A * C := by
    rw [neg_sq]; exact hs
  refine ⟨h1, h2, ?_, ?_⟩
  · rw [h1, sub_eq_add_neg]
    exact quadratic_formula_root hA0 hs'
  · rw [h2]
    exact quadratic_formula_root hA0 hs

/-- The solver on `x^2 - x - 2`: the roots `-1` and `2`. -/
theorem CalculateQuadraticRoots_example :
    CalculateQuadraticRoots 1 (-1) (-2) = some (-1, 2) := by
  have h9 : Real.sqrt 9 = 3 := by
    rw [show (9 : ℝ) = 3 ^ 2 by norm_num]
    exact Real.sqrt_sq (by norm_num)
  have hz : ¬ FMath.IsNearlyZero (2 * 1) := by
    unfold FMath.IsNearlyZero SMALL_NUMBER
    norm_num
  simp only [CalculateQuadraticRoots, FMath.Pow_two, FMath.Sqrt, hz, if_false]
  norm_num [h9]

/-- Witness of C4 on `x^2 - x - 2 = 0`. -/
theorem C4_CalculateQuadraticRoots_are_roots_witness :
    CalculateQuadraticRoots 1 (-1) (-2) = some (-1, 2) ∧
    ((-1 : ℝ) = (-(-1) - Real.sqrt ((-1) ^ 2 - 4 * 1 * (-2))) / (2 * 1) ∧
     (2 : ℝ) = (-(-1) + Real.sqrt ((-1) ^ 2 - 4 * 1 * (-2))) / (2 * 1) ∧
     (1 : ℝ) * (-1) ^ 2 + (-1) * (-1) + (-2) = 0 ∧ (1 : ℝ) * 2 ^ 2 + (-1) * 2 + (-2) = 0) :=
  ⟨CalculateQuadraticRoots_example,
    C4_CalculateQuadraticRoots_are_roots 1 (-1) (-2) (-1) 2 CalculateQuadraticRoots_example⟩

/-! ## Root selection -/

theorem SelectBestRayDistance_eq_or (d1 d2 : ℝ) :
    SelectBestRayDistance d1 d2 = d1 ∨ SelectBestRayDistance d1 d2 = d2 := by
  unfold SelectBestRayDistance FMath.Min FMath.Max
  split_ifs <;> simp

theorem FVector2D.GetSafeNormal_of_lt {V : FVector2D}
    (h : SMALL_NUMBER < V.X * V.X + V.Y * V.Y) :
    V.GetSafeNormal = ⟨V.X / Real.sqrt (V.X * V.X + V.Y * V.Y),
      V.Y / Real.sqrt (V.X * V.X + V.Y * V.Y)⟩ := by
  simp only [FVector2D.GetSafeNormal, FMath.InvSqrt, gt_iff_lt, h, if_true]
  ext <;> simp [div_eq_mul_inv]

theorem FVector2D.GetSafeNormal_of_le {V : FVector2D}
    (h : V.X * V.X + V.Y * V.Y ≤ SMALL_NUMBER) : V.GetSafeNormal = ⟨0, 0⟩ := by
  simp only [FVector2D.GetSafeNormal, gt_iff_lt, not_lt.mpr h, if_false]

/-- The unit vector along `+X` is its own safe normal. -/
theorem FVector2D.GetSafeNormal_unit_X : (⟨1, 0⟩ : FVector2D).GetSafeNormal = ⟨1, 0⟩ := by
  rw [FVector2D.GetSafeNormal_of_lt (by unfold SMALL_NUMBER; norm_num)]
  ext <;> simp

theorem CalculateBarrelRayDistance_eq_some {J S E T : FVector2D} {d : ℝ}
    (h : CalculateBarrelRayDistance J S E T = some d) :
    ∃ d1 d2 : ℝ,
      CalculateQuadraticRoots (CalculateQuadraticCoefficients J S E T).1
        (CalculateQuadraticCoefficients J S E T).2.1
        (CalculateQuadraticCoefficients J S E T).2.2 = some (d1, d2) ∧
      d = SelectBestRayDistance d1 d2 := by
  unfold CalculateBarrelRayDistance at h
  simp only at h
  split at h
  · exact absurd h (by simp)
  · next d1 d2 hr =>
    simp only [Option.some.injEq] at h
    exact ⟨d1, d2, hr, h.symm⟩

/-! ## The ray-distance resolver -/

theorem FVector2D.Size_sq (V : FVector2D) : V.Size ^ 2 = V.X * V.X + V.Y * V.Y := by
  unfold FVector2D.Size FMath.Sqrt
  exact Real.sq_sqrt (add_nonneg (mul_self_nonneg _) (mul_self_nonneg _))

theorem FVector2D.Size_nonneg (V : FVector2D) : 0 ≤ V.Size := by
  unfold FVector2D.Size FMath.Sqrt
  exact Real.sqrt_nonneg _

@[simp] theorem FVector2D.sub_origin (V : FVector2D) : V - (⟨0, 0⟩ : FVector2D) = V := by
  ext <;> simp

@[simp] theorem FVector2D.origin_add (V : FVector2D) : (⟨0, 0⟩ : FVector2D) + V = V := by
  ext <;> simp

theorem FVector2D.Size_on_axis (a : ℝ) : (⟨a, 0⟩ : FVector2D).Size = |a| := by
  unfold FVector2D.Size FMath.Sqrt
  simp only [mul_zero, add_zero]
  exact Real.sqrt_mul_self_eq_abs a

/-- Both outputs of a successful `CalculateQuadraticRoots` solve the quadratic. -/
theorem CalculateQuadraticRoots_solve {A B C X1 X2 : ℝ}
    (h : CalculateQuadraticRoots A B C = some (X1, X2)) :
    A * X1 ^ 2 + B * X1 + C = 0 ∧ A * X2 ^ 2 + B * X2 + C = 0 := by
  obtain ⟨hA, hD, h1, h2⟩ := CalculateQuadraticRoots_eq_some h
  have hA0 : 2 * A ≠ 0 := by
    intro h0
    rw [h0, abs_zero] at hA
    exact absurd hA (not_lt.mpr SMALL_NUMBER_pos.le)
  have hs : Real.sqrt (B ^ 2 - 4 * A * C) ^ 2 = B ^ 2 - 4 * A * C := Real.sq_sqrt hD
  have hs' : (-Real.sqrt (B ^ 2 - 4 * A * C)) ^ 2 = B ^ 2 - 4 * A * C := by
    rw [neg_sq]; exact hs
  constructor
  · rw [h1, sub_eq_add_neg]
    exact quadratic_formula_root hA0 hs'
  · rw [h2]
    exact quadratic_formula_root hA0 hs

/-- The quadratic of the resolver is the difference of the two squared distances. -/
theorem CalculateQuadraticCoefficients_eval (J S E T : FVector2D) (d : ℝ) :
    (CalculateQuadraticCoefficients J S E T).1 * d ^ 2 +
      (CalculateQuadraticCoefficients J S E T).2.1 * d +
      (CalculateQuadraticCoefficients J S E T).2.2 =
    ((S + (E - S).GetSafeNormal * d - J).X * (S + (E - S).GetSafeNormal * d - J).X +
      (S + (E - S).GetSafeNormal * d - J).Y * (S + (E - S).GetSafeNormal * d - J).Y) -
    ((T - J).X * (T - J).X + (T - J).Y * (T - J).Y) := by
  simp only [CalculateQuadraticCoefficients, FMath.Pow_two, FVector2D.add2_X, FVector2D.add2_Y,
    FVector2D.sub2_X, FVector2D.sub2_Y, FVector2D.mul2_X, FVector2D.mul2_Y]
  ring

/-- A ray distance found by the resolver puts the scaled barrel end at the target's
squared distance from the joint. -/
theorem CalculateBarrelRayDistance_sq_eq {J S E T : FVector2D} {d : ℝ}
    (h : CalculateBarrelRayDistance J S E T = some d) :
    (S + (E - S).GetSafeNormal * d - J).X * (S + (E - S).GetSafeNormal * d - J).X +
      (S + (E - S).GetSafeNormal * d - J).Y * (S + (E - S).GetSafeNormal * d - J).Y =
    (T - J).X * (T - J).X + (T - J).Y * (T - J).Y := by
  obtain ⟨d1, d2, hr, hd⟩ := CalculateBarrelRayDistance_eq_some h
  obtain ⟨r1, r2⟩ := CalculateQuadraticRoots_solve hr
  have hroot : (CalculateQuadraticCoefficients J S E T).1 * d ^ 2 +
      (CalculateQuadraticCoefficients J S E T).2.1 * d +
      (CalculateQuadraticCoefficients J S E T).2.2 = 0 := by
    rcases SelectBestRayDistance_eq_or d1 d2 with hsel | hsel
    · rw [hd, hsel]; exact r1
    · rw [hd, hsel]; exact r2
  have hev := CalculateQuadraticCoefficients_eval J S E T d
  rw [hroot] at hev
  linarith

/-- A vector along `+X` longer than the tolerance has the safe normal `(1, 0)`. -/
theorem FVector2D.GetSafeNormal_pos_X {a : ℝ} (ha : 0 < a) (htol : SMALL_NUMBER < a * a) :
    (⟨a, 0⟩ : FVector2D).GetSafeNormal = ⟨1, 0⟩ := by
  have h : SMALL_NUMBER < (FVector2D.mk a 0).X * (FVector2D.mk a 0).X +
      (FVector2D.mk a 0).Y * (FVector2D.mk a 0).Y := by
    simpa using htol
  rw [FVector2D.GetSafeNormal_of_lt h]
  have hs : Real.sqrt (a * a + 0 * 0) = a := by
    rw [mul_zero, add_zero]
    exact Real.sqrt_mul_self ha.le
  ext
  · simp only [hs]; exact div_self ha.ne'
  · simp

/-- The resolver with the joint at the origin and the barrel on the `+X` axis, from
`(s, 0)` to `(e, 0)` with `s < e`: the roots are `-s - |T|` and `-s + |T|`. -/
theorem CalculateBarrelRayDistance_axis (s e : ℝ) (T : FVector2D) (hse : s < e)
    (htol : SMALL_NUMBER < (e - s) * (e - s)) :
    CalculateBarrelRayDistance ⟨0, 0⟩ ⟨s, 0⟩ ⟨e, 0⟩ T =
      some (SelectBestRayDistance (-s - T.Size) (-s + T.Size)) := by
  have hR : ((⟨e, 0⟩ : FVector2D) - ⟨s, 0⟩).GetSafeNormal = ⟨1, 0⟩ := by
    have : ((⟨e, 0⟩ : FVector2D) - ⟨s, 0⟩) = ⟨e - s, 0⟩ := by ext <;> simp
    rw [this]
    exact FVector2D.GetSafeNormal_pos_X (sub_pos.mpr hse) htol
  have hz : ¬ FMath.IsNearlyZero (2 * (1 : ℝ)) := by
    unfold FMath.IsNearlyZero SMALL_NUMBER
    norm_num
  have hdisc : (2 * s) ^ 2 - 4 * 1 * (s ^ 2 - T.Size ^ 2) = (2 * T.Size) ^ 2 := by ring
  have hsqrt : Real.sqrt ((2 * T.Size) ^ 2) = 2 * T.Size :=
    Real.sqrt_sq (by linarith [T.Size_nonneg])
  have hcoef : CalculateQuadraticCoefficients ⟨0, 0⟩ ⟨s, 0⟩ ⟨e, 0⟩ T =
      (1, 2 * s, s ^ 2 - T.Size ^ 2) := by
    simp only [CalculateQuadraticCoefficients, hR, FMath.Pow_two, T.Size_sq]
    norm_num
    ring
  have hroots : CalculateQuadraticRoots 1 (2 * s) (s ^ 2 - T.Size ^ 2) =
      some (-s - T.Size, -s + T.Size) := by
    simp only [CalculateQuadraticRoots, FMath.Pow_two, FMath.Sqrt, hz, if_false, hdisc, hsqrt]
    have hn : ¬ (2 * T.Size) ^ 2 < 0 := not_lt.mpr (sq_nonneg _)
    simp only [hn, if_false, Option.some.injEq, Prod.mk.injEq]
    constructor <;> ring
  unfold CalculateBarrelRayDistance
  simp only [hcoef, hroots]

/-- The resolver on joint `(0,0)`, barrel from `(1,0)` to `(2,0)` and target `(3,0)`: the
roots are `-4` and `2`, and `2` is selected. -/
theorem CalculateBarrelRayDistance_example :
    CalculateBarrelRayDistance ⟨0, 0⟩ ⟨1, 0⟩ ⟨2, 0⟩ ⟨3, 0⟩ = some 2 := by
  have h := CalculateBarrelRayDistance_axis 1 2 ⟨3, 0⟩ (by norm_num)
    (by unfold SMALL_NUMBER; norm_num)
  have hsz : (⟨3, 0⟩ : FVector2D).Size = 3 := by
    rw [FVector2D.Size_on_axis]; norm_num
  have hsel : SelectBestRayDistance (-1 - 3) (-1 + 3) = 2 := by
    unfold SelectBestRayDistance FMath.Min FMath.Max
    norm_num
  rw [hsz, hsel] at h
  exact h

/-- C2: whenever `CalculateBarrelRayDistance` returns `true` with output distance `d`,
the point `S + R*d` (`R` the safe normal of `E - S`) is exactly as far from the joint `J`
as the target `T` is. -/
theorem C2_ray_distance_is_equidistant (J S E T : FVector2D) (d : ℝ)
    (h : CalculateBarrelRayDistance J S E T = some d) :
    (S + (E - S).GetSafeNormal * d - J).Size = (T - J).Size := by
  unfold FVector2D.Size
  rw [CalculateBarrelRayDistance_sq_eq h]

/-- Witness of C2 on joint `(0,0)`, barrel from `(1,0)` to `(2,0)` and target `(3,0)`. -/
theorem C2_ray_distance_is_equidistant_witness :
    CalculateBarrelRayDistance ⟨0, 0⟩ ⟨1, 0⟩ ⟨2, 0⟩ ⟨3, 0⟩ = some 2 ∧
    (FVector2D.mk 1 0 + (FVector2D.mk 2 0 - FVector2D.mk 1 0).GetSafeNormal * (2 : ℝ)
        - FVector2D.mk 0 0).Size = (FVector2D.mk 3 0 - FVector2D.mk 0 0).Size :=
  ⟨CalculateBarrelRayDistance_example,
    C2_ray_distance_is_equidistant ⟨0, 0⟩ ⟨1, 0⟩ ⟨2, 0⟩ ⟨3, 0⟩ 2
      CalculateBarrelRayDistance_example⟩

/-! ## Root selection: the claims -/

/-- C5 (refuted by the code): for two negative ray distances `SelectBestRayDistance`
takes `FMath::Min`, the one farther behind the barrel start, not the larger one.  On
`(-2, -1)` it returns `-2` while `max(-2, -1) = -1`; the resolver reaches this input
with joint `(0,0)`, barrel start `(3/2,0)`, barrel end `(5/2,0)` and target `(1/2,0)`. -/
theorem C5_SelectBestRayDistance_both_negative_returns_Min :
    SelectBestRayDistance (-2) (-1) = -2 ∧ max (-2 : ℝ) (-1) = -1 ∧
    SelectBestRayDistance (-2) (-1) ≠ max (-2 : ℝ) (-1) ∧
    CalculateBarrelRayDistance ⟨0, 0⟩ ⟨3 / 2, 0⟩ ⟨5 / 2, 0⟩ ⟨1 / 2, 0⟩ = some (-2) := by
  have h1 : SelectBestRayDistance (-2) (-1) = -2 := by
    unfold SelectBestRayDistance FMath.Min FMath.Max
    norm_num
  have h2 : max (-2 : ℝ) (-1) = -1 := by norm_num
  refine ⟨h1, h2, ?_, ?_⟩
  · rw [h1, h2]; norm_num
  · have h := CalculateBarrelRayDistance_axis (3 / 2) (5 / 2) ⟨1 / 2, 0⟩ (by norm_num)
      (by unfold SMALL_NUMBER; norm_num)
    have hsz : (⟨1 / 2, 0⟩ : FVector2D).Size = 1 / 2 := by
      rw [FVector2D.Size_on_axis]; norm_num
    have e1 : (-(3 / 2) - 1 / 2 : ℝ) = -2 := by norm_num
    have e2 : (-(3 / 2) + 1 / 2 : ℝ) = -1 := by norm_num
    rw [hsz, e1, e2, h1] at h
    exact h

/-- C6: when the two ray distances are not both negative, `SelectBestRayDistance`
returns `max(d1, d2)`, and that value is non-negative. -/
theorem C6_SelectBestRayDistance_not_both_negative (d1 d2 : ℝ)
    (h : ¬ (d1 < 0 ∧ d2 < 0)) :
    SelectBestRayDistance d1 d2 = max d1 d2 ∧ 0 ≤ SelectBestRayDistance d1 d2 := by
  have hsel : SelectBestRayDistance d1 d2 = max d1 d2 := by
    unfold SelectBestRayDistance
    rw [if_neg h, FMath.Max_eq_max]
  refine ⟨hsel, ?_⟩
  rw [hsel]
  by_contra hneg
  have hlt : max d1 d2 < 0 := not_le.mp hneg
  exact h ⟨lt_of_le_of_lt (le_max_left d1 d2) hlt, lt_of_le_of_lt (le_max_right d1 d2) hlt⟩

/-- Witness of C6 on the distances `-1` and `2`. -/
theorem C6_SelectBestRayDistance_not_both_negative_witness :
    ¬ ((-1 : ℝ) < 0 ∧ (2 : ℝ) < 0) ∧
    (SelectBestRayDistance (-1) 2 = max (-1) 2 ∧ 0 ≤ SelectBestRayDistance (-1) 2) :=
  ⟨by norm_num, C6_SelectBestRayDistance_not_both_negative (-1) 2 (by norm_num)⟩

/-! ## The target validity clamp -/

/-- The `MinimumDistance` of the clamp is the padded minimum of the specification. -/
theorem CalculateNearestValidTargetLocation2D_eq (J S E T : FVector2D) :
    CalculateNearestValidTargetLocation2D J S E T =
      if (T - J).Size < paddedMin J S E then (T - J).GetSafeNormal * paddedMin J S E
      else T := by
  simp only [CalculateNearestValidTargetLocation2D, paddedMin, FMath.Min_eq_min]

/-- The padded minimum for joint `(0,0)`, barrel start `(1,0)` and barrel end `(2,0)`. -/
theorem paddedMin_example : paddedMin ⟨0, 0⟩ ⟨1, 0⟩ ⟨2, 0⟩ = 101 / 100 := by
  simp only [paddedMin, FVector2D.sub_origin, FVector2D.Size_on_axis]
  norm_num

/-- The padded minimum is positive as soon as some target is closer than it. -/
theorem paddedMin_pos_of_lt {J S E T : FVector2D} (h : (T - J).Size < paddedMin J S E) :
    0 < paddedMin J S E :=
  lt_of_le_of_lt (T - J).Size_nonneg h

/-- C8: a target at distance at least `paddedMin` from the joint is returned unchanged by
`CalculateNearestValidTargetLocation2D`; the result differs from the target only when
the target is closer than `paddedMin`. -/
theorem C8_valid_target_is_unchanged (J S E T : FVector2D) :
    (paddedMin J S E ≤ (T - J).Size → CalculateNearestValidTargetLocation2D J S E T = T) ∧
    (CalculateNearestValidTargetLocation2D J S E T ≠ T → (T - J).Size < paddedMin J S E) := by
  rw [CalculateNearestValidTargetLocation2D_eq]
  constructor
  · intro h
    rw [if_neg (not_lt.mpr h)]
  · intro h
    by_contra hlt
    exact h (if_neg hlt)

/-- Witness of C8: joint `(0,0)`, barrel from `(1,0)` to `(2,0)`, target `(3,0)` at
distance `3 ≥ 1.01`. -/
theorem C8_valid_target_is_unchanged_witness :
    paddedMin ⟨0, 0⟩ ⟨1, 0⟩ ⟨2, 0⟩ ≤ (FVector2D.mk 3 0 - FVector2D.mk 0 0).Size ∧
    CalculateNearestValidTargetLocation2D ⟨0, 0⟩ ⟨1, 0⟩ ⟨2, 0⟩ ⟨3, 0⟩ = ⟨3, 0⟩ := by
  have h : paddedMin ⟨0, 0⟩ ⟨1, 0⟩ ⟨2, 0⟩ ≤ (FVector2D.mk 3 0 - FVector2D.mk 0 0).Size := by
    rw [paddedMin_example, FVector2D.sub_origin, FVector2D.Size_on_axis]
    norm_num
  exact ⟨h, (C8_valid_target_is_unchanged ⟨0, 0⟩ ⟨1, 0⟩ ⟨2, 0⟩ ⟨3, 0⟩).1 h⟩

/-- C7 as stated fails: with joint `(0,0)`, barrel from `(1,0)` to `(2,0)` and the target
`(1/100000, 0)`, which differs from the joint and is closer than `paddedMin = 1.01`, the
safe normal of the joint-to-target vector is the zero vector (its squared length `1e-10`
is below the tolerance `1e-8`), so the clamp returns the joint itself, at distance `0`. -/
theorem C7_too_close_target_counterexample :
    FVector2D.mk (1 / 100000) 0 ≠ FVector2D.mk 0 0 ∧
    (FVector2D.mk (1 / 100000) 0 - FVector2D.mk 0 0).Size < paddedMin ⟨0, 0⟩ ⟨1, 0⟩ ⟨2, 0⟩ ∧
    CalculateNearestValidTargetLocation2D ⟨0, 0⟩ ⟨1, 0⟩ ⟨2, 0⟩ ⟨1 / 100000, 0⟩ = ⟨0, 0⟩ ∧
    (CalculateNearestValidTargetLocation2D ⟨0, 0⟩ ⟨1, 0⟩ ⟨2, 0⟩ ⟨1 / 100000, 0⟩
        - FVector2D.mk 0 0).Size ≠ paddedMin ⟨0, 0⟩ ⟨1, 0⟩ ⟨2, 0⟩ := by
  have hlt : (FVector2D.mk (1 / 100000) 0 - FVector2D.mk 0 0).Size <
      paddedMin ⟨0, 0⟩ ⟨1, 0⟩ ⟨2, 0⟩ := by
    rw [paddedMin_example, FVector2D.sub_origin, FVector2D.Size_on_axis]
    norm_num [abs_of_pos]
  have hn : (FVector2D.mk (1 / 100000) 0).GetSafeNormal = ⟨0, 0⟩ :=
    FVector2D.GetSafeNormal_of_le (by unfold SMALL_NUMBER; norm_num)
  have hres : CalculateNearestValidTargetLocation2D ⟨0, 0⟩ ⟨1, 0⟩ ⟨2, 0⟩ ⟨1 / 100000, 0⟩ =
      ⟨0, 0⟩ := by
    rw [CalculateNearestValidTargetLocation2D_eq, if_pos hlt, FVector2D.sub_origin, hn]
    ext <;> simp
  refine ⟨?_, hlt, hres, ?_⟩
  · intro h
    have hx := congrArg FVector2D.X h
    norm_num at hx
  · rw [hres, paddedMin_example, FVector2D.sub_origin, FVector2D.Size_on_axis]
    norm_num

/-- C7 (amended): with the joint at the origin, as `CalculateTurretRotation_ForAimJoint`
always calls the pitch solver, for every barrel start `S`, barrel end `E` and target `T`
whose squared distance from the joint exceeds the safe-normalisation tolerance
`SMALL_NUMBER` and whose distance from the joint is less than `paddedMin`,
`CalculateNearestValidTargetLocation2D` returns a point `P` at distance exactly
`paddedMin` from the joint, with `P - J` a positive multiple of `T - J`. -/
theorem C7_too_close_target_substitution (S E T : FVector2D)
    (htol : SMALL_NUMBER < (T - FVector2D.mk 0 0).Size ^ 2)
    (hclose : (T - FVector2D.mk 0 0).Size < paddedMin ⟨0, 0⟩ S E) :
    (CalculateNearestValidTargetLocation2D ⟨0, 0⟩ S E T - FVector2D.mk 0 0).Size =
      paddedMin ⟨0, 0⟩ S E ∧
    ∃ k : ℝ, 0 < k ∧
      CalculateNearestValidTargetLocation2D ⟨0, 0⟩ S E T - FVector2D.mk 0 0 =
        (T - FVector2D.mk 0 0) * k := by
  have hpm : 0 < paddedMin ⟨0, 0⟩ S E := paddedMin_pos_of_lt hclose
  rw [CalculateNearestValidTargetLocation2D_eq, if_pos hclose]
  simp only [FVector2D.sub_origin] at htol hclose ⊢
  rw [FVector2D.Size_sq] at htol
  have hss : 0 < T.X * T.X + T.Y * T.Y := lt_trans SMALL_NUMBER_pos htol
  have hr : 0 < Real.sqrt (T.X * T.X + T.Y * T.Y) := Real.sqrt_pos.mpr hss
  rw [FVector2D.GetSafeNormal_of_lt htol]
  constructor
  · unfold FVector2D.Size FMath.Sqrt
    simp only [FVector2D.mul2_X, FVector2D.mul2_Y]
    have hsq : T.X / Real.sqrt (T.X * T.X + T.Y * T.Y) * paddedMin ⟨0, 0⟩ S E *
          (T.X / Real.sqrt (T.X * T.X + T.Y * T.Y) * paddedMin ⟨0, 0⟩ S E) +
        T.Y / Real.sqrt (T.X * T.X + T.Y * T.Y) * paddedMin ⟨0, 0⟩ S E *
          (T.Y / Real.sqrt (T.X * T.X + T.Y * T.Y) * paddedMin ⟨0, 0⟩ S E) =
        paddedMin ⟨0, 0⟩ S E * paddedMin ⟨0, 0⟩ S E := by
      field_simp
      ring
    rw [hsq]
    exact Real.sqrt_mul_self hpm.le
  · refine ⟨paddedMin ⟨0, 0⟩ S E / Real.sqrt (T.X * T.X + T.Y * T.Y), div_pos hpm hr, ?_⟩
    ext
    · simp only [FVector2D.mul2_X]; field_simp
    · simp only [FVector2D.mul2_Y]; field_simp

/-- Witness of C7 (amended): joint `(0,0)`, barrel from `(1,0)` to `(2,0)`, target
`(1/2, 0)`, at distance `0.5 < 1.01`; the clamp returns `(1.01, 0)`. -/
theorem C7_too_close_target_substitution_witness :
    SMALL_NUMBER < (FVector2D.mk (1 / 2) 0 - FVector2D.mk 0 0).Size ^ 2 ∧
    (FVector2D.mk (1 / 2) 0 - FVector2D.mk 0 0).Size < paddedMin ⟨0, 0⟩ ⟨1, 0⟩ ⟨2, 0⟩ ∧
    ((CalculateNearestValidTargetLocation2D ⟨0, 0⟩ ⟨1, 0⟩ ⟨2, 0⟩ ⟨1 / 2, 0⟩
        - FVector2D.mk 0 0).Size = paddedMin ⟨0, 0⟩ ⟨1, 0⟩ ⟨2, 0⟩ ∧
      ∃ k : ℝ, 0 < k ∧
        CalculateNearestValidTargetLocation2D ⟨0, 0⟩ ⟨1, 0⟩ ⟨2, 0⟩ ⟨1 / 2, 0⟩
          - FVector2D.mk 0 0 = (FVector2D.mk (1 / 2) 0 - FVector2D.mk 0 0) * k) := by
  have h1 : SMALL_NUMBER < (FVector2D.mk (1 / 2) 0 - FVector2D.mk 0 0).Size ^ 2 := by
    rw [FVector2D.sub_origin, FVector2D.Size_sq]
    unfold SMALL_NUMBER
    norm_num
  have h2 : (FVector2D.mk (1 / 2) 0 - FVector2D.mk 0 0).Size <
      paddedMin ⟨0, 0⟩ ⟨1, 0⟩ ⟨2, 0⟩ := by
    rw [paddedMin_example, FVector2D.sub_origin, FVector2D.Size_on_axis]
    norm_num [abs_of_pos]
  exact ⟨h1, h2, C7_too_close_target_substitution ⟨1, 0⟩ ⟨2, 0⟩ ⟨1 / 2, 0⟩ h1 h2⟩

/-- The clamp when the joint is not the origin: with joint `(1,0)`, barrel from `(2,0)` to
`(3,0)` and target `(3/2, 0)`, the result `(1.01, 0)` is the padded minimum measured from
the origin, and lies at distance `0.01` from the joint. -/
theorem CalculateNearestValidTargetLocation2D_joint_off_origin :
    CalculateNearestValidTargetLocation2D ⟨1, 0⟩ ⟨2, 0⟩ ⟨3, 0⟩ ⟨3 / 2, 0⟩ = ⟨101 / 100, 0⟩ ∧
    paddedMin ⟨1, 0⟩ ⟨2, 0⟩ ⟨3, 0⟩ = 101 / 100 ∧
    (FVector2D.mk (101 / 100) 0 - FVector2D.mk 1 0).Size = 1 / 100 := by
  have e1 : FVector2D.mk 2 0 - FVector2D.mk 1 0 = ⟨1, 0⟩ := by ext <;> norm_num
  have e2 : FVector2D.mk 3 0 - FVector2D.mk 1 0 = ⟨2, 0⟩ := by ext <;> norm_num
  have e3 : FVector2D.mk (3 / 2) 0 - FVector2D.mk 1 0 = ⟨1 / 2, 0⟩ := by ext <;> norm_num
  have e4 : FVector2D.mk (101 / 100) 0 - FVector2D.mk 1 0 = ⟨1 / 100, 0⟩ := by
    ext <;> norm_num
  have hpm : paddedMin ⟨1, 0⟩ ⟨2, 0⟩ ⟨3, 0⟩ = 101 / 100 := by
    simp only [paddedMin, e1, e2, FVector2D.Size_on_axis]
    norm_num
  have hn : (FVector2D.mk (1 / 2) 0).GetSafeNormal = ⟨1, 0⟩ := by
    rw [FVector2D.GetSafeNormal_of_lt (by unfold SMALL_NUMBER; norm_num)]
    have hs : Real.sqrt (1 / 2 * (1 / 2) + 0 * 0) = 1 / 2 := by
      rw [mul_zero, add_zero]
      exact Real.sqrt_mul_self (by norm_num)
    ext
    · simp only [hs]; norm_num
    · simp
  refine ⟨?_, hpm, ?_⟩
  · rw [CalculateNearestValidTargetLocation2D_eq, hpm, e3, hn, FVector2D.Size_on_axis,
      if_pos (by norm_num [abs_of_pos])]
    ext <;> simp
  · rw [e4, FVector2D.Size_on_axis]
    norm_num [abs_of_pos]

/-! ## The yaw solver -/

theorem FMath.DegreesToRadians_RadiansToDegrees (x : ℝ) :
    FMath.DegreesToRadians (FMath.RadiansToDegrees x) = x := by
  unfold FMath.DegreesToRadians FMath.RadiansToDegrees
  have hpi : Real.pi ≠ 0 := Real.pi_ne_zero
  field_simp

theorem FMath.Atan2_mem (y x : ℝ) : -Real.pi < FMath.Atan2 y x ∧ FMath.Atan2 y x ≤ Real.pi := by
  unfold FMath.Atan2
  exact ⟨(Complex.arg_mem_Ioc _).1, (Complex.arg_mem_Ioc _).2⟩

theorem FMath.Atan2_of_nonneg {x : ℝ} (hx : 0 ≤ x) : FMath.Atan2 0 x = 0 := by
  unfold FMath.Atan2
  exact Complex.arg_ofReal_of_nonneg hx

theorem FMath.abs_mk (x y : ℝ) : Complex.abs ⟨x, y⟩ = Real.sqrt (x ^ 2 + y ^ 2) := by
  rw [Complex.abs_apply, Complex.normSq_mk]
  congr 1
  ring

theorem FMath.sqrt_mul_cos_Atan2 (y x : ℝ) :
    Real.sqrt (x ^ 2 + y ^ 2) * Real.cos (FMath.Atan2 y x) = x := by
  have h := Complex.abs_mul_cos_arg ⟨x, y⟩
  rw [FMath.abs_mk] at h
  exact h

theorem FMath.sqrt_mul_sin_Atan2 (y x : ℝ) :
    Real.sqrt (x ^ 2 + y ^ 2) * Real.sin (FMath.Atan2 y x) = y := by
  have h := Complex.abs_mul_sin_arg ⟨x, y⟩
  rw [FMath.abs_mk] at h
  exact h

/-- C9: `CalculateTurretYaw` is the horizontal bearing from joint to target:
it equals `atan2(T.y - J.y, T.x - J.x)` in degrees, lies in `(-180, 180]`, does not
depend on the Z components, satisfies
`(T.x - J.x, T.y - J.y) = r * (cos yaw, sin yaw)` with `r` the horizontal distance, and
is `0` when target and joint coincide horizontally. -/
theorem C9_CalculateTurretYaw_is_horizontal_bearing (J T : FVector) :
    CalculateTurretYaw J T =
      FMath.RadiansToDegrees (FMath.Atan2 (T.Y - J.Y) (T.X - J.X)) ∧
    (-180 < CalculateTurretYaw J T ∧ CalculateTurretYaw J T ≤ 180) ∧
    (∀ zJ zT : ℝ,
      CalculateTurretYaw ⟨J.X, J.Y, zJ⟩ ⟨T.X, T.Y, zT⟩ = CalculateTurretYaw J T) ∧
    (T.X - J.X = Real.sqrt ((T.X - J.X) ^ 2 + (T.Y - J.Y) ^ 2) *
        Real.cos (FMath.DegreesToRadians (CalculateTurretYaw J T)) ∧
     T.Y - J.Y = Real.sqrt ((T.X - J.X) ^ 2 + (T.Y - J.Y) ^ 2) *
        Real.sin (FMath.DegreesToRadians (CalculateTurretYaw J T))) ∧
    (∀ z : ℝ, CalculateTurretYaw J ⟨J.X, J.Y, z⟩ = 0) := by
  have hyaw : CalculateTurretYaw J T =
      FMath.RadiansToDegrees (FMath.Atan2 (T.Y - J.Y) (T.X - J.X)) := by
    simp only [CalculateTurretYaw, FVector.sub3_X, FVector.sub3_Y]
  have hpi : 0 < Real.pi := Real.pi_pos
  obtain ⟨hlo, hhi⟩ := FMath.Atan2_mem (T.Y - J.Y) (T.X - J.X)
  refine ⟨hyaw, ⟨?_, ?_⟩, ?_, ⟨?_, ?_⟩, ?_⟩
  · rw [hyaw]
    unfold FMath.RadiansToDegrees
    have h : -180 = -Real.pi * (180 / Real.pi) := by field_simp; ring
    rw [h]
    exact mul_lt_mul_of_pos_right hlo (div_pos (by norm_num) hpi)
  · rw [hyaw]
    unfold FMath.RadiansToDegrees
    have h : (180 : ℝ) = Real.pi * (180 / Real.pi) := by field_simp
    nth_rewrite 2 [h]
    exact mul_le_mul_of_nonneg_right hhi (div_pos (by norm_num) hpi).le
  · intro zJ zT
    simp only [CalculateTurretYaw, FVector.sub3_X, FVector.sub3_Y]
  · rw [hyaw, FMath.DegreesToRadians_RadiansToDegrees]
    exact (FMath.sqrt_mul_cos_Atan2 _ _).symm
  · rw [hyaw, FMath.DegreesToRadians_RadiansToDegrees]
    exact (FMath.sqrt_mul_sin_Atan2 _ _).symm
  · intro z
    simp only [CalculateTurretYaw, FVector.sub3_X, FVector.sub3_Y, sub_self]
    rw [FMath.Atan2_of_nonneg le_rfl]
    unfold FMath.RadiansToDegrees
    exact zero_mul _

/-! ## The signed angle and the pitch solver -/

theorem FVector2D.GetRotated_quarter (V : FVector2D) : V.GetRotated 90 = ⟨-V.Y, V.X⟩ := by
  have h : FMath.DegreesToRadians 90 = Real.pi / 2 := by
    unfold FMath.DegreesToRadians; ring
  simp only [FVector2D.GetRotated, h, Real.sin_pi_div_two, Real.cos_pi_div_two]
  ext <;> simp

theorem ShouldTurnCounterClockwiseToMeet_iff (u v : FVector2D) :
    ShouldTurnCounterClockwiseToMeet u v ↔ 0 ≤ u.X * v.Y - u.Y * v.X := by
  unfold ShouldTurnCounterClockwiseToMeet
  rw [FVector2D.GetRotated_quarter]
  simp only [FVector2D.dot, ge_iff_le]
  constructor <;> intro h <;> linarith

/-- The safe normal of a vector longer than the tolerance has length one. -/
theorem FVector2D.GetSafeNormal_unit {V : FVector2D}
    (h : SMALL_NUMBER < V.X * V.X + V.Y * V.Y) :
    V.GetSafeNormal.X * V.GetSafeNormal.X + V.GetSafeNormal.Y * V.GetSafeNormal.Y = 1 := by
  have hss : 0 < V.X * V.X + V.Y * V.Y := lt_trans SMALL_NUMBER_pos h
  have hr : 0 < Real.sqrt (V.X * V.X + V.Y * V.Y) := Real.sqrt_pos.mpr hss
  have hr2 : Real.sqrt (V.X * V.X + V.Y * V.Y) * Real.sqrt (V.X * V.X + V.Y * V.Y) =
      V.X * V.X + V.Y * V.Y := Real.mul_self_sqrt hss.le
  rw [FVector2D.GetSafeNormal_of_lt h]
  simp only
  rw [div_mul_div_comm, div_mul_div_comm, ← add_div, hr2]
  exact div_self hss.ne'

/-- The safe normal is the zero vector or a unit vector. -/
theorem FVector2D.GetSafeNormal_zero_or_unit (V : FVector2D) :
    (V.X * V.X + V.Y * V.Y ≤ SMALL_NUMBER ∧ V.GetSafeNormal = ⟨0, 0⟩) ∨
    (SMALL_NUMBER < V.X * V.X + V.Y * V.Y ∧
      V.GetSafeNormal.X * V.GetSafeNormal.X + V.GetSafeNormal.Y * V.GetSafeNormal.Y = 1) := by
  rcases le_or_lt (V.X * V.X + V.Y * V.Y) SMALL_NUMBER with h | h
  · exact Or.inl ⟨h, FVector2D.GetSafeNormal_of_le h⟩
  · exact Or.inr ⟨h, FVector2D.GetSafeNormal_unit h⟩

/-- When the resolver succeeds the barrel ray is a unit vector: the barrel is longer than
the tolerance. -/
theorem CalculateBarrelRayDistance_unit_ray {J S E T : FVector2D} {d : ℝ}
    (h : CalculateBarrelRayDistance J S E T = some d) :
    SMALL_NUMBER < (E - S).X * (E - S).X + (E - S).Y * (E - S).Y ∧
    (E - S).GetSafeNormal.X * (E - S).GetSafeNormal.X +
      (E - S).GetSafeNormal.Y * (E - S).GetSafeNormal.Y = 1 := by
  obtain ⟨d1, d2, hr, -⟩ := CalculateBarrelRayDistance_eq_some h
  obtain ⟨hA, -, -, -⟩ := CalculateQuadraticRoots_eq_some hr
  rcases FVector2D.GetSafeNormal_zero_or_unit (E - S) with ⟨-, h0⟩ | hu
  · exfalso
    simp only [CalculateQuadraticCoefficients, FMath.Pow_two, h0] at hA
    norm_num at hA
    exact absurd hA (not_lt.mpr SMALL_NUMBER_pos.le)
  · exact hu

/-- Rotating a unit vector by the signed angle the library computes from it to a second
unit vector gives the second vector. -/
theorem GetRotated_signed_angle_unit {u v : FVector2D}
    (hu : u.X * u.X + u.Y * u.Y = 1) (hv : v.X * v.X + v.Y * v.Y = 1) :
    u.GetRotated ((if ShouldTurnCounterClockwiseToMeet u v then (1 : ℝ) else -1) *
      FMath.RadiansToDegrees (CalculateAngleBetweenNormalizedVectors u v)) = v := by
  have hck : (u.X * v.X + u.Y * v.Y) ^ 2 + (u.X * v.Y - u.Y * v.X) ^ 2 = 1 := by
    have : (u.X * v.X + u.Y * v.Y) ^ 2 + (u.X * v.Y - u.Y * v.X) ^ 2 =
        (u.X * u.X + u.Y * u.Y) * (v.X * v.X + v.Y * v.Y) := by ring
    rw [this, hu, hv, mul_one]
  have hc1 : -1 ≤ u.X * v.X + u.Y * v.Y := by
    nlinarith [sq_nonneg (u.X * v.Y - u.Y * v.X), sq_nonneg (u.X * v.X + u.Y * v.Y + 1)]
  have hc2 : u.X * v.X + u.Y * v.Y ≤ 1 := by
    nlinarith [sq_nonneg (u.X * v.Y - u.Y * v.X), sq_nonneg (u.X * v.X + u.Y * v.Y - 1)]
  have hcos : Real.cos (Real.arccos (u.X * v.X + u.Y * v.Y)) = u.X * v.X + u.Y * v.Y :=
    Real.cos_arccos hc1 hc2
  have hsin : Real.sin (Real.arccos (u.X * v.X + u.Y * v.Y)) =
      |u.X * v.Y - u.Y * v.X| := by
    rw [Real.sin_arccos]
    have : 1 - (u.X * v.X + u.Y * v.Y) ^ 2 = (u.X * v.Y - u.Y * v.X) ^ 2 := by linarith
    rw [this]
    exact Real.sqrt_sq_eq_abs _
  have hX : (u.X * v.X + u.Y * v.Y) * u.X - (u.X * v.Y - u.Y * v.X) * u.Y = v.X := by
    have : (u.X * v.X + u.Y * v.Y) * u.X - (u.X * v.Y - u.Y * v.X) * u.Y =
        v.X * (u.X * u.X + u.Y * u.Y) := by ring
    rw [this, hu, mul_one]
  have hY : (u.X * v.Y - u.Y * v.X) * u.X + (u.X * v.X + u.Y * v.Y) * u.Y = v.Y := by
    have : (u.X * v.Y - u.Y * v.X) * u.X + (u.X * v.X + u.Y * v.Y) * u.Y =
        v.Y * (u.X * u.X + u.Y * u.Y) := by ring
    rw [this, hu, mul_one]
  simp only [CalculateAngleBetweenNormalizedVectors, FMath.Acos, FVector2D.dot,
    ShouldTurnCounterClockwiseToMeet_iff]
  by_cases hk : 0 ≤ u.X * v.Y - u.Y * v.X
  · rw [if_pos hk, one_mul]
    simp only [FVector2D.GetRotated, FMath.DegreesToRadians_RadiansToDegrees, hcos, hsin,
      abs_of_nonneg hk]
    ext
    · exact hX
    · exact hY
  · rw [if_neg hk]
    have hdeg : FMath.DegreesToRadians
        (-1 * FMath.RadiansToDegrees (Real.arccos (u.X * v.X + u.Y * v.Y))) =
        -Real.arccos (u.X * v.X + u.Y * v.Y) := by
      have h := FMath.DegreesToRadians_RadiansToDegrees
        (Real.arccos (u.X * v.X + u.Y * v.Y))
      unfold FMath.DegreesToRadians at h ⊢
      linear_combination (-1 : ℝ) * h
    simp only [FVector2D.GetRotated, hdeg, Real.cos_neg, Real.sin_neg, hcos, hsin,
      abs_of_neg (not_le.mp hk), neg_neg]
    ext
    · exact hX
    · exact hY

/-- Rotating a vector by the signed angle the library computes from it to a second vector
of the same length, longer than the tolerance, gives the second vector. -/
theorem GetRotated_CalculateAngle {A B : FVector2D}
    (hA : SMALL_NUMBER < A.X * A.X + A.Y * A.Y)
    (hAB : A.X * A.X + A.Y * A.Y = B.X * B.X + B.Y * B.Y) :
    A.GetRotated (CalculateAngleToRotateFromFirstVectorToSecondVector A B) = B := by
  have hB : SMALL_NUMBER < B.X * B.X + B.Y * B.Y := hAB ▸ hA
  have hss : 0 < A.X * A.X + A.Y * A.Y := lt_trans SMALL_NUMBER_pos hA
  have hr : 0 < Real.sqrt (A.X * A.X + A.Y * A.Y) := Real.sqrt_pos.mpr hss
  have hrot := GetRotated_signed_angle_unit (FVector2D.GetSafeNormal_unit hA)
    (FVector2D.GetSafeNormal_unit hB)
  have hang : CalculateAngleToRotateFromFirstVectorToSecondVector A B =
      (if ShouldTurnCounterClockwiseToMeet A.GetSafeNormal B.GetSafeNormal then (1 : ℝ)
        else -1) * FMath.RadiansToDegrees
        (CalculateAngleBetweenNormalizedVectors A.GetSafeNormal B.GetSafeNormal) := rfl
  rw [hang]
  generalize (if ShouldTurnCounterClockwiseToMeet A.GetSafeNormal B.GetSafeNormal then (1 : ℝ)
        else -1) * FMath.RadiansToDegrees
        (CalculateAngleBetweenNormalizedVectors A.GetSafeNormal B.GetSafeNormal) = θ at hrot ⊢
  rw [FVector2D.GetSafeNormal_of_lt hA, FVector2D.GetSafeNormal_of_lt hB, ← hAB] at hrot
  have hx := congrArg FVector2D.X hrot
  have hy := congrArg FVector2D.Y hrot
  simp only [FVector2D.GetRotated] at hx hy ⊢
  field_simp at hx hy
  ext
  · exact hx
  · exact hy

/-- The signed angle from a vector within the tolerance of zero is `90` degrees: the safe
normal is the zero vector, the dot product `0`, and `acos 0` a quarter turn. -/
theorem CalculateAngle_of_first_small {A : FVector2D} (B : FVector2D)
    (hA : A.X * A.X + A.Y * A.Y ≤ SMALL_NUMBER) :
    CalculateAngleToRotateFromFirstVectorToSecondVector A B = 90 := by
  have hsign : ShouldTurnCounterClockwiseToMeet ⟨0, 0⟩ B.GetSafeNormal := by
    rw [ShouldTurnCounterClockwiseToMeet_iff]
    simp
  simp only [CalculateAngleToRotateFromFirstVectorToSecondVector,
    FVector2D.GetSafeNormal_of_le hA, hsign, if_true, one_mul,
    CalculateAngleBetweenNormalizedVectors, FVector2D.dot, zero_mul, add_zero, FMath.Acos,
    Real.arccos_zero, FMath.RadiansToDegrees]
  have hpi : Real.pi ≠ 0 := Real.pi_ne_zero
  field_simp
  ring

theorem FVector2D.Size_on_Y_axis (a : ℝ) : (⟨0, a⟩ : FVector2D).Size = |a| := by
  unfold FVector2D.Size FMath.Sqrt
  simp only [mul_zero, zero_add]
  exact Real.sqrt_mul_self_eq_abs a

/-- The pitch solver after a successful ray-distance resolution. -/
theorem CalculateTurretPitch_of_some {J S E T : FVector} {d : ℝ}
    (hd : CalculateBarrelRayDistance J.XZ S.XZ E.XZ
      (CalculateNearestValidTargetLocation2D J.XZ S.XZ E.XZ T.XZ) = some d) :
    CalculateTurretPitch J S E T =
      CalculateAngleToRotateFromFirstVectorToSecondVector
        (S.XZ + (E.XZ - S.XZ).GetSafeNormal * d - J.XZ)
        (CalculateNearestValidTargetLocation2D J.XZ S.XZ E.XZ T.XZ - J.XZ) := by
  simp only [FVector.XZ] at hd
  simp only [CalculateTurretPitch, hd, FVector.XZ]

/-- The pitch solver after a failed ray-distance resolution. -/
theorem CalculateTurretPitch_of_none {J S E T : FVector}
    (hd : CalculateBarrelRayDistance J.XZ S.XZ E.XZ
      (CalculateNearestValidTargetLocation2D J.XZ S.XZ E.XZ T.XZ) = none) :
    CalculateTurretPitch J S E T = 0 := by
  simp only [FVector.XZ] at hd
  simp only [CalculateTurretPitch, hd]

/-- The clamp, the resolver and the pitch for joint `(0,0,0)`, barrel from `(0,0,0)` to
`(1,0,0)` and target `(-1/100000, 0, 0)`: the target is kept, the ray distance is
`1/100000`, both joint-relative vectors are within the normalisation tolerance, and the
pitch is `90` degrees. -/
theorem CalculateTurretPitch_tiny_target :
    CalculateNearestValidTargetLocation2D ⟨0, 0⟩ ⟨0, 0⟩ ⟨1, 0⟩ ⟨-1 / 100000, 0⟩ =
      ⟨-1 / 100000, 0⟩ ∧
    CalculateBarrelRayDistance ⟨0, 0⟩ ⟨0, 0⟩ ⟨1, 0⟩ ⟨-1 / 100000, 0⟩ = some (1 / 100000) ∧
    CalculateTurretPitch ⟨0, 0, 0⟩ ⟨0, 0, 0⟩ ⟨1, 0, 0⟩ ⟨-1 / 100000, 0, 0⟩ = 90 := by
  have hpm : paddedMin ⟨0, 0⟩ ⟨0, 0⟩ ⟨1, 0⟩ = 0 := by
    simp only [paddedMin, FVector2D.sub_origin, FVector2D.Size_on_axis]
    norm_num
  have hsz : (FVector2D.mk (-1 / 100000) 0).Size = 1 / 100000 := by
    rw [FVector2D.Size_on_axis]
    norm_num [abs_of_neg]
  have hclamp : CalculateNearestValidTargetLocation2D ⟨0, 0⟩ ⟨0, 0⟩ ⟨1, 0⟩ ⟨-1 / 100000, 0⟩ =
      ⟨-1 / 100000, 0⟩ := by
    rw [CalculateNearestValidTargetLocation2D_eq, hpm, FVector2D.sub_origin, hsz,
      if_neg (by norm_num)]
  have hray : CalculateBarrelRayDistance ⟨0, 0⟩ ⟨0, 0⟩ ⟨1, 0⟩ ⟨-1 / 100000, 0⟩ =
      some (1 / 100000) := by
    have h := CalculateBarrelRayDistance_axis 0 1 ⟨-1 / 100000, 0⟩ (by norm_num)
      (by unfold SMALL_NUMBER; norm_num)
    have hsel : SelectBestRayDistance (-0 - 1 / 100000) (-0 + 1 / 100000) = 1 / 100000 := by
      unfold SelectBestRayDistance FMath.Min FMath.Max
      norm_num
    rw [hsz, hsel] at h
    exact h
  refine ⟨hclamp, hray, ?_⟩
  have hray' : CalculateBarrelRayDistance (FVector.mk 0 0 0).XZ (FVector.mk 0 0 0).XZ
      (FVector.mk 1 0 0).XZ
      (CalculateNearestValidTargetLocation2D (FVector.mk 0 0 0).XZ (FVector.mk 0 0 0).XZ
        (FVector.mk 1 0 0).XZ (FVector.mk (-1 / 100000) 0 0).XZ) = some (1 / 100000) := by
    simp only [FVector.XZ]
    rw [hclamp]
    exact hray
  rw [CalculateTurretPitch_of_some hray']
  apply CalculateAngle_of_first_small
  simp only [FVector.XZ, FVector2D.sub_origin, FVector2D.origin_add,
    FVector2D.GetSafeNormal_unit_X, FVector2D.mul2_X, FVector2D.mul2_Y]
  unfold SMALL_NUMBER
  norm_num

/-- C1 as stated fails: with joint `(0,0,0)`, barrel from `(0,0,0)` to `(1,0,0)` and target
`(-1/100000, 0, 0)`, the barrel ends are distinct, the clamped target is the target itself
and differs from the joint, the resolver succeeds with `d = 1/100000`, yet the returned
pitch is `90` degrees and rotating `S + R*d = (1/100000, 0)` about the joint by it gives
`(0, 1/100000)`, not the target. -/
theorem C1_pitch_pointing_counterexample :
    FVector2D.mk 0 0 ≠ FVector2D.mk 1 0 ∧
    CalculateNearestValidTargetLocation2D ⟨0, 0⟩ ⟨0, 0⟩ ⟨1, 0⟩ ⟨-1 / 100000, 0⟩ =
      ⟨-1 / 100000, 0⟩ ∧
    FVector2D.mk (-1 / 100000) 0 ≠ FVector2D.mk 0 0 ∧
    CalculateBarrelRayDistance ⟨0, 0⟩ ⟨0, 0⟩ ⟨1, 0⟩ ⟨-1 / 100000, 0⟩ = some (1 / 100000) ∧
    CalculateTurretPitch ⟨0, 0, 0⟩ ⟨0, 0, 0⟩ ⟨1, 0, 0⟩ ⟨-1 / 100000, 0, 0⟩ = 90 ∧
    FVector2D.mk 0 0 + (FVector2D.mk 0 0 +
        (FVector2D.mk 1 0 - FVector2D.mk 0 0).GetSafeNormal * (1 / 100000 : ℝ)
        - FVector2D.mk 0 0).GetRotated
        (CalculateTurretPitch ⟨0, 0, 0⟩ ⟨0, 0, 0⟩ ⟨1, 0, 0⟩ ⟨-1 / 100000, 0, 0⟩) ≠
      FVector2D.mk (-1 / 100000) 0 := by
  obtain ⟨hclamp, hray, hpitch⟩ := CalculateTurretPitch_tiny_target
  refine ⟨?_, hclamp, ?_, hray, hpitch, ?_⟩
  · intro h
    have hx := congrArg FVector2D.X h
    norm_num at hx
  · intro h
    have hx := congrArg FVector2D.X h
    norm_num at hx
  · rw [hpitch, FVector2D.GetRotated_quarter]
    intro h
    have hy := congrArg FVector2D.Y h
    simp only [FVector2D.sub_origin, FVector2D.origin_add, FVector2D.GetSafeNormal_unit_X,
      FVector2D.mul2_X] at hy
    norm_num at hy

/-- C1 (amended): in the X-Z projection, whenever `CalculateBarrelRayDistance` succeeds on
the clamped target `T'` with distance `d` and the squared distance of `T'` from the joint
exceeds the safe-normalisation tolerance `SMALL_NUMBER`, the barrel ray `R` is a unit
vector and rotating the point `S + R*d` counter-clockwise about the joint `J` by the pitch
that `CalculateTurretPitch` returns (in degrees) yields exactly `T'`. -/
theorem C1_pitch_points_barrel_at_target (J S E T : FVector) (d : ℝ)
    (hd : CalculateBarrelRayDistance J.XZ S.XZ E.XZ
      (CalculateNearestValidTargetLocation2D J.XZ S.XZ E.XZ T.XZ) = some d)
    (htol : SMALL_NUMBER <
      (CalculateNearestValidTargetLocation2D J.XZ S.XZ E.XZ T.XZ - J.XZ).Size ^ 2) :
    ((E.XZ - S.XZ).GetSafeNormal.X * (E.XZ - S.XZ).GetSafeNormal.X +
      (E.XZ - S.XZ).GetSafeNormal.Y * (E.XZ - S.XZ).GetSafeNormal.Y = 1) ∧
    J.XZ + (S.XZ + (E.XZ - S.XZ).GetSafeNormal * d - J.XZ).GetRotated
        (CalculateTurretPitch J S E T) =
      CalculateNearestValidTargetLocation2D J.XZ S.XZ E.XZ T.XZ := by
  refine ⟨(CalculateBarrelRayDistance_unit_ray hd).2, ?_⟩
  rw [CalculateTurretPitch_of_some hd]
  rw [FVector2D.Size_sq] at htol
  have hsq := CalculateBarrelRayDistance_sq_eq hd
  rw [GetRotated_CalculateAngle (hsq ▸ htol) hsq]
  ext <;> simp

/-- Witness of C1 (amended): joint `(0,0,0)`, barrel from `(1,0,0)` to `(2,0,0)` and the
target `(0,0,3)` straight above the joint; the ray distance is `2`. -/
theorem C1_pitch_points_barrel_at_target_witness :
    CalculateBarrelRayDistance (FVector.mk 0 0 0).XZ (FVector.mk 1 0 0).XZ
      (FVector.mk 2 0 0).XZ
      (CalculateNearestValidTargetLocation2D (FVector.mk 0 0 0).XZ (FVector.mk 1 0 0).XZ
        (FVector.mk 2 0 0).XZ (FVector.mk 0 0 3).XZ) = some 2 ∧
    SMALL_NUMBER <
      (CalculateNearestValidTargetLocation2D (FVector.mk 0 0 0).XZ (FVector.mk 1 0 0).XZ
        (FVector.mk 2 0 0).XZ (FVector.mk 0 0 3).XZ - (FVector.mk 0 0 0).XZ).Size ^ 2 ∧
    ((((FVector.mk 2 0 0).XZ - (FVector.mk 1 0 0).XZ).GetSafeNormal.X *
        ((FVector.mk 2 0 0).XZ - (FVector.mk 1 0 0).XZ).GetSafeNormal.X +
      ((FVector.mk 2 0 0).XZ - (FVector.mk 1 0 0).XZ).GetSafeNormal.Y *
        ((FVector.mk 2 0 0).XZ - (FVector.mk 1 0 0).XZ).GetSafeNormal.Y = 1) ∧
    (FVector.mk 0 0 0).XZ + ((FVector.mk 1 0 0).XZ +
        ((FVector.mk 2 0 0).XZ - (FVector.mk 1 0 0).XZ).GetSafeNormal * (2 : ℝ)
        - (FVector.mk 0 0 0).XZ).GetRotated
        (CalculateTurretPitch ⟨0, 0, 0⟩ ⟨1, 0, 0⟩ ⟨2, 0, 0⟩ ⟨0, 0, 3⟩) =
      CalculateNearestValidTargetLocation2D (FVector.mk 0 0 0).XZ (FVector.mk 1 0 0).XZ
        (FVector.mk 2 0 0).XZ (FVector.mk 0 0 3).XZ) := by
  have hsz : (FVector2D.mk 0 3).Size = 3 := by
    rw [FVector2D.Size_on_Y_axis]
    norm_num
  have hclamp : CalculateNearestValidTargetLocation2D (FVector.mk 0 0 0).XZ
      (FVector.mk 1 0 0).XZ (FVector.mk 2 0 0).XZ (FVector.mk 0 0 3).XZ = ⟨0, 3⟩ := by
    simp only [FVector.XZ]
    rw [CalculateNearestValidTargetLocation2D_eq, paddedMin_example, FVector2D.sub_origin,
      hsz, if_neg (by norm_num)]
  have hray : CalculateBarrelRayDistance (FVector.mk 0 0 0).XZ (FVector.mk 1 0 0).XZ
      (FVector.mk 2 0 0).XZ
      (CalculateNearestValidTargetLocation2D (FVector.mk 0 0 0).XZ (FVector.mk 1 0 0).XZ
        (FVector.mk 2 0 0).XZ (FVector.mk 0 0 3).XZ) = some 2 := by
    rw [hclamp]
    simp only [FVector.XZ]
    have h := CalculateBarrelRayDistance_axis 1 2 ⟨0, 3⟩ (by norm_num)
      (by unfold SMALL_NUMBER; norm_num)
    have hsel : SelectBestRayDistance (-1 - 3) (-1 + 3) = 2 := by
      unfold SelectBestRayDistance FMath.Min FMath.Max
      norm_num
    rw [hsz, hsel] at h
    exact h
  have htol : SMALL_NUMBER <
      (CalculateNearestValidTargetLocation2D (FVector.mk 0 0 0).XZ (FVector.mk 1 0 0).XZ
        (FVector.mk 2 0 0).XZ (FVector.mk 0 0 3).XZ - (FVector.mk 0 0 0).XZ).Size ^ 2 := by
    rw [hclamp]
    simp only [FVector.XZ, FVector2D.sub_origin, hsz]
    unfold SMALL_NUMBER
    norm_num
  exact ⟨hray, htol, C1_pitch_points_barrel_at_target ⟨0, 0, 0⟩ ⟨1, 0, 0⟩ ⟨2, 0, 0⟩
    ⟨0, 0, 3⟩ 2 hray htol⟩

/-! ## The orchestrator -/

@[simp] theorem FQuat.qmul_X (Q1 Q2 : FQuat) :
    (Q1 * Q2).X = Q1.W * Q2.X + Q1.X * Q2.W + Q1.Y * Q2.Z - Q1.Z * Q2.Y := rfl

@[simp] theorem FQuat.qmul_Y (Q1 Q2 : FQuat) :
    (Q1 * Q2).Y = Q1.W * Q2.Y - Q1.X * Q2.Z + Q1.Y * Q2.W + Q1.Z * Q2.X := rfl

@[simp] theorem FQuat.qmul_Z (Q1 Q2 : FQuat) :
    (Q1 * Q2).Z = Q1.W * Q2.Z + Q1.X * Q2.Y - Q1.Y * Q2.X + Q1.Z * Q2.W := rfl

@[simp] theorem FQuat.qmul_W (Q1 Q2 : FQuat) :
    (Q1 * Q2).W = Q1.W * Q2.W - Q1.X * Q2.X - Q1.Y * Q2.Y - Q1.Z * Q2.Z := rfl

theorem FQuat.Identity_RotateVector (V : FVector) : FQuat.Identity.RotateVector V = V := by
  ext <;> simp [FQuat.RotateVector, FQuat.Identity, FVector.scale, FVector.CrossProduct]

theorem FVector.OneVector_mul (V : FVector) : FVector.OneVector * V = V := by
  ext <;> simp [FVector.OneVector]

theorem FVector.add_ZeroVector (V : FVector) : V + FVector.ZeroVector = V := by
  ext <;> simp [FVector.ZeroVector]

theorem FMath.Fmod_zero (Y : ℝ) : FMath.Fmod 0 Y = 0 := by
  simp [FMath.Fmod]

/-- The zero rotator is its own inverse. -/
theorem FRotator.GetInverse_zero : (FRotator.mk 0 0 0).GetInverse = ⟨0, 0, 0⟩ := by
  have hq : (FRotator.mk 0 0 0).Quaternion.Inverse = ⟨0, 0, 0, 1⟩ := by
    ext <;> simp [FRotator.Quaternion, FQuat.Inverse, FMath.Fmod_zero]
  have h1 : FMath.Atan2 0 1 = 0 := FMath.Atan2_of_nonneg (by norm_num)
  unfold FRotator.GetInverse
  rw [hq]
  ext <;> norm_num [FQuat.Rotator, FMath.FastAsin, h1]

theorem FRotator.RotateVector_zero (V : FVector) : (FRotator.mk 0 0 0).RotateVector V = V := by
  ext <;> simp [FRotator.RotateVector, FMath.DegreesToRadians]

/-- The identity transform composed with a pure translation by the zero vector, with its
scale reset and inverted, maps every point to itself. -/
theorem FTransform.identity_chain
    (M : FTransform → FTransform → FTransform) (P : FVector) :
    (((FTransform.Multiply M (FTransform.ofTranslation ⟨0, 0, 0⟩)
      FTransform.Default).SetScale3D FVector.OneVector).Inverse).TransformPosition P = P := by
  have hneg : ¬ FTransform.AnyHasNegativeScale FVector.OneVector FVector.OneVector := by
    unfold FTransform.AnyHasNegativeScale FVector.OneVector
    norm_num
  have hmul : FTransform.Multiply M (FTransform.ofTranslation ⟨0, 0, 0⟩) FTransform.Default =
      FTransform.Default := by
    unfold FTransform.Multiply
    simp only [FTransform.ofTranslation, FTransform.Default, hneg, if_false]
    ext <;> simp [FQuat.Identity, FVector.OneVector, FVector.ZeroVector, FQuat.RotateVector,
      FVector.scale, FVector.CrossProduct]
  have hsmall : ¬ |(1 : ℝ)| ≤ SMALL_NUMBER := by
    unfold SMALL_NUMBER
    norm_num
  have hinv : (FTransform.Default.SetScale3D FVector.OneVector).Inverse =
      FTransform.Default := by
    simp only [FTransform.Inverse, FTransform.SetScale3D, FTransform.Default,
      FTransform.GetSafeScaleReciprocal, FVector.OneVector, hsmall, if_false]
    ext <;> simp [FQuat.Identity, FQuat.Inverse, FVector.ZeroVector, FQuat.RotateVector,
      FVector.scale, FVector.CrossProduct]
  rw [hmul, hinv]
  simp only [FTransform.TransformPosition, FTransform.Default, FQuat.Identity_RotateVector,
    FVector.OneVector_mul, FVector.add_ZeroVector]

/-- The signed angle from a vector longer than the tolerance to itself is `0`. -/
theorem CalculateAngle_self {A : FVector2D} (hA : SMALL_NUMBER < A.X * A.X + A.Y * A.Y) :
    CalculateAngleToRotateFromFirstVectorToSecondVector A A = 0 := by
  have hu := FVector2D.GetSafeNormal_unit hA
  simp only [CalculateAngleToRotateFromFirstVectorToSecondVector,
    CalculateAngleBetweenNormalizedVectors, FVector2D.dot, hu, FMath.Acos, Real.arccos_one,
    FMath.RadiansToDegrees, zero_mul, mul_zero]

/-- The pitch for a barrel that starts at the joint, lies along `+X` with length `L > 0`,
and has the target at its end, is `0`. -/
theorem CalculateTurretPitch_barrel_at_target (L : ℝ) (hL : 0 < L) :
    CalculateTurretPitch ⟨0, 0, 0⟩ ⟨0, 0, 0⟩ ⟨L, 0, 0⟩ ⟨L, 0, 0⟩ = 0 := by
  have hpm : paddedMin ⟨0, 0⟩ ⟨0, 0⟩ ⟨L, 0⟩ = 0 := by
    simp only [paddedMin, FVector2D.sub_origin, FVector2D.Size_on_axis, abs_zero]
    rw [min_eq_left (abs_nonneg L)]
    norm_num
  have hclamp : CalculateNearestValidTargetLocation2D ⟨0, 0⟩ ⟨0, 0⟩ ⟨L, 0⟩ ⟨L, 0⟩ = ⟨L, 0⟩ := by
    rw [CalculateNearestValidTargetLocation2D_eq, hpm,
      if_neg (not_lt.mpr (FVector2D.Size_nonneg _))]
  rcases le_or_lt (L * L) SMALL_NUMBER with hs | hs
  · apply CalculateTurretPitch_of_none
    simp only [FVector.XZ]
    rw [hclamp]
    have hR : (FVector2D.mk L 0 - FVector2D.mk 0 0).GetSafeNormal = ⟨0, 0⟩ := by
      rw [FVector2D.sub_origin]
      exact FVector2D.GetSafeNormal_of_le (by simpa using hs)
    have hz : FMath.IsNearlyZero (0 : ℝ) := by
      unfold FMath.IsNearlyZero
      rw [abs_zero]
      exact SMALL_NUMBER_pos.le
    unfold CalculateBarrelRayDistance
    simp only [CalculateQuadraticCoefficients, hR, FMath.Pow_two]
    norm_num [CalculateQuadraticRoots, hz]
  · have hray : CalculateBarrelRayDistance (FVector.mk 0 0 0).XZ (FVector.mk 0 0 0).XZ
        (FVector.mk L 0 0).XZ
        (CalculateNearestValidTargetLocation2D (FVector.mk 0 0 0).XZ (FVector.mk 0 0 0).XZ
          (FVector.mk L 0 0).XZ (FVector.mk L 0 0).XZ) = some L := by
      simp only [FVector.XZ]
      rw [hclamp]
      have h := CalculateBarrelRayDistance_axis 0 L ⟨L, 0⟩ hL (by simpa using hs)
      have hsel : SelectBestRayDistance (-0 - (FVector2D.mk L 0).Size)
          (-0 + (FVector2D.mk L 0).Size) = L := by
        rw [FVector2D.Size_on_axis, abs_of_pos hL]
        have hnot : ¬ (-0 - L < 0 ∧ -0 + L < 0) := by
          intro hh
          linarith [hh.2]
        unfold SelectBestRayDistance
        rw [if_neg hnot, FMath.Max_eq_max]
        rw [max_eq_right (by linarith)]
        ring
      rw [hsel] at h
      exact h
    rw [CalculateTurretPitch_of_some hray]
    simp only [FVector.XZ]
    rw [hclamp]
    have hR : (FVector2D.mk L 0 - FVector2D.mk 0 0).GetSafeNormal = ⟨1, 0⟩ := by
      rw [FVector2D.sub_origin]
      exact FVector2D.GetSafeNormal_pos_X hL hs
    have hP : FVector2D.mk 0 0 + (FVector2D.mk L 0 - FVector2D.mk 0 0).GetSafeNormal * L
        - FVector2D.mk 0 0 = FVector2D.mk L 0 - FVector2D.mk 0 0 := by
      rw [hR]
      ext <;> simp
    rw [hP]
    apply CalculateAngle_self
    simpa using hs

/-- C10: round trip with no offsets.  For every `L > 0`, with the identity actor transform,
joint offset `(0,0,0)`, barrel-start offset `(0,0,0)`, barrel offset `(L,0,0)` and target
`(L,0,0)`, `CalculateTurretRotation_ForActor` outputs pitch `0`, yaw `0` and roll `0`
(whatever the engine's negative-scale multiplication path does). -/
theorem C10_round_trip_no_offsets (M : FTransform → FTransform → FTransform) (L : ℝ)
    (hL : 0 < L) :
    CalculateTurretRotation_ForActor M FTransform.Default ⟨0, 0, 0⟩ ⟨0, 0, 0⟩ ⟨L, 0, 0⟩
      ⟨L, 0, 0⟩ = { Pitch := 0, Yaw := 0, Roll := 0 } := by
  have hscale : ∀ V : FVector,
      (FTransform.Default.SetScale3D FTransform.Default.GetScale3D).TransformPosition V = V := by
    intro V
    simp only [FTransform.TransformPosition, FTransform.SetScale3D, FTransform.GetScale3D,
      FTransform.Default, FQuat.Identity_RotateVector, FVector.OneVector_mul,
      FVector.add_ZeroVector]
  have hyaw : CalculateTurretYaw ⟨0, 0, 0⟩ ⟨L, 0, 0⟩ = 0 := by
    simp only [CalculateTurretYaw, FVector.sub3_X, FVector.sub3_Y, sub_zero,
      FMath.Atan2_of_nonneg hL.le, FMath.RadiansToDegrees, zero_mul]
  have hend : (FVector.mk 0 0 0 + FVector.mk L 0 0) = ⟨L, 0, 0⟩ := by
    ext <;> simp
  simp only [CalculateTurretRotation_ForActor, CalculateTurretRotation_ForAimJoint, hscale,
    FTransform.identity_chain, hyaw, FRotator.GetInverse_zero, FRotator.RotateVector_zero,
    hend, FVector.ZeroVector, CalculateTurretPitch_barrel_at_target L hL,
    FRotator.ZeroRotator]

/-- Witness of C10 with a barrel of length `1`. -/
theorem C10_round_trip_no_offsets_witness :
    (0 : ℝ) < 1 ∧
    CalculateTurretRotation_ForActor (fun A _ => A) FTransform.Default ⟨0, 0, 0⟩ ⟨0, 0, 0⟩
      ⟨1, 0, 0⟩ ⟨1, 0, 0⟩ = { Pitch := 0, Yaw := 0, Roll := 0 } :=
  ⟨by norm_num, C10_round_trip_no_offsets (fun A _ => A) 1 (by norm_num)⟩

/-! ## Degenerate geometry and the range of the angles -/

/-- A barrel within the normalisation tolerance makes the resolver fail, whatever the
joint and the target are: the ray is the zero vector and the leading coefficient `0`. -/
theorem CalculateBarrelRayDistance_of_small_barrel {S E : FVector2D} (J T : FVector2D)
    (h : (E - S).X * (E - S).X + (E - S).Y * (E - S).Y ≤ SMALL_NUMBER) :
    (CalculateQuadraticCoefficients J S E T).1 = 0 ∧
    CalculateBarrelRayDistance J S E T = none := by
  have hR := FVector2D.GetSafeNormal_of_le h
  have ha : (CalculateQuadraticCoefficients J S E T).1 = 0 := by
    simp only [CalculateQuadraticCoefficients, hR, FMath.Pow_two]
    norm_num
  have hz : FMath.IsNearlyZero (2 * (0 : ℝ)) := by
    unfold FMath.IsNearlyZero
    rw [mul_zero, abs_zero]
    exact SMALL_NUMBER_pos.le
  refine ⟨ha, ?_⟩
  unfold CalculateBarrelRayDistance
  simp only [ha]
  simp only [CalculateQuadraticRoots, hz, if_true]

/-- C12: degenerate geometry yields pitch `0`.  With joint, barrel start, barrel end and
target all equal to `P`, the barrel ray is the zero vector, the leading coefficient of the
quadratic is `0`, the ray-distance resolver fails and `CalculateTurretPitch` returns
exactly `0`. -/
theorem C12_degenerate_geometry_pitch_zero (P : FVector) :
    (P.XZ - P.XZ).GetSafeNormal = ⟨0, 0⟩ ∧
    (CalculateQuadraticCoefficients P.XZ P.XZ P.XZ
      (CalculateNearestValidTargetLocation2D P.XZ P.XZ P.XZ P.XZ)).1 = 0 ∧
    CalculateBarrelRayDistance P.XZ P.XZ P.XZ
      (CalculateNearestValidTargetLocation2D P.XZ P.XZ P.XZ P.XZ) = none ∧
    CalculateTurretPitch P P P P = 0 := by
  have h : (P.XZ - P.XZ).X * (P.XZ - P.XZ).X + (P.XZ - P.XZ).Y * (P.XZ - P.XZ).Y ≤
      SMALL_NUMBER := by
    simp only [FVector2D.sub2_X, FVector2D.sub2_Y, sub_self, mul_zero, add_zero]
    exact SMALL_NUMBER_pos.le
  obtain ⟨ha, hnone⟩ := CalculateBarrelRayDistance_of_small_barrel P.XZ
    (CalculateNearestValidTargetLocation2D P.XZ P.XZ P.XZ P.XZ) h
  exact ⟨FVector2D.GetSafeNormal_of_le h, ha, hnone, CalculateTurretPitch_of_none hnone⟩

theorem FMath.RadiansToDegrees_arccos_mem (x : ℝ) :
    0 ≤ FMath.RadiansToDegrees (Real.arccos x) ∧
    FMath.RadiansToDegrees (Real.arccos x) ≤ 180 := by
  have hpi : 0 < Real.pi := Real.pi_pos
  unfold FMath.RadiansToDegrees
  constructor
  · exact mul_nonneg (Real.arccos_nonneg x) (div_pos (by norm_num) hpi).le
  · have h : (180 : ℝ) = Real.pi * (180 / Real.pi) := by field_simp
    nth_rewrite 2 [h]
    exact mul_le_mul_of_nonneg_right (Real.arccos_le_pi x) (div_pos (by norm_num) hpi).le

/-- The signed angle lies between `-180` and `180` degrees. -/
theorem CalculateAngle_mem (u v : FVector2D) :
    -180 ≤ CalculateAngleToRotateFromFirstVectorToSecondVector u v ∧
    CalculateAngleToRotateFromFirstVectorToSecondVector u v ≤ 180 := by
  obtain ⟨h0, h1⟩ := FMath.RadiansToDegrees_arccos_mem
    (u.GetSafeNormal.dot v.GetSafeNormal)
  simp only [CalculateAngleToRotateFromFirstVectorToSecondVector,
    CalculateAngleBetweenNormalizedVectors, FMath.Acos]
  split_ifs
  · constructor <;> linarith
  · constructor <;> linarith

/-- C19: range of the angles.  For every pair of 2D vectors the unsigned angle computed
from the safe-normalised vectors lies in `[0, 180]` degrees and the signed angle in
`[-180, 180]`; consequently `CalculateTurretPitch` returns a value in `[-180, 180]` for
every joint, barrel start, barrel end and target. -/
theorem C19_angle_ranges (u v : FVector2D) (J S E T : FVector) :
    (0 ≤ FMath.RadiansToDegrees
        (CalculateAngleBetweenNormalizedVectors u.GetSafeNormal v.GetSafeNormal) ∧
      FMath.RadiansToDegrees
        (CalculateAngleBetweenNormalizedVectors u.GetSafeNormal v.GetSafeNormal) ≤ 180) ∧
    (-180 ≤ CalculateAngleToRotateFromFirstVectorToSecondVector u v ∧
      CalculateAngleToRotateFromFirstVectorToSecondVector u v ≤ 180) ∧
    (-180 ≤ CalculateTurretPitch J S E T ∧ CalculateTurretPitch J S E T ≤ 180) := by
  refine ⟨?_, CalculateAngle_mem u v, ?_⟩
  · simp only [CalculateAngleBetweenNormalizedVectors, FMath.Acos]
    exact FMath.RadiansToDegrees_arccos_mem _
  · cases h : CalculateBarrelRayDistance J.XZ S.XZ E.XZ
        (CalculateNearestValidTargetLocation2D J.XZ S.XZ E.XZ T.XZ) with
    | none =>
      rw [CalculateTurretPitch_of_none h]
      constructor <;> norm_num
    | some d =>
      rw [CalculateTurretPitch_of_some h]
      exact CalculateAngle_mem _ _

/-- The signed angle to a vector within the tolerance of zero is `90` degrees. -/
theorem CalculateAngle_of_second_small (A : FVector2D) {B : FVector2D}
    (hB : B.X * B.X + B.Y * B.Y ≤ SMALL_NUMBER) :
    CalculateAngleToRotateFromFirstVectorToSecondVector A B = 90 := by
  have hsign : ShouldTurnCounterClockwiseToMeet A.GetSafeNormal ⟨0, 0⟩ := by
    rw [ShouldTurnCounterClockwiseToMeet_iff]
    simp
  simp only [CalculateAngleToRotateFromFirstVectorToSecondVector,
    FVector2D.GetSafeNormal_of_le hB, hsign, if_true, one_mul,
    CalculateAngleBetweenNormalizedVectors, FVector2D.dot, mul_zero, add_zero, FMath.Acos,
    Real.arccos_zero, FMath.RadiansToDegrees]
  have hpi : Real.pi ≠ 0 := Real.pi_ne_zero
  field_simp
  ring

/-- C17 as stated fails: for the zero vector `u = (0,0)` and `v = (1,0)` the safe normal
of `u` is the zero vector, yet the signed angle is `90` degrees, not `0`. -/
theorem C17_zero_vector_angle_counterexample :
    (FVector2D.mk 0 0).GetSafeNormal = ⟨0, 0⟩ ∧
    CalculateAngleToRotateFromFirstVectorToSecondVector ⟨0, 0⟩ ⟨1, 0⟩ = 90 ∧
    CalculateAngleToRotateFromFirstVectorToSecondVector ⟨0, 0⟩ ⟨1, 0⟩ ≠ 0 := by
  have h0 : (FVector2D.mk 0 0).X * (FVector2D.mk 0 0).X +
      (FVector2D.mk 0 0).Y * (FVector2D.mk 0 0).Y ≤ SMALL_NUMBER := by
    simp only [mul_zero, add_zero]
    exact SMALL_NUMBER_pos.le
  have h90 := CalculateAngle_of_first_small ⟨1, 0⟩ h0
  refine ⟨FVector2D.GetSafeNormal_of_le h0, h90, ?_⟩
  rw [h90]
  norm_num

/-- C17 (amended): for every 2D vectors `u` and `v` of which at least one is numerically of
zero length (squared length at most `SMALL_NUMBER`), safe normalisation yields the zero
vector for that one, the dot product of the safe normals is `0`, and
`CalculateAngleToRotateFromFirstVectorToSecondVector(u, v)` returns `90` degrees
(`acos 0`, with the counter-clockwise sign). -/
theorem C17_zero_vector_angle_is_quarter_turn (u v : FVector2D)
    (h : u.X * u.X + u.Y * u.Y ≤ SMALL_NUMBER ∨ v.X * v.X + v.Y * v.Y ≤ SMALL_NUMBER) :
    (u.GetSafeNormal = ⟨0, 0⟩ ∨ v.GetSafeNormal = ⟨0, 0⟩) ∧
    u.GetSafeNormal.dot v.GetSafeNormal = 0 ∧
    CalculateAngleToRotateFromFirstVectorToSecondVector u v = 90 := by
  rcases h with h | h
  · refine ⟨Or.inl (FVector2D.GetSafeNormal_of_le h), ?_, CalculateAngle_of_first_small v h⟩
    rw [FVector2D.GetSafeNormal_of_le h]
    simp [FVector2D.dot]
  · refine ⟨Or.inr (FVector2D.GetSafeNormal_of_le h), ?_, CalculateAngle_of_second_small u h⟩
    rw [FVector2D.GetSafeNormal_of_le h]
    simp [FVector2D.dot]

/-- Witness of C17 (amended) on `u = (0,0)` and `v = (1,0)`. -/
theorem C17_zero_vector_angle_is_quarter_turn_witness :
    ((FVector2D.mk 0 0).X * (FVector2D.mk 0 0).X + (FVector2D.mk 0 0).Y * (FVector2D.mk 0 0).Y
        ≤ SMALL_NUMBER ∨
      (FVector2D.mk 1 0).X * (FVector2D.mk 1 0).X + (FVector2D.mk 1 0).Y * (FVector2D.mk 1 0).Y
        ≤ SMALL_NUMBER) ∧
    (((FVector2D.mk 0 0).GetSafeNormal = ⟨0, 0⟩ ∨ (FVector2D.mk 1 0).GetSafeNormal = ⟨0, 0⟩) ∧
      (FVector2D.mk 0 0).GetSafeNormal.dot (FVector2D.mk 1 0).GetSafeNormal = 0 ∧
      CalculateAngleToRotateFromFirstVectorToSecondVector ⟨0, 0⟩ ⟨1, 0⟩ = 90) := by
  have h : (FVector2D.mk 0 0).X * (FVector2D.mk 0 0).X +
        (FVector2D.mk 0 0).Y * (FVector2D.mk 0 0).Y ≤ SMALL_NUMBER ∨
      (FVector2D.mk 1 0).X * (FVector2D.mk 1 0).X +
        (FVector2D.mk 1 0).Y * (FVector2D.mk 1 0).Y ≤ SMALL_NUMBER := by
    left
    simp only [mul_zero, add_zero]
    exact SMALL_NUMBER_pos.le
  exact ⟨h, C17_zero_vector_angle_is_quarter_turn ⟨0, 0⟩ ⟨1, 0⟩ h⟩

/-! ## The signed angle between two vectors -/

/-- The turn direction computed from the safe normals of two vectors longer than the
tolerance is the one computed from the vectors themselves. -/
theorem ShouldTurnCounterClockwiseToMeet_GetSafeNormal {u v : FVector2D}
    (hu : SMALL_NUMBER < u.X * u.X + u.Y * u.Y) (hv : SMALL_NUMBER < v.X * v.X + v.Y * v.Y) :
    ShouldTurnCounterClockwiseToMeet u.GetSafeNormal v.GetSafeNormal ↔
      0 ≤ (u.GetRotated 90).dot v := by
  have hru : 0 < Real.sqrt (u.X * u.X + u.Y * u.Y) :=
    Real.sqrt_pos.mpr (lt_trans SMALL_NUMBER_pos hu)
  have hrv : 0 < Real.sqrt (v.X * v.X + v.Y * v.Y) :=
    Real.sqrt_pos.mpr (lt_trans SMALL_NUMBER_pos hv)
  rw [ShouldTurnCounterClockwiseToMeet_iff, FVector2D.GetSafeNormal_of_lt hu,
    FVector2D.GetSafeNormal_of_lt hv, FVector2D.GetRotated_quarter]
  simp only [FVector2D.dot]
  have hcross : u.X / Real.sqrt (u.X * u.X + u.Y * u.Y) *
        (v.Y / Real.sqrt (v.X * v.X + v.Y * v.Y)) -
      u.Y / Real.sqrt (u.X * u.X + u.Y * u.Y) *
        (v.X / Real.sqrt (v.X * v.X + v.Y * v.Y)) =
      (-u.Y * v.X + u.X * v.Y) /
        (Real.sqrt (u.X * u.X + u.Y * u.Y) * Real.sqrt (v.X * v.X + v.Y * v.Y)) := by
    field_simp
    ring
  rw [hcross, le_div_iff₀ (mul_pos hru hrv), zero_mul]

/-- C18 as stated fails: `u = (1/100000, 0)` and `v = (1, 0)` are non-zero and point the
same way, yet the signed angle is `90` degrees: the safe normal of `u` is the zero vector,
which no rotation takes to the safe normal `(1, 0)` of `v`, and rotating the true unit
vector `(1, 0)` of `u` by `90` degrees gives `(0, 1)`. -/
theorem C18_signed_angle_counterexample :
    FVector2D.mk (1 / 100000) 0 ≠ FVector2D.mk 0 0 ∧
    FVector2D.mk 1 0 ≠ FVector2D.mk 0 0 ∧
    CalculateAngleToRotateFromFirstVectorToSecondVector ⟨1 / 100000, 0⟩ ⟨1, 0⟩ = 90 ∧
    (FVector2D.mk (1 / 100000) 0).GetSafeNormal.GetRotated
        (CalculateAngleToRotateFromFirstVectorToSecondVector ⟨1 / 100000, 0⟩ ⟨1, 0⟩) ≠
      (FVector2D.mk 1 0).GetSafeNormal ∧
    (FVector2D.mk 1 0).GetRotated
        (CalculateAngleToRotateFromFirstVectorToSecondVector ⟨1 / 100000, 0⟩ ⟨1, 0⟩) ≠
      (FVector2D.mk 1 0).GetSafeNormal := by
  have hs : (FVector2D.mk (1 / 100000) 0).X * (FVector2D.mk (1 / 100000) 0).X +
      (FVector2D.mk (1 / 100000) 0).Y * (FVector2D.mk (1 / 100000) 0).Y ≤ SMALL_NUMBER := by
    unfold SMALL_NUMBER
    norm_num
  have h90 := CalculateAngle_of_first_small ⟨1, 0⟩ hs
  refine ⟨?_, ?_, h90, ?_, ?_⟩
  · intro h
    have hx := congrArg FVector2D.X h
    norm_num at hx
  · intro h
    have hx := congrArg FVector2D.X h
    norm_num at hx
  · rw [h90, FVector2D.GetSafeNormal_of_le hs, FVector2D.GetRotated_quarter,
      FVector2D.GetSafeNormal_unit_X]
    intro h
    have hx := congrArg FVector2D.X h
    norm_num at hx
  · rw [h90, FVector2D.GetRotated_quarter, FVector2D.GetSafeNormal_unit_X]
    intro h
    have hx := congrArg FVector2D.X h
    norm_num at hx

/-- C18 (amended): for every 2D vectors `u` and `v` whose squared lengths exceed the
safe-normalisation tolerance `SMALL_NUMBER`, rotating the normalised `u` counter-clockwise
by `CalculateAngleToRotateFromFirstVectorToSecondVector(u, v)` degrees gives the
normalised `v`; the result is `+angle` when `dot(perp(u), v) >= 0` (`perp` = `u` rotated
by `+90` degrees) and `-angle` otherwise, where `angle` is
`acos(dot(normalised u, normalised v))` in degrees. -/
theorem C18_signed_angle_rotates_first_onto_second (u v : FVector2D)
    (hu : SMALL_NUMBER < u.X * u.X + u.Y * u.Y) (hv : SMALL_NUMBER < v.X * v.X + v.Y * v.Y) :
    u.GetSafeNormal.GetRotated (CalculateAngleToRotateFromFirstVectorToSecondVector u v) =
      v.GetSafeNormal ∧
    CalculateAngleToRotateFromFirstVectorToSecondVector u v =
      (if 0 ≤ (u.GetRotated 90).dot v then (1 : ℝ) else -1) *
        FMath.RadiansToDegrees (Real.arccos (u.GetSafeNormal.dot v.GetSafeNormal)) := by
  have hang : CalculateAngleToRotateFromFirstVectorToSecondVector u v =
      (if ShouldTurnCounterClockwiseToMeet u.GetSafeNormal v.GetSafeNormal then (1 : ℝ)
        else -1) * FMath.RadiansToDegrees
        (CalculateAngleBetweenNormalizedVectors u.GetSafeNormal v.GetSafeNormal) := rfl
  constructor
  · rw [hang]
    exact GetRotated_signed_angle_unit (FVector2D.GetSafeNormal_unit hu)
      (FVector2D.GetSafeNormal_unit hv)
  · rw [hang]
    simp only [ShouldTurnCounterClockwiseToMeet_GetSafeNormal hu hv,
      CalculateAngleBetweenNormalizedVectors, FMath.Acos]

/-- Witness of C18 (amended) on `u = (1, 0)` and `v = (0, 1)`. -/
theorem C18_signed_angle_rotates_first_onto_second_witness :
    SMALL_NUMBER < (FVector2D.mk 1 0).X * (FVector2D.mk 1 0).X +
      (FVector2D.mk 1 0).Y * (FVector2D.mk 1 0).Y ∧
    SMALL_NUMBER < (FVector2D.mk 0 1).X * (FVector2D.mk 0 1).X +
      (FVector2D.mk 0 1).Y * (FVector2D.mk 0 1).Y ∧
    ((FVector2D.mk 1 0).GetSafeNormal.GetRotated
        (CalculateAngleToRotateFromFirstVectorToSecondVector ⟨1, 0⟩ ⟨0, 1⟩) =
      (FVector2D.mk 0 1).GetSafeNormal ∧
    CalculateAngleToRotateFromFirstVectorToSecondVector ⟨1, 0⟩ ⟨0, 1⟩ =
      (if 0 ≤ ((FVector2D.mk 1 0).GetRotated 90).dot ⟨0, 1⟩ then (1 : ℝ) else -1) *
        FMath.RadiansToDegrees
          (Real.arccos ((FVector2D.mk 1 0).GetSafeNormal.dot (FVector2D.mk 0 1).GetSafeNormal))) := by
  have h1 : SMALL_NUMBER < (FVector2D.mk 1 0).X * (FVector2D.mk 1 0).X +
      (FVector2D.mk 1 0).Y * (FVector2D.mk 1 0).Y := by
    unfold SMALL_NUMBER
    norm_num
  have h2 : SMALL_NUMBER < (FVector2D.mk 0 1).X * (FVector2D.mk 0 1).X +
      (FVector2D.mk 0 1).Y * (FVector2D.mk 0 1).Y := by
    unfold SMALL_NUMBER
    norm_num
  exact ⟨h1, h2, C18_signed_angle_rotates_first_onto_second ⟨1, 0⟩ ⟨0, 1⟩ h1 h2⟩

/-! ## Yaw alignment of the target -/

theorem FMath.Fmod_of_abs_lt {X Y : ℝ} (hY : 0 < Y) (h : |X| < Y) : FMath.Fmod X Y = X := by
  have hlt : X / Y < 1 := by
    rw [div_lt_one hY]
    exact lt_of_le_of_lt (le_abs_self X) h
  have hgt : -1 < X / Y := by
    rw [lt_div_iff₀ hY]
    have := neg_abs_le X
    linarith
  unfold FMath.Fmod
  split_ifs with h0
  · have hf : ⌊X / Y⌋ = 0 := Int.floor_eq_zero_iff.mpr ⟨h0, hlt⟩
    rw [hf]
    simp
  · have hc : ⌈X / Y⌉ = 0 := Int.ceil_eq_zero_iff.mpr ⟨hgt, (not_le.mp h0).le⟩
    rw [hc]
    simp

theorem FMath.RadiansToDegrees_DegreesToRadians (x : ℝ) :
    FMath.RadiansToDegrees (FMath.DegreesToRadians x) = x := by
  unfold FMath.DegreesToRadians FMath.RadiansToDegrees
  have hpi : Real.pi ≠ 0 := Real.pi_ne_zero
  field_simp

/-- The yaw lies in `(-180, 180]`. -/
theorem CalculateTurretYaw_mem (J T : FVector) :
    -180 < CalculateTurretYaw J T ∧ CalculateTurretYaw J T ≤ 180 := by
  have hpi : 0 < Real.pi := Real.pi_pos
  obtain ⟨hlo, hhi⟩ := FMath.Atan2_mem (T.Y - J.Y) (T.X - J.X)
  simp only [CalculateTurretYaw, FVector.sub3_X, FVector.sub3_Y, FMath.RadiansToDegrees]
  constructor
  · have h : -180 = -Real.pi * (180 / Real.pi) := by field_simp; ring
    rw [h]
    exact mul_lt_mul_of_pos_right hlo (div_pos (by norm_num) hpi)
  · have h : (180 : ℝ) = Real.pi * (180 / Real.pi) := by field_simp
    nth_rewrite 2 [h]
    exact mul_le_mul_of_nonneg_right hhi (div_pos (by norm_num) hpi).le

/-- The inverse of a pure-yaw rotator of less than a full turn is again a pure-yaw
rotator, whose yaw is the angle of the point `(cos yaw, -sin yaw)`. -/
theorem FRotator.GetInverse_pure_yaw {Yaw : ℝ} (h : |Yaw| < 360) :
    (FRotator.mk 0 Yaw 0).GetInverse =
      ⟨0, FMath.RadiansToDegrees (FMath.Atan2 (-Real.sin (FMath.DegreesToRadians Yaw))
        (Real.cos (FMath.DegreesToRadians Yaw))), 0⟩ := by
  have hhalf : FMath.DegreesToRadians Yaw = 2 * (Yaw * (Real.pi / 180 / 2)) := by
    unfold FMath.DegreesToRadians
    ring
  have hq : (FRotator.mk 0 Yaw 0).Quaternion.Inverse =
      ⟨0, 0, -Real.sin (Yaw * (Real.pi / 180 / 2)), Real.cos (Yaw * (Real.pi / 180 / 2))⟩ := by
    ext <;> simp [FRotator.Quaternion, FQuat.Inverse, FMath.Fmod_zero,
      FMath.Fmod_of_abs_lt (by norm_num : (0 : ℝ) < 360) h]
  have h1 : FMath.Atan2 0 1 = 0 := FMath.Atan2_of_nonneg (by norm_num)
  have hsin : 2 * (Real.cos (Yaw * (Real.pi / 180 / 2)) *
      -Real.sin (Yaw * (Real.pi / 180 / 2))) = -Real.sin (FMath.DegreesToRadians Yaw) := by
    rw [hhalf, Real.sin_two_mul]
    ring
  have hcos : 1 - 2 * (-Real.sin (Yaw * (Real.pi / 180 / 2)) *
      -Real.sin (Yaw * (Real.pi / 180 / 2))) = Real.cos (FMath.DegreesToRadians Yaw) := by
    rw [hhalf, Real.cos_two_mul]
    have := Real.sin_sq_add_cos_sq (Yaw * (Real.pi / 180 / 2))
    nlinarith
  unfold FRotator.GetInverse
  rw [hq]
  have hlo : ¬ ((0 : ℝ) < -(4999995 / 10000000)) := by norm_num
  have hhi : ¬ ((0 : ℝ) > 4999995 / 10000000) := by norm_num
  simp only [FQuat.Rotator, mul_zero, zero_mul, sub_self, add_zero, zero_add, hlo, hhi,
    if_false, hsin, hcos, FMath.FastAsin, Real.arcsin_zero, sub_zero, h1,
    FMath.RadiansToDegrees]

/-- A pure-yaw rotator acts on the X-Y plane as the counter-clockwise rotation by its yaw
and leaves Z alone. -/
theorem FRotator.RotateVector_pure_yaw (Yaw : ℝ) (V : FVector) :
    (FRotator.mk 0 Yaw 0).RotateVector V =
      ⟨V.X * Real.cos (FMath.DegreesToRadians Yaw) -
          V.Y * Real.sin (FMath.DegreesToRadians Yaw),
        V.X * Real.sin (FMath.DegreesToRadians Yaw) +
          V.Y * Real.cos (FMath.DegreesToRadians Yaw), V.Z⟩ := by
  have h0 : FMath.DegreesToRadians 0 = 0 := by
    unfold FMath.DegreesToRadians
    ring
  ext
  · simp [FRotator.RotateVector, h0]
    ring
  · simp [FRotator.RotateVector, h0]
  · simp [FRotator.RotateVector, h0]

theorem FMath.cos_sin_Atan2_unit {c s : ℝ} (h : c ^ 2 + s ^ 2 = 1) :
    Real.cos (FMath.Atan2 s c) = c ∧ Real.sin (FMath.Atan2 s c) = s := by
  have hc := FMath.sqrt_mul_cos_Atan2 s c
  have hs := FMath.sqrt_mul_sin_Atan2 s c
  rw [h, Real.sqrt_one, one_mul] at hc hs
  exact ⟨hc, hs⟩

theorem rotate_back_polar {r c s vx vy : ℝ} (hx : r * c = vx) (hy : r * s = vy)
    (h1 : s ^ 2 + c ^ 2 = 1) :
    vx * c - vy * -s = r ∧ vx * -s + vy * c = 0 := by
  subst hx hy
  constructor
  · have : r * c * c - r * s * -s = r * (s ^ 2 + c ^ 2) := by ring
    rw [this, h1, mul_one]
  · ring

/-- Applying the inverse of the pure-yaw rotation built from the yaw towards `V` puts `V`
on the X-Z half-plane `X >= 0`, `Y = 0`. -/
theorem align_target_with_turret (V : FVector) :
    (FRotator.mk 0 (CalculateTurretYaw ⟨0, 0, 0⟩ V) 0).GetInverse.RotateVector V =
      ⟨Real.sqrt (V.X ^ 2 + V.Y ^ 2), 0, V.Z⟩ := by
  obtain ⟨hlo, hhi⟩ := CalculateTurretYaw_mem ⟨0, 0, 0⟩ V
  have habs : |CalculateTurretYaw ⟨0, 0, 0⟩ V| < 360 := by
    rw [abs_lt]
    constructor <;> linarith
  have hyaw : FMath.DegreesToRadians (CalculateTurretYaw ⟨0, 0, 0⟩ V) = FMath.Atan2 V.Y V.X := by
    simp only [CalculateTurretYaw, FVector.sub3_X, FVector.sub3_Y, sub_zero,
      FMath.DegreesToRadians_RadiansToDegrees]
  have hx := FMath.sqrt_mul_cos_Atan2 V.Y V.X
  have hy := FMath.sqrt_mul_sin_Atan2 V.Y V.X
  have hunit : Real.cos (FMath.Atan2 V.Y V.X) ^ 2 + (-Real.sin (FMath.Atan2 V.Y V.X)) ^ 2 = 1 := by
    have := Real.sin_sq_add_cos_sq (FMath.Atan2 V.Y V.X)
    nlinarith
  obtain ⟨hc, hs⟩ := FMath.cos_sin_Atan2_unit hunit
  rw [FRotator.GetInverse_pure_yaw habs, FRotator.RotateVector_pure_yaw,
    FMath.DegreesToRadians_RadiansToDegrees, hyaw, hc, hs]
  have hsc := Real.sin_sq_add_cos_sq (FMath.Atan2 V.Y V.X)
  obtain ⟨kx, ky⟩ := rotate_back_polar hx hy hsc
  ext
  · exact kx
  · exact ky
  · rfl

/-- C20: yaw alignment puts the target on the turret's vertical plane.  For every
joint-space target `(x, y, z)`, the inverse of the pure-yaw rotation built from
`NewYaw = CalculateTurretYaw(origin, target)` maps the target to
`(sqrt(x^2 + y^2), 0, z)`, and that aligned target is the one
`CalculateTurretRotation_ForAimJoint` hands to the pitch solver. -/
theorem C20_yaw_alignment_of_target (x y z : ℝ) (W : FTransform)
    (AimJoint_To_BarrelStart BarrelStart_To_BarrelEnd TargetWorldLocation : FVector) :
    (FRotator.mk 0 (CalculateTurretYaw FVector.ZeroVector ⟨x, y, z⟩) 0).GetInverse.RotateVector
        ⟨x, y, z⟩ = ⟨Real.sqrt (x ^ 2 + y ^ 2), 0, z⟩ ∧
    0 ≤ Real.sqrt (x ^ 2 + y ^ 2) ∧
    (CalculateTurretRotation_ForAimJoint W AimJoint_To_BarrelStart BarrelStart_To_BarrelEnd
        TargetWorldLocation).Pitch =
      CalculateTurretPitch FVector.ZeroVector AimJoint_To_BarrelStart
        (AimJoint_To_BarrelStart + BarrelStart_To_BarrelEnd)
        ⟨Real.sqrt
            (((W.SetScale3D FVector.OneVector).Inverse.TransformPosition TargetWorldLocation).X ^ 2 +
              ((W.SetScale3D FVector.OneVector).Inverse.TransformPosition
                TargetWorldLocation).Y ^ 2),
          0, ((W.SetScale3D FVector.OneVector).Inverse.TransformPosition TargetWorldLocation).Z⟩ := by
  refine ⟨align_target_with_turret ⟨x, y, z⟩, Real.sqrt_nonneg _, ?_⟩
  simp only [CalculateTurretRotation_ForAimJoint, FVector.ZeroVector,
    align_target_with_turret]

/-! ## Pitch with the barrel starting at the joint -/

/-- The identity joint transform maps every world point to itself in joint space. -/
theorem FTransform.Default_unscaled_inverse_position (P : FVector) :
    ((FTransform.Default.SetScale3D FVector.OneVector).Inverse).TransformPosition P = P := by
  have hsmall : ¬ |(1 : ℝ)| ≤ SMALL_NUMBER := by
    unfold SMALL_NUMBER
    norm_num
  have hinv : (FTransform.Default.SetScale3D FVector.OneVector).Inverse =
      FTransform.Default := by
    simp only [FTransform.Inverse, FTransform.SetScale3D, FTransform.Default,
      FTransform.GetSafeScaleReciprocal, FVector.OneVector, hsmall, if_false]
    ext <;> simp [FQuat.Identity, FQuat.Inverse, FVector.ZeroVector, FQuat.RotateVector,
      FVector.scale, FVector.CrossProduct]
  rw [hinv]
  simp only [FTransform.TransformPosition, FTransform.Default, FQuat.Identity_RotateVector,
    FVector.OneVector_mul, FVector.add_ZeroVector]

/-- The pitch when the joint and the barrel start are the origin and the barrel lies along
`+X` with a length above the tolerance: the target is never clamped, the ray distance is
the target's distance `|T|`, and the pitch is the signed angle from `(|T|, 0)` to `T`. -/
theorem CalculateTurretPitch_barrel_from_joint (L : ℝ) (T : FVector) (hL : 0 < L)
    (htol : SMALL_NUMBER < L * L) :
    CalculateTurretPitch ⟨0, 0, 0⟩ ⟨0, 0, 0⟩ ⟨L, 0, 0⟩ T =
      CalculateAngleToRotateFromFirstVectorToSecondVector ⟨T.XZ.Size, 0⟩ T.XZ := by
  have hpm : paddedMin ⟨0, 0⟩ ⟨0, 0⟩ ⟨L, 0⟩ = 0 := by
    simp only [paddedMin, FVector2D.sub_origin, FVector2D.Size_on_axis, abs_zero]
    rw [min_eq_left (abs_nonneg L)]
    norm_num
  have hclamp : CalculateNearestValidTargetLocation2D ⟨0, 0⟩ ⟨0, 0⟩ ⟨L, 0⟩ T.XZ = T.XZ := by
    rw [CalculateNearestValidTargetLocation2D_eq, hpm,
      if_neg (not_lt.mpr (FVector2D.Size_nonneg _))]
  have hray : CalculateBarrelRayDistance (FVector.mk 0 0 0).XZ (FVector.mk 0 0 0).XZ
      (FVector.mk L 0 0).XZ
      (CalculateNearestValidTargetLocation2D (FVector.mk 0 0 0).XZ (FVector.mk 0 0 0).XZ
        (FVector.mk L 0 0).XZ T.XZ) = some T.XZ.Size := by
    have hxz0 : (FVector.mk 0 0 0).XZ = ⟨0, 0⟩ := rfl
    have hxzL : (FVector.mk L 0 0).XZ = ⟨L, 0⟩ := rfl
    rw [hxz0, hxzL, hclamp]
    have h := CalculateBarrelRayDistance_axis 0 L T.XZ hL (by simpa using htol)
    have hsel : SelectBestRayDistance (-0 - T.XZ.Size) (-0 + T.XZ.Size) = T.XZ.Size := by
      have hnn := T.XZ.Size_nonneg
      have hnot : ¬ (-0 - T.XZ.Size < 0 ∧ -0 + T.XZ.Size < 0) := by
        intro hh
        linarith [hh.2]
      unfold SelectBestRayDistance
      rw [if_neg hnot, FMath.Max_eq_max, max_eq_right (by linarith)]
      ring
    rw [hsel] at h
    exact h
  rw [CalculateTurretPitch_of_some hray]
  have hxz0 : (FVector.mk 0 0 0).XZ = ⟨0, 0⟩ := rfl
  have hxzL : (FVector.mk L 0 0).XZ = ⟨L, 0⟩ := rfl
  rw [hxz0, hxzL, hclamp]
  have hR : (FVector2D.mk L 0 - FVector2D.mk 0 0).GetSafeNormal = ⟨1, 0⟩ := by
    rw [FVector2D.sub_origin]
    exact FVector2D.GetSafeNormal_pos_X hL htol
  have hP : FVector2D.mk 0 0 + (FVector2D.mk L 0 - FVector2D.mk 0 0).GetSafeNormal * T.XZ.Size
      - FVector2D.mk 0 0 = ⟨T.XZ.Size, 0⟩ := by
    rw [hR]
    ext <;> simp
  rw [hP, FVector2D.sub_origin]

/-- The pitch is `0` when the barrel is within the normalisation tolerance. -/
theorem CalculateTurretPitch_of_small_barrel {S E : FVector} (J T : FVector)
    (h : (E.XZ - S.XZ).X * (E.XZ - S.XZ).X + (E.XZ - S.XZ).Y * (E.XZ - S.XZ).Y ≤
      SMALL_NUMBER) :
    CalculateTurretPitch J S E T = 0 :=
  CalculateTurretPitch_of_none (CalculateBarrelRayDistance_of_small_barrel J.XZ _ h).2

/-- The yaw towards a target on the positive Y axis is `90` degrees. -/
theorem CalculateTurretYaw_positive_Y {Y : ℝ} (hY : 0 < Y) :
    CalculateTurretYaw ⟨0, 0, 0⟩ ⟨0, Y, 0⟩ = 90 := by
  have harg : FMath.Atan2 Y 0 = Real.pi / 2 := by
    unfold FMath.Atan2
    exact Complex.arg_eq_pi_div_two_iff.mpr ⟨rfl, hY⟩
  have hpi : Real.pi ≠ 0 := Real.pi_ne_zero
  simp only [CalculateTurretYaw, FVector.sub3_X, FVector.sub3_Y, sub_zero, harg,
    FMath.RadiansToDegrees]
  field_simp
  ring

/-- The output of `CalculateTurretRotation_ForAimJoint` for the identity joint transform,
a barrel from the joint along `+X` and a target on the positive Y axis: the yaw is `90`
and the pitch is that of the aligned target `(Y, 0, 0)`. -/
theorem CalculateTurretRotation_ForAimJoint_pure_yaw (L Y : ℝ) (hY : 0 < Y) :
    CalculateTurretRotation_ForAimJoint FTransform.Default ⟨0, 0, 0⟩ ⟨L, 0, 0⟩ ⟨0, Y, 0⟩ =
      { Pitch := CalculateTurretPitch ⟨0, 0, 0⟩ ⟨0, 0, 0⟩ ⟨L, 0, 0⟩ ⟨Y, 0, 0⟩
        Yaw := 90
        Roll := 0 } := by
  have hend : (FVector.mk 0 0 0 + FVector.mk L 0 0) = ⟨L, 0, 0⟩ := by
    ext <;> simp
  have halign := align_target_with_turret ⟨0, Y, 0⟩
  have hsq : Real.sqrt ((0 : ℝ) ^ 2 + Y ^ 2) = Y := by
    rw [zero_pow (by norm_num), zero_add]
    exact Real.sqrt_sq hY.le
  rw [CalculateTurretYaw_positive_Y hY] at halign
  simp only [hsq] at halign
  simp only [CalculateTurretRotation_ForAimJoint, FTransform.Default_unscaled_inverse_position,
    FVector.ZeroVector, CalculateTurretYaw_positive_Y hY, halign, hend, FRotator.ZeroRotator]

/-- C11 as stated fails: with the identity joint transform, barrel-start offset `(0,0,0)`,
barrel offset `(1,0,0)` and the target `(0, 1/100000, 0)`, the yaw is `90` degrees but the
pitch is `90` degrees as well, not `0`: the aligned target `(1/100000, 0, 0)` is within
the normalisation tolerance of the joint. -/
theorem C11_pure_yaw_counterexample :
    CalculateTurretRotation_ForAimJoint FTransform.Default ⟨0, 0, 0⟩ ⟨1, 0, 0⟩
      ⟨0, 1 / 100000, 0⟩ = { Pitch := 90, Yaw := 90, Roll := 0 } ∧
    (CalculateTurretRotation_ForAimJoint FTransform.Default ⟨0, 0, 0⟩ ⟨1, 0, 0⟩
      ⟨0, 1 / 100000, 0⟩).Pitch ≠ 0 := by
  have hpitch : CalculateTurretPitch ⟨0, 0, 0⟩ ⟨0, 0, 0⟩ ⟨1, 0, 0⟩ ⟨1 / 100000, 0, 0⟩ = 90 := by
    rw [CalculateTurretPitch_barrel_from_joint 1 _ (by norm_num)
      (by unfold SMALL_NUMBER; norm_num)]
    apply CalculateAngle_of_first_small
    simp only [FVector.XZ, FVector2D.Size_on_axis]
    unfold SMALL_NUMBER
    norm_num [abs_of_pos]
  have h := CalculateTurretRotation_ForAimJoint_pure_yaw 1 (1 / 100000) (by norm_num)
  rw [hpitch] at h
  refine ⟨h, ?_⟩
  rw [h]
  norm_num

/-- C11 (amended): pure yaw case.  For every `L > 0` and every `Y > 0` whose square exceeds
the safe-normalisation tolerance `SMALL_NUMBER`, `CalculateTurretRotation_ForAimJoint`
with the identity joint transform, barrel-start offset `(0,0,0)`, barrel offset `(L,0,0)`
and target `(0, Y, 0)` outputs yaw `90` degrees and pitch `0` degrees (and roll `0`),
whatever the barrel length `L` is. -/
theorem C11_pure_yaw (L Y : ℝ) (hL : 0 < L) (hY : 0 < Y) (htol : SMALL_NUMBER < Y * Y) :
    CalculateTurretRotation_ForAimJoint FTransform.Default ⟨0, 0, 0⟩ ⟨L, 0, 0⟩ ⟨0, Y, 0⟩ =
      { Pitch := 0, Yaw := 90, Roll := 0 } := by
  have hpitch : CalculateTurretPitch ⟨0, 0, 0⟩ ⟨0, 0, 0⟩ ⟨L, 0, 0⟩ ⟨Y, 0, 0⟩ = 0 := by
    rcases le_or_lt (L * L) SMALL_NUMBER with hs | hs
    · apply CalculateTurretPitch_of_small_barrel
      simpa [FVector.XZ] using hs
    · rw [CalculateTurretPitch_barrel_from_joint L _ hL hs]
      have hsz : (FVector.mk Y 0 0).XZ.Size = Y := by
        simp only [FVector.XZ, FVector2D.Size_on_axis, abs_of_pos hY]
      rw [hsz]
      exact CalculateAngle_self (by simpa using htol)
  rw [CalculateTurretRotation_ForAimJoint_pure_yaw L Y hY, hpitch]

/-- Witness of C11 (amended) with barrel length `2` and target `(0, 3, 0)`. -/
theorem C11_pure_yaw_witness :
    (0 : ℝ) < 2 ∧ (0 : ℝ) < 3 ∧ SMALL_NUMBER < (3 : ℝ) * 3 ∧
    CalculateTurretRotation_ForAimJoint FTransform.Default ⟨0, 0, 0⟩ ⟨2, 0, 0⟩ ⟨0, 3, 0⟩ =
      { Pitch := 0, Yaw := 90, Roll := 0 } := by
  have h : SMALL_NUMBER < (3 : ℝ) * 3 := by
    unfold SMALL_NUMBER
    norm_num
  exact ⟨by norm_num, by norm_num, h, C11_pure_yaw 2 3 (by norm_num) (by norm_num) h⟩

/-! ## Shortest-rotation direction -/

theorem FVector2D.Size_polar {r c s : ℝ} (hr : 0 ≤ r) (hcs : c ^ 2 + s ^ 2 = 1) :
    (FVector2D.mk (r * c) (r * s)).Size = r := by
  unfold FVector2D.Size FMath.Sqrt
  have h : r * c * (r * c) + r * s * (r * s) = r * r := by
    have : r * c * (r * c) + r * s * (r * s) = r * r * (c ^ 2 + s ^ 2) := by ring
    rw [this, hcs, mul_one]
  rw [h]
  exact Real.sqrt_mul_self hr

/-- The signed angle from `(r, 0)` to the point at distance `r` in the direction `(c, s)`,
for `r` above the tolerance: the sign is that of `s` and the magnitude `acos c`. -/
theorem CalculateAngle_from_axis {r c s : ℝ} (hr : 0 < r) (htol : SMALL_NUMBER < r * r)
    (hcs : c ^ 2 + s ^ 2 = 1) :
    CalculateAngleToRotateFromFirstVectorToSecondVector ⟨r, 0⟩ ⟨r * c, r * s⟩ =
      (if 0 ≤ s then (1 : ℝ) else -1) * FMath.RadiansToDegrees (Real.arccos c) := by
  have hss : (FVector2D.mk (r * c) (r * s)).X * (FVector2D.mk (r * c) (r * s)).X +
      (FVector2D.mk (r * c) (r * s)).Y * (FVector2D.mk (r * c) (r * s)).Y = r * r := by
    have : r * c * (r * c) + r * s * (r * s) = r * r * (c ^ 2 + s ^ 2) := by ring
    simp only [this, hcs, mul_one]
  have hn1 : (FVector2D.mk r 0).GetSafeNormal = ⟨1, 0⟩ := FVector2D.GetSafeNormal_pos_X hr htol
  have hn2 : (FVector2D.mk (r * c) (r * s)).GetSafeNormal = ⟨c, s⟩ := by
    rw [FVector2D.GetSafeNormal_of_lt (by rw [hss]; exact htol), hss, Real.sqrt_mul_self hr.le]
    ext
    · simp only
      field_simp
    · simp only
      field_simp
  simp only [CalculateAngleToRotateFromFirstVectorToSecondVector, hn1, hn2,
    ShouldTurnCounterClockwiseToMeet_iff, CalculateAngleBetweenNormalizedVectors,
    FVector2D.dot, FMath.Acos, one_mul, zero_mul, add_zero, sub_zero]

/-- C13 as stated fails at both ends of the tolerance.  With the barrel `(1/100000, 0, 0)`,
`r = 1` and `t = 90` the barrel is within the normalisation tolerance, the resolver fails
and the pitch is `0`, not `90`.  With the barrel `(1, 0, 0)`, `r = 1/100000` and `t = 45`
the target is within the tolerance of the joint and the pitch is `90` degrees for the
target and for the mirrored target alike, not `45` and `-45`. -/
theorem C13_shortest_rotation_counterexample :
    CalculateTurretPitch ⟨0, 0, 0⟩ ⟨0, 0, 0⟩ ⟨1 / 100000, 0, 0⟩
      ⟨1 * Real.cos (FMath.DegreesToRadians 90), 0,
        1 * Real.sin (FMath.DegreesToRadians 90)⟩ = 0 ∧
    CalculateTurretPitch ⟨0, 0, 0⟩ ⟨0, 0, 0⟩ ⟨1, 0, 0⟩
      ⟨1 / 100000 * Real.cos (FMath.DegreesToRadians 45), 0,
        1 / 100000 * Real.sin (FMath.DegreesToRadians 45)⟩ = 90 ∧
    CalculateTurretPitch ⟨0, 0, 0⟩ ⟨0, 0, 0⟩ ⟨1, 0, 0⟩
      ⟨1 / 100000 * Real.cos (FMath.DegreesToRadians 45), 0,
        -(1 / 100000 * Real.sin (FMath.DegreesToRadians 45))⟩ = 90 ∧
    (0 : ℝ) ≠ 90 ∧ (90 : ℝ) ≠ 45 ∧ (90 : ℝ) ≠ -45 := by
  have hcs : Real.cos (FMath.DegreesToRadians 45) ^ 2 +
      Real.sin (FMath.DegreesToRadians 45) ^ 2 = 1 := Real.cos_sq_add_sin_sq _
  have hcs' : Real.cos (FMath.DegreesToRadians 45) ^ 2 +
      (-Real.sin (FMath.DegreesToRadians 45)) ^ 2 = 1 := by
    rw [neg_sq]; exact hcs
  have hone : SMALL_NUMBER < (1 : ℝ) * 1 := by
    unfold SMALL_NUMBER
    norm_num
  have hsmall : (1 / 100000 : ℝ) * (1 / 100000) + 0 * 0 ≤ SMALL_NUMBER := by
    unfold SMALL_NUMBER
    norm_num
  refine ⟨?_, ?_, ?_, by norm_num, by norm_num, by norm_num⟩
  · apply CalculateTurretPitch_of_small_barrel
    simp only [FVector.XZ, FVector2D.sub_origin]
    exact hsmall
  · rw [CalculateTurretPitch_barrel_from_joint 1 _ (by norm_num) hone]
    apply CalculateAngle_of_first_small
    simp only [FVector.XZ, FVector2D.Size_polar (by norm_num : (0 : ℝ) ≤ 1 / 100000) hcs]
    exact hsmall
  · rw [CalculateTurretPitch_barrel_from_joint 1 _ (by norm_num) hone]
    apply CalculateAngle_of_first_small
    have hneg : -(1 / 100000 * Real.sin (FMath.DegreesToRadians 45)) =
        1 / 100000 * -Real.sin (FMath.DegreesToRadians 45) := by ring
    simp only [FVector.XZ, hneg,
      FVector2D.Size_polar (by norm_num : (0 : ℝ) ≤ 1 / 100000) hcs']
    exact hsmall

/-- C13 (amended): shortest-rotation direction.  For every barrel length `L > 0` and target
distance `r > 0` whose squares exceed the safe-normalisation tolerance `SMALL_NUMBER`, and
every angle `t` with `0 < t < 180` degrees, `CalculateTurretPitch` with joint and barrel
start at the origin and barrel end `(L, 0, 0)` returns `+t` for the target
`(r*cos t, 0, r*sin t)` and `-t` for the mirrored target `(r*cos t, 0, -r*sin t)`. -/
theorem C13_shortest_rotation_direction (L r t : ℝ) (hL : 0 < L)
    (hLtol : SMALL_NUMBER < L * L) (hr : 0 < r) (hrtol : SMALL_NUMBER < r * r)
    (ht0 : 0 < t) (ht1 : t < 180) :
    CalculateTurretPitch ⟨0, 0, 0⟩ ⟨0, 0, 0⟩ ⟨L, 0, 0⟩
      ⟨r * Real.cos (FMath.DegreesToRadians t), 0,
        r * Real.sin (FMath.DegreesToRadians t)⟩ = t ∧
    CalculateTurretPitch ⟨0, 0, 0⟩ ⟨0, 0, 0⟩ ⟨L, 0, 0⟩
      ⟨r * Real.cos (FMath.DegreesToRadians t), 0,
        -(r * Real.sin (FMath.DegreesToRadians t))⟩ = -t := by
  have hpi : 0 < Real.pi := Real.pi_pos
  have hθ0 : 0 < FMath.DegreesToRadians t := by
    unfold FMath.DegreesToRadians
    exact mul_pos ht0 (div_pos hpi (by norm_num))
  have hθ1 : FMath.DegreesToRadians t < Real.pi := by
    unfold FMath.DegreesToRadians
    have h : t * (Real.pi / 180) < 180 * (Real.pi / 180) :=
      mul_lt_mul_of_pos_right ht1 (div_pos hpi (by norm_num))
    have h180 : (180 : ℝ) * (Real.pi / 180) = Real.pi := by ring
    rw [h180] at h
    exact h
  have hsin : 0 < Real.sin (FMath.DegreesToRadians t) := Real.sin_pos_of_pos_of_lt_pi hθ0 hθ1
  have harccos : Real.arccos (Real.cos (FMath.DegreesToRadians t)) =
      FMath.DegreesToRadians t := Real.arccos_cos hθ0.le hθ1.le
  have hcs : Real.cos (FMath.DegreesToRadians t) ^ 2 +
      Real.sin (FMath.DegreesToRadians t) ^ 2 = 1 := Real.cos_sq_add_sin_sq _
  have hcs' : Real.cos (FMath.DegreesToRadians t) ^ 2 +
      (-Real.sin (FMath.DegreesToRadians t)) ^ 2 = 1 := by
    rw [neg_sq]; exact hcs
  have hneg : -(r * Real.sin (FMath.DegreesToRadians t)) =
      r * -Real.sin (FMath.DegreesToRadians t) := by ring
  constructor
  · rw [CalculateTurretPitch_barrel_from_joint L _ hL hLtol]
    simp only [FVector.XZ, FVector2D.Size_polar hr.le hcs]
    rw [CalculateAngle_from_axis hr hrtol hcs, if_pos hsin.le, harccos,
      FMath.RadiansToDegrees_DegreesToRadians, one_mul]
  · rw [CalculateTurretPitch_barrel_from_joint L _ hL hLtol]
    simp only [FVector.XZ, hneg, FVector2D.Size_polar hr.le hcs']
    rw [CalculateAngle_from_axis hr hrtol hcs', if_neg (by linarith), harccos,
      FMath.RadiansToDegrees_DegreesToRadians]
    ring

/-- Witness of C13 (amended): barrel length `2`, target distance `3`, angle `45` degrees. -/
theorem C13_shortest_rotation_direction_witness :
    (0 : ℝ) < 2 ∧ SMALL_NUMBER < (2 : ℝ) * 2 ∧ (0 : ℝ) < 3 ∧ SMALL_NUMBER < (3 : ℝ) * 3 ∧
    (0 : ℝ) < 45 ∧ (45 : ℝ) < 180 ∧
    (CalculateTurretPitch ⟨0, 0, 0⟩ ⟨0, 0, 0⟩ ⟨2, 0, 0⟩
      ⟨3 * Real.cos (FMath.DegreesToRadians 45), 0,
        3 * Real.sin (FMath.DegreesToRadians 45)⟩ = 45 ∧
    CalculateTurretPitch ⟨0, 0, 0⟩ ⟨0, 0, 0⟩ ⟨2, 0, 0⟩
      ⟨3 * Real.cos (FMath.DegreesToRadians 45), 0,
        -(3 * Real.sin (FMath.DegreesToRadians 45))⟩ = -45) := by
  have h2 : SMALL_NUMBER < (2 : ℝ) * 2 := by
    unfold SMALL_NUMBER
    norm_num
  have h3 : SMALL_NUMBER < (3 : ℝ) * 3 := by
    unfold SMALL_NUMBER
    norm_num
  exact ⟨by norm_num, h2, by norm_num, h3, by norm_num, by norm_num,
    C13_shortest_rotation_direction 2 3 45 (by norm_num) h2 (by norm_num) h3 (by norm_num)
      (by norm_num)⟩

/-! ## The clamp inside the pitch solver -/

/-- The pitch depends on the target only through the clamped X-Z projection. -/
theorem CalculateTurretPitch_congr_clamp {J S E T T2 : FVector}
    (h : CalculateNearestValidTargetLocation2D J.XZ S.XZ E.XZ T.XZ =
      CalculateNearestValidTargetLocation2D J.XZ S.XZ E.XZ T2.XZ) :
    CalculateTurretPitch J S E T = CalculateTurretPitch J S E T2 := by
  simp only [FVector.XZ] at h
  simp only [CalculateTurretPitch, h]

theorem min_Size_le_paddedMin (J S E : FVector2D) :
    min (S - J).Size (E - J).Size ≤ paddedMin J S E := by
  have hm : 0 ≤ min (S - J).Size (E - J).Size :=
    le_min (FVector2D.Size_nonneg _) (FVector2D.Size_nonneg _)
  have ht : 0 ≤ min 3 (1 / 100 * min (S - J).Size (E - J).Size) :=
    le_min (by norm_num) (mul_nonneg (by norm_num) hm)
  unfold paddedMin
  linarith

/-- With the joint at the origin, a target farther from it than the normalisation
tolerance and closer than `paddedMin` is replaced by the synthetic target of the
specification, which lies at distance `paddedMin`. -/
theorem CalculateNearestValidTargetLocation2D_of_close {S E T : FVector2D}
    (htol : SMALL_NUMBER < T.X * T.X + T.Y * T.Y)
    (hclose : T.Size < paddedMin ⟨0, 0⟩ S E) :
    CalculateNearestValidTargetLocation2D ⟨0, 0⟩ S E T = syntheticTarget ⟨0, 0⟩ S E T ∧
    (syntheticTarget ⟨0, 0⟩ S E T).Size = paddedMin ⟨0, 0⟩ S E := by
  have hpm : 0 < paddedMin ⟨0, 0⟩ S E := lt_of_le_of_lt T.Size_nonneg hclose
  have hss : 0 < T.X * T.X + T.Y * T.Y := lt_trans SMALL_NUMBER_pos htol
  have hr : 0 < Real.sqrt (T.X * T.X + T.Y * T.Y) := Real.sqrt_pos.mpr hss
  have hsyn : syntheticTarget ⟨0, 0⟩ S E T =
      ⟨T.X / Real.sqrt (T.X * T.X + T.Y * T.Y) * paddedMin ⟨0, 0⟩ S E,
        T.Y / Real.sqrt (T.X * T.X + T.Y * T.Y) * paddedMin ⟨0, 0⟩ S E⟩ := by
    simp only [syntheticTarget, FVector2D.sub_origin, FVector2D.origin_add]
    unfold FVector2D.Size FMath.Sqrt
    ext
    · simp only [FVector2D.mul2_X]
      field_simp
    · simp only [FVector2D.mul2_Y]
      field_simp
  constructor
  · rw [CalculateNearestValidTargetLocation2D_eq, FVector2D.sub_origin, if_pos hclose,
      FVector2D.GetSafeNormal_of_lt htol, hsyn]
    ext <;> simp
  · rw [hsyn]
    unfold FVector2D.Size FMath.Sqrt
    have hsq : T.X / Real.sqrt (T.X * T.X + T.Y * T.Y) * paddedMin ⟨0, 0⟩ S E *
          (T.X / Real.sqrt (T.X * T.X + T.Y * T.Y) * paddedMin ⟨0, 0⟩ S E) +
        T.Y / Real.sqrt (T.X * T.X + T.Y * T.Y) * paddedMin ⟨0, 0⟩ S E *
          (T.Y / Real.sqrt (T.X * T.X + T.Y * T.Y) * paddedMin ⟨0, 0⟩ S E) =
        paddedMin ⟨0, 0⟩ S E * paddedMin ⟨0, 0⟩ S E := by
      field_simp
      ring
    rw [hsq]
    exact Real.sqrt_mul_self hpm.le

/-- The pitch with the joint at the origin and the barrel on the `+X` axis, from `(s, 0)`
to `(e, 0)` with `s < e`: the signed angle from the scaled barrel end to the clamped
target. -/
theorem CalculateTurretPitch_axis (s e : ℝ) (T : FVector) (hse : s < e)
    (htol : SMALL_NUMBER < (e - s) * (e - s)) :
    CalculateTurretPitch ⟨0, 0, 0⟩ ⟨s, 0, 0⟩ ⟨e, 0, 0⟩ T =
      CalculateAngleToRotateFromFirstVectorToSecondVector
        ⟨s + SelectBestRayDistance
          (-s - (CalculateNearestValidTargetLocation2D ⟨0, 0⟩ ⟨s, 0⟩ ⟨e, 0⟩ T.XZ).Size)
          (-s + (CalculateNearestValidTargetLocation2D ⟨0, 0⟩ ⟨s, 0⟩ ⟨e, 0⟩ T.XZ).Size), 0⟩
        (CalculateNearestValidTargetLocation2D ⟨0, 0⟩ ⟨s, 0⟩ ⟨e, 0⟩ T.XZ) := by
  have hxz0 : (FVector.mk 0 0 0).XZ = ⟨0, 0⟩ := rfl
  have hxzs : (FVector.mk s 0 0).XZ = ⟨s, 0⟩ := rfl
  have hxze : (FVector.mk e 0 0).XZ = ⟨e, 0⟩ := rfl
  have hray : CalculateBarrelRayDistance (FVector.mk 0 0 0).XZ (FVector.mk s 0 0).XZ
      (FVector.mk e 0 0).XZ
      (CalculateNearestValidTargetLocation2D (FVector.mk 0 0 0).XZ (FVector.mk s 0 0).XZ
        (FVector.mk e 0 0).XZ T.XZ) = some (SelectBestRayDistance
          (-s - (CalculateNearestValidTargetLocation2D ⟨0, 0⟩ ⟨s, 0⟩ ⟨e, 0⟩ T.XZ).Size)
          (-s + (CalculateNearestValidTargetLocation2D ⟨0, 0⟩ ⟨s, 0⟩ ⟨e, 0⟩ T.XZ).Size)) := by
    rw [hxz0, hxzs, hxze]
    exact CalculateBarrelRayDistance_axis s e _ hse htol
  rw [CalculateTurretPitch_of_some hray, hxz0, hxzs, hxze]
  have hR : (FVector2D.mk e 0 - FVector2D.mk s 0).GetSafeNormal = ⟨1, 0⟩ := by
    have : (FVector2D.mk e 0 - FVector2D.mk s 0) = ⟨e - s, 0⟩ := by ext <;> simp
    rw [this]
    exact FVector2D.GetSafeNormal_pos_X (sub_pos.mpr hse) htol
  rw [hR, FVector2D.sub_origin, FVector2D.sub_origin]
  congr 1
  ext <;> simp

/-- The two pitches for joint `(0,0,0)`, barrel from `(1,0,0)` to `(2,0,0)`: `90` degrees
for the target `(1/100000, 0, 0)`, which the clamp replaces by the zero vector, and `0`
for the synthetic target `(101/100, 0, 0)`. -/
theorem CalculateTurretPitch_clamp_examples :
    syntheticTarget ⟨0, 0⟩ ⟨1, 0⟩ ⟨2, 0⟩ ⟨1 / 100000, 0⟩ = ⟨101 / 100, 0⟩ ∧
    CalculateTurretPitch ⟨0, 0, 0⟩ ⟨1, 0, 0⟩ ⟨2, 0, 0⟩ ⟨1 / 100000, 0, 0⟩ = 90 ∧
    CalculateTurretPitch ⟨0, 0, 0⟩ ⟨1, 0, 0⟩ ⟨2, 0, 0⟩ ⟨101 / 100, 0, 0⟩ = 0 := by
  have htol : SMALL_NUMBER < ((2 : ℝ) - 1) * (2 - 1) := by
    unfold SMALL_NUMBER
    norm_num
  have hsz1 : (FVector2D.mk (1 / 100000) 0).Size = 1 / 100000 := by
    rw [FVector2D.Size_on_axis]
    norm_num [abs_of_pos]
  have hsz2 : (FVector2D.mk (101 / 100) 0).Size = 101 / 100 := by
    rw [FVector2D.Size_on_axis]
    norm_num [abs_of_pos]
  have hc1 : CalculateNearestValidTargetLocation2D ⟨0, 0⟩ ⟨1, 0⟩ ⟨2, 0⟩ ⟨1 / 100000, 0⟩ =
      ⟨0, 0⟩ := by
    have hn : (FVector2D.mk (1 / 100000) 0).GetSafeNormal = ⟨0, 0⟩ :=
      FVector2D.GetSafeNormal_of_le (by unfold SMALL_NUMBER; norm_num)
    rw [CalculateNearestValidTargetLocation2D_eq, paddedMin_example, FVector2D.sub_origin,
      hsz1, if_pos (by norm_num), hn]
    ext <;> simp
  have hc2 : CalculateNearestValidTargetLocation2D ⟨0, 0⟩ ⟨1, 0⟩ ⟨2, 0⟩ ⟨101 / 100, 0⟩ =
      ⟨101 / 100, 0⟩ := by
    rw [CalculateNearestValidTargetLocation2D_eq, paddedMin_example, FVector2D.sub_origin,
      hsz2, if_neg (by norm_num)]
  refine ⟨?_, ?_, ?_⟩
  · simp only [syntheticTarget, paddedMin_example, FVector2D.sub_origin,
      FVector2D.origin_add, hsz1]
    ext
    · simp only [FVector2D.mul2_X]
      norm_num
    · simp only [FVector2D.mul2_Y]
      norm_num
  · rw [CalculateTurretPitch_axis 1 2 _ (by norm_num) htol]
    have hxz : (FVector.mk (1 / 100000) 0 0).XZ = ⟨1 / 100000, 0⟩ := rfl
    rw [hxz, hc1]
    apply CalculateAngle_of_second_small
    simp only [mul_zero, add_zero]
    exact SMALL_NUMBER_pos.le
  · rw [CalculateTurretPitch_axis 1 2 _ (by norm_num) htol]
    have hxz : (FVector.mk (101 / 100) 0 0).XZ = ⟨101 / 100, 0⟩ := rfl
    rw [hxz, hc2, hsz2]
    have hsel : SelectBestRayDistance (-1 - 101 / 100) (-1 + 101 / 100) = 1 / 100 := by
      unfold SelectBestRayDistance FMath.Min FMath.Max
      norm_num
    rw [hsel]
    have hP : FVector2D.mk (1 + 1 / 100) 0 = ⟨101 / 100, 0⟩ := by
      ext <;> norm_num
    rw [hP]
    apply CalculateAngle_self
    unfold SMALL_NUMBER
    norm_num

/-- C15 as stated fails: with the joint at the origin, barrel from `(1,0,0)` to `(2,0,0)`
and the target `T = (1/100000, 0, 0)`, closer to the joint than `paddedMin = 1.01`, the
synthetic target at distance `paddedMin` along the direction of `T` is
`T* = (1.01, 0, 0)`; `CalculateTurretPitch` returns `90` degrees for `T` (the clamp
replaces it by the zero vector) and `0` for `T*`. -/
theorem C15_clamp_equivalence_counterexample :
    (FVector.mk (1 / 100000) 0 0).XZ.Size <
      paddedMin ⟨0, 0⟩ (FVector.mk 1 0 0).XZ (FVector.mk 2 0 0).XZ ∧
    (FVector.mk (101 / 100) 0 0).XZ =
      syntheticTarget ⟨0, 0⟩ (FVector.mk 1 0 0).XZ (FVector.mk 2 0 0).XZ
        (FVector.mk (1 / 100000) 0 0).XZ ∧
    CalculateTurretPitch ⟨0, 0, 0⟩ ⟨1, 0, 0⟩ ⟨2, 0, 0⟩ ⟨1 / 100000, 0, 0⟩ ≠
      CalculateTurretPitch ⟨0, 0, 0⟩ ⟨1, 0, 0⟩ ⟨2, 0, 0⟩ ⟨101 / 100, 0, 0⟩ := by
  obtain ⟨hsyn, h90, h0⟩ := CalculateTurretPitch_clamp_examples
  refine ⟨?_, ?_, ?_⟩
  · simp only [FVector.XZ]
    rw [paddedMin_example, FVector2D.Size_on_axis]
    norm_num [abs_of_pos]
  · simp only [FVector.XZ]
    exact hsyn.symm
  · rw [h90, h0]
    norm_num

/-- C15 (amended): unreachable-target clamp equivalence, with the joint at the origin.  For
every barrel start `S`, barrel end `E` and target `T` whose X-Z projection is farther from
the joint than the safe-normalisation tolerance (`|T|^2 > SMALL_NUMBER`) and closer than
`paddedMin`, `CalculateTurretPitch(0, S, E, T)` equals `CalculateTurretPitch(0, S, E, T*)`
for every `T*` whose X-Z projection is the synthetic target at distance `paddedMin` from
the joint along the direction of `T`. -/
theorem C15_clamp_equivalence (S E T Tstar : FVector)
    (htol : SMALL_NUMBER < T.XZ.Size ^ 2)
    (hclose : T.XZ.Size < paddedMin ⟨0, 0⟩ S.XZ E.XZ)
    (hstar : Tstar.XZ = syntheticTarget ⟨0, 0⟩ S.XZ E.XZ T.XZ) :
    CalculateTurretPitch ⟨0, 0, 0⟩ S E T = CalculateTurretPitch ⟨0, 0, 0⟩ S E Tstar := by
  rw [FVector2D.Size_sq] at htol
  obtain ⟨hclamp, hsize⟩ := CalculateNearestValidTargetLocation2D_of_close htol hclose
  apply CalculateTurretPitch_congr_clamp
  have hxz0 : (FVector.mk 0 0 0).XZ = ⟨0, 0⟩ := rfl
  rw [hxz0, hclamp, hstar, CalculateNearestValidTargetLocation2D_eq, FVector2D.sub_origin,
    hsize, if_neg (lt_irrefl _)]

/-- Witness of C15 (amended): barrel from `(1,0,0)` to `(2,0,0)`, target `(1/2, 0, 0)` and
synthetic target `(101/100, 0, 0)`. -/
theorem C15_clamp_equivalence_witness :
    SMALL_NUMBER < (FVector.mk (1 / 2) 0 0).XZ.Size ^ 2 ∧
    (FVector.mk (1 / 2) 0 0).XZ.Size <
      paddedMin ⟨0, 0⟩ (FVector.mk 1 0 0).XZ (FVector.mk 2 0 0).XZ ∧
    (FVector.mk (101 / 100) 0 0).XZ =
      syntheticTarget ⟨0, 0⟩ (FVector.mk 1 0 0).XZ (FVector.mk 2 0 0).XZ
        (FVector.mk (1 / 2) 0 0).XZ ∧
    CalculateTurretPitch ⟨0, 0, 0⟩ ⟨1, 0, 0⟩ ⟨2, 0, 0⟩ ⟨1 / 2, 0, 0⟩ =
      CalculateTurretPitch ⟨0, 0, 0⟩ ⟨1, 0, 0⟩ ⟨2, 0, 0⟩ ⟨101 / 100, 0, 0⟩ := by
  have hsz : (FVector2D.mk (1 / 2) 0).Size = 1 / 2 := by
    rw [FVector2D.Size_on_axis]
    norm_num [abs_of_pos]
  have h1 : SMALL_NUMBER < (FVector.mk (1 / 2) 0 0).XZ.Size ^ 2 := by
    simp only [FVector.XZ, hsz]
    unfold SMALL_NUMBER
    norm_num
  have h2 : (FVector.mk (1 / 2) 0 0).XZ.Size <
      paddedMin ⟨0, 0⟩ (FVector.mk 1 0 0).XZ (FVector.mk 2 0 0).XZ := by
    simp only [FVector.XZ, hsz, paddedMin_example]
    norm_num
  have h3 : (FVector.mk (101 / 100) 0 0).XZ =
      syntheticTarget ⟨0, 0⟩ (FVector.mk 1 0 0).XZ (FVector.mk 2 0 0).XZ
        (FVector.mk (1 / 2) 0 0).XZ := by
    simp only [FVector.XZ, syntheticTarget, paddedMin_example, FVector2D.sub_origin,
      FVector2D.origin_add, hsz]
    ext
    · simp only [FVector2D.mul2_X]
      norm_num
    · simp only [FVector2D.mul2_Y]
      norm_num
  exact ⟨h1, h2, h3, C15_clamp_equivalence ⟨1, 0, 0⟩ ⟨2, 0, 0⟩ ⟨1 / 2, 0, 0⟩
    ⟨101 / 100, 0, 0⟩ h1 h2 h3⟩

/-! ## When the ray-distance resolver succeeds -/

theorem CalculateQuadraticRoots_isSome {A B C : ℝ} (hA : ¬ FMath.IsNearlyZero (2 * A))
    (hD : 0 ≤ B ^ 2 - 4 * A * C) :
    ∃ x1 x2 : ℝ, CalculateQuadraticRoots A B C = some (x1, x2) := by
  simp only [CalculateQuadraticRoots, FMath.Pow_two, hA, if_false, not_lt.mpr hD]
  exact ⟨_, _, rfl⟩

/-- With a barrel longer than the tolerance the discriminant of the resolver's quadratic is
four times `|T - J|^2` minus the squared distance from the joint to the barrel line. -/
theorem CalculateQuadraticCoefficients_discriminant {J S E : FVector2D} (T : FVector2D)
    (hbar : SMALL_NUMBER < (E - S).X * (E - S).X + (E - S).Y * (E - S).Y) :
    (CalculateQuadraticCoefficients J S E T).1 = 1 ∧
    (CalculateQuadraticCoefficients J S E T).2.1 ^ 2 -
        4 * (CalculateQuadraticCoefficients J S E T).1 *
          (CalculateQuadraticCoefficients J S E T).2.2 =
      4 * (((T - J).X * (T - J).X + (T - J).Y * (T - J).Y) -
        ((S - J).X * (E - S).GetSafeNormal.Y - (S - J).Y * (E - S).GetSafeNormal.X) ^ 2) := by
  have hu := FVector2D.GetSafeNormal_unit hbar
  have ha : (CalculateQuadraticCoefficients J S E T).1 = 1 := by
    simp only [CalculateQuadraticCoefficients, FMath.Pow_two]
    rw [← hu]
    ring
  refine ⟨ha, ?_⟩
  rw [ha]
  simp only [CalculateQuadraticCoefficients, FMath.Pow_two, FVector2D.sub2_X, FVector2D.sub2_Y]
  generalize (E - S).GetSafeNormal = R at hu
  have hu2 : R.X ^ 2 + R.Y ^ 2 = 1 := by
    rw [← hu]
    ring
  linear_combination (4 * ((S.X - J.X) ^ 2 + (S.Y - J.Y) ^ 2)) * hu2

/-- The squared distance from the joint to the barrel line is at most the squared distance
from the joint to the barrel start, and to the barrel end. -/
theorem barrel_line_distance_le {J S E : FVector2D}
    (hbar : SMALL_NUMBER < (E - S).X * (E - S).X + (E - S).Y * (E - S).Y) :
    ((S - J).X * (E - S).GetSafeNormal.Y - (S - J).Y * (E - S).GetSafeNormal.X) ^ 2 ≤
      (min (S - J).Size (E - J).Size) ^ 2 := by
  have hu := FVector2D.GetSafeNormal_unit hbar
  have hpar : (E - S).X * (E - S).GetSafeNormal.Y - (E - S).Y * (E - S).GetSafeNormal.X = 0 := by
    rw [FVector2D.GetSafeNormal_of_lt hbar]
    simp only
    ring
  simp only [FVector2D.sub2_X, FVector2D.sub2_Y] at hpar ⊢
  generalize (E - S).GetSafeNormal = R at hu hpar
  have hS : ((S.X - J.X) * R.Y - (S.Y - J.Y) * R.X) ^ 2 ≤ (S - J).Size ^ 2 := by
    rw [FVector2D.Size_sq]
    simp only [FVector2D.sub2_X, FVector2D.sub2_Y]
    have hid : (S.X - J.X) * (S.X - J.X) + (S.Y - J.Y) * (S.Y - J.Y) -
        ((S.X - J.X) * R.Y - (S.Y - J.Y) * R.X) ^ 2 =
        ((S.X - J.X) * R.X + (S.Y - J.Y) * R.Y) ^ 2 := by
      linear_combination (-((S.X - J.X) ^ 2 + (S.Y - J.Y) ^ 2)) * hu
    nlinarith [sq_nonneg ((S.X - J.X) * R.X + (S.Y - J.Y) * R.Y)]
  have hE : ((S.X - J.X) * R.Y - (S.Y - J.Y) * R.X) ^ 2 ≤ (E - J).Size ^ 2 := by
    rw [FVector2D.Size_sq]
    simp only [FVector2D.sub2_X, FVector2D.sub2_Y]
    have hcross : (S.X - J.X) * R.Y - (S.Y - J.Y) * R.X =
        (E.X - J.X) * R.Y - (E.Y - J.Y) * R.X := by
      linear_combination -hpar
    rw [hcross]
    have hid : (E.X - J.X) * (E.X - J.X) + (E.Y - J.Y) * (E.Y - J.Y) -
        ((E.X - J.X) * R.Y - (E.Y - J.Y) * R.X) ^ 2 =
        ((E.X - J.X) * R.X + (E.Y - J.Y) * R.Y) ^ 2 := by
      linear_combination (-((E.X - J.X) ^ 2 + (E.Y - J.Y) ^ 2)) * hu
    nlinarith [sq_nonneg ((E.X - J.X) * R.X + (E.Y - J.Y) * R.Y)]
  rcases le_total (S - J).Size (E - J).Size with h | h
  · rw [min_eq_left h]
    exact hS
  · rw [min_eq_right h]
    exact hE

/-- The resolver succeeds when the barrel is longer than the tolerance and the target is at
least as far from the joint as the nearer barrel end. -/
theorem CalculateBarrelRayDistance_some_of_far {J S E T : FVector2D}
    (hbar : SMALL_NUMBER < (E - S).X * (E - S).X + (E - S).Y * (E - S).Y)
    (hfar : min (S - J).Size (E - J).Size ≤ (T - J).Size) :
    ∃ d : ℝ, CalculateBarrelRayDistance J S E T = some d := by
  obtain ⟨ha, hdisc⟩ := CalculateQuadraticCoefficients_discriminant (J := J) T hbar
  have hline := barrel_line_distance_le (J := J) hbar
  have hm : 0 ≤ min (S - J).Size (E - J).Size :=
    le_min (FVector2D.Size_nonneg _) (FVector2D.Size_nonneg _)
  have hsq : (min (S - J).Size (E - J).Size) ^ 2 ≤ (T - J).Size ^ 2 :=
    pow_le_pow_left₀ hm hfar 2
  rw [FVector2D.Size_sq] at hsq
  have hA : ¬ FMath.IsNearlyZero (2 * (CalculateQuadraticCoefficients J S E T).1) := by
    rw [ha]
    unfold FMath.IsNearlyZero SMALL_NUMBER
    norm_num
  have hD : 0 ≤ (CalculateQuadraticCoefficients J S E T).2.1 ^ 2 -
      4 * (CalculateQuadraticCoefficients J S E T).1 *
        (CalculateQuadraticCoefficients J S E T).2.2 := by
    rw [hdisc]
    linarith
  obtain ⟨x1, x2, hroots⟩ := CalculateQuadraticRoots_isSome hA hD
  refine ⟨SelectBestRayDistance x1 x2, ?_⟩
  unfold CalculateBarrelRayDistance
  simp only [hroots]

/-- With the joint at the origin, the clamped image of a target farther from the joint than
the normalisation tolerance is at distance at least `paddedMin` from the joint. -/
theorem paddedMin_le_Size_clamp {S E T : FVector2D}
    (htol : SMALL_NUMBER < T.X * T.X + T.Y * T.Y) :
    paddedMin ⟨0, 0⟩ S E ≤ (CalculateNearestValidTargetLocation2D ⟨0, 0⟩ S E T).Size := by
  rcases lt_or_le T.Size (paddedMin ⟨0, 0⟩ S E) with h | h
  · obtain ⟨hclamp, hsize⟩ := CalculateNearestValidTargetLocation2D_of_close htol h
    rw [hclamp, hsize]
  · rw [CalculateNearestValidTargetLocation2D_eq, FVector2D.sub_origin, if_neg (not_lt.mpr h)]
    exact h

/-- C16 as stated fails in two ways.  With joint and target both at the origin and the
barrel from `(0,0,1)` to `(1,0,1)`, the barrel ends are distinct but the clamped target is
the joint itself, the discriminant is negative and the resolver fails.  With the barrel
from `(0,0,0)` to `(1/100000,0,0)` the barrel ends are distinct but within the
normalisation tolerance, and the resolver fails for the target `(1,0,0)`.  In both cases
`CalculateTurretPitch` takes the pitch-`0` fallback. -/
theorem C16_resolver_failure_counterexample :
    (FVector.mk 0 0 1).XZ ≠ (FVector.mk 1 0 1).XZ ∧
    CalculateBarrelRayDistance (FVector.mk 0 0 0).XZ (FVector.mk 0 0 1).XZ
      (FVector.mk 1 0 1).XZ
      (CalculateNearestValidTargetLocation2D (FVector.mk 0 0 0).XZ (FVector.mk 0 0 1).XZ
        (FVector.mk 1 0 1).XZ (FVector.mk 0 0 0).XZ) = none ∧
    (FVector.mk 0 0 0).XZ ≠ (FVector.mk (1 / 100000) 0 0).XZ ∧
    CalculateBarrelRayDistance (FVector.mk 0 0 0).XZ (FVector.mk 0 0 0).XZ
      (FVector.mk (1 / 100000) 0 0).XZ
      (CalculateNearestValidTargetLocation2D (FVector.mk 0 0 0).XZ (FVector.mk 0 0 0).XZ
        (FVector.mk (1 / 100000) 0 0).XZ (FVector.mk 1 0 0).XZ) = none := by
  refine ⟨?_, ?_, ?_, ?_⟩
  · intro h
    have hx := congrArg FVector2D.X h
    simp [FVector.XZ] at hx
  · have hclamp : CalculateNearestValidTargetLocation2D (FVector.mk 0 0 0).XZ
        (FVector.mk 0 0 1).XZ (FVector.mk 1 0 1).XZ (FVector.mk 0 0 0).XZ = ⟨0, 0⟩ := by
      have hn : (FVector2D.mk 0 0).GetSafeNormal = ⟨0, 0⟩ :=
        FVector2D.GetSafeNormal_of_le (by simpa using SMALL_NUMBER_pos.le)
      simp only [FVector.XZ]
      rw [CalculateNearestValidTargetLocation2D_eq, FVector2D.sub_origin, hn]
      split_ifs
      · ext <;> simp
      · rfl
    rw [hclamp]
    have hbar : SMALL_NUMBER <
        ((FVector.mk 1 0 1).XZ - (FVector.mk 0 0 1).XZ).X *
          ((FVector.mk 1 0 1).XZ - (FVector.mk 0 0 1).XZ).X +
        ((FVector.mk 1 0 1).XZ - (FVector.mk 0 0 1).XZ).Y *
          ((FVector.mk 1 0 1).XZ - (FVector.mk 0 0 1).XZ).Y := by
      simp only [FVector.XZ, FVector2D.sub2_X, FVector2D.sub2_Y]
      unfold SMALL_NUMBER
      norm_num
    obtain ⟨ha, hdisc⟩ := CalculateQuadraticCoefficients_discriminant
      (J := (FVector.mk 0 0 0).XZ) ⟨0, 0⟩ hbar
    have hR : ((FVector.mk 1 0 1).XZ - (FVector.mk 0 0 1).XZ).GetSafeNormal = ⟨1, 0⟩ := by
      have : (FVector.mk 1 0 1).XZ - (FVector.mk 0 0 1).XZ = ⟨1, 0⟩ := by
        ext <;> simp [FVector.XZ]
      rw [this]
      exact FVector2D.GetSafeNormal_unit_X
    rw [hR] at hdisc
    have hneg : (CalculateQuadraticCoefficients (FVector.mk 0 0 0).XZ (FVector.mk 0 0 1).XZ
          (FVector.mk 1 0 1).XZ ⟨0, 0⟩).2.1 ^ 2 -
        4 * (CalculateQuadraticCoefficients (FVector.mk 0 0 0).XZ (FVector.mk 0 0 1).XZ
          (FVector.mk 1 0 1).XZ ⟨0, 0⟩).1 *
          (CalculateQuadraticCoefficients (FVector.mk 0 0 0).XZ (FVector.mk 0 0 1).XZ
          (FVector.mk 1 0 1).XZ ⟨0, 0⟩).2.2 < 0 := by
      rw [hdisc]
      simp only [FVector.XZ, FVector2D.sub2_X, FVector2D.sub2_Y]
      norm_num
    unfold CalculateBarrelRayDistance
    simp only [CalculateQuadraticRoots, FMath.Pow_two, hneg, if_true, ite_self]
  · intro h
    have hx := congrArg FVector2D.X h
    simp [FVector.XZ] at hx
  · apply (CalculateBarrelRayDistance_of_small_barrel _ _ _).2
    simp only [FVector.XZ, FVector2D.sub2_X, FVector2D.sub2_Y]
    unfold SMALL_NUMBER
    norm_num

/-- C16 (amended): with the joint at the origin, for every barrel start `S`, barrel end `E`
and target `T` whose X-Z projections have the barrel `E - S` longer than the
safe-normalisation tolerance (`|E - S|^2 > SMALL_NUMBER`) and the target farther from the
joint than that tolerance (`|T|^2 > SMALL_NUMBER`), `CalculateBarrelRayDistance` applied to
the clamped target succeeds, so `CalculateTurretPitch` does not take the pitch-`0`
fallback: it returns the signed angle from the scaled barrel end to the clamped target. -/
theorem C16_resolver_succeeds (S E T : FVector)
    (hbar : SMALL_NUMBER < (E.XZ - S.XZ).Size ^ 2)
    (htol : SMALL_NUMBER < T.XZ.Size ^ 2) :
    ∃ d : ℝ,
      CalculateBarrelRayDistance (FVector.mk 0 0 0).XZ S.XZ E.XZ
        (CalculateNearestValidTargetLocation2D (FVector.mk 0 0 0).XZ S.XZ E.XZ T.XZ) =
          some d ∧
      CalculateTurretPitch ⟨0, 0, 0⟩ S E T =
        CalculateAngleToRotateFromFirstVectorToSecondVector
          (S.XZ + (E.XZ - S.XZ).GetSafeNormal * d - (FVector.mk 0 0 0).XZ)
          (CalculateNearestValidTargetLocation2D (FVector.mk 0 0 0).XZ S.XZ E.XZ T.XZ -
            (FVector.mk 0 0 0).XZ) := by
  rw [FVector2D.Size_sq] at hbar htol
  have hxz0 : (FVector.mk 0 0 0).XZ = ⟨0, 0⟩ := rfl
  have hfar : min (S.XZ - (FVector.mk 0 0 0).XZ).Size (E.XZ - (FVector.mk 0 0 0).XZ).Size ≤
      (CalculateNearestValidTargetLocation2D (FVector.mk 0 0 0).XZ S.XZ E.XZ T.XZ -
        (FVector.mk 0 0 0).XZ).Size := by
    simp only [hxz0, FVector2D.sub_origin]
    have hm := min_Size_le_paddedMin ⟨0, 0⟩ S.XZ E.XZ
    simp only [FVector2D.sub_origin] at hm
    exact le_trans hm (paddedMin_le_Size_clamp htol)
  obtain ⟨d, hd⟩ := CalculateBarrelRayDistance_some_of_far hbar hfar
  exact ⟨d, hd, CalculateTurretPitch_of_some hd⟩

/-- Witness of C16 (amended): barrel from `(1,0,0)` to `(2,0,0)` and target `(0,0,3)`. -/
theorem C16_resolver_succeeds_witness :
    SMALL_NUMBER < ((FVector.mk 2 0 0).XZ - (FVector.mk 1 0 0).XZ).Size ^ 2 ∧
    SMALL_NUMBER < (FVector.mk 0 0 3).XZ.Size ^ 2 ∧
    ∃ d : ℝ,
      CalculateBarrelRayDistance (FVector.mk 0 0 0).XZ (FVector.mk 1 0 0).XZ
        (FVector.mk 2 0 0).XZ
        (CalculateNearestValidTargetLocation2D (FVector.mk 0 0 0).XZ (FVector.mk 1 0 0).XZ
          (FVector.mk 2 0 0).XZ (FVector.mk 0 0 3).XZ) = some d ∧
      CalculateTurretPitch ⟨0, 0, 0⟩ ⟨1, 0, 0⟩ ⟨2, 0, 0⟩ ⟨0, 0, 3⟩ =
        CalculateAngleToRotateFromFirstVectorToSecondVector
          ((FVector.mk 1 0 0).XZ +
            ((FVector.mk 2 0 0).XZ - (FVector.mk 1 0 0).XZ).GetSafeNormal * d -
            (FVector.mk 0 0 0).XZ)
          (CalculateNearestValidTargetLocation2D (FVector.mk 0 0 0).XZ (FVector.mk 1 0 0).XZ
            (FVector.mk 2 0 0).XZ (FVector.mk 0 0 3).XZ - (FVector.mk 0 0 0).XZ) := by
  have h1 : SMALL_NUMBER < ((FVector.mk 2 0 0).XZ - (FVector.mk 1 0 0).XZ).Size ^ 2 := by
    rw [FVector2D.Size_sq]
    simp only [FVector.XZ, FVector2D.sub2_X, FVector2D.sub2_Y]
    unfold SMALL_NUMBER
    norm_num
  have h2 : SMALL_NUMBER < (FVector.mk 0 0 3).XZ.Size ^ 2 := by
    rw [FVector2D.Size_sq]
    simp only [FVector.XZ]
    unfold SMALL_NUMBER
    norm_num
  exact ⟨h1, h2, C16_resolver_succeeds ⟨1, 0, 0⟩ ⟨2, 0, 0⟩ ⟨0, 0, 3⟩ h1 h2⟩

/-! ## Uniform actor scale -/

/-- The orchestrator for the aim joint reads only the rotation and the translation of the
joint transform. -/
theorem CalculateTurretRotation_ForAimJoint_unscaled (W : FTransform) (s b T : FVector) :
    CalculateTurretRotation_ForAimJoint W s b T =
      CalculateTurretRotation_ForAimJoint (W.SetScale3D FVector.OneVector) s b T := rfl

theorem CalculateTurretRotation_ForAimJoint_Yaw (W : FTransform) (s b T : FVector) :
    (CalculateTurretRotation_ForAimJoint W s b T).Yaw =
      CalculateTurretYaw ⟨0, 0, 0⟩
        ((W.SetScale3D FVector.OneVector).Inverse.TransformPosition T) := rfl

theorem CalculateTurretRotation_ForAimJoint_Pitch (W : FTransform) (s b T : FVector) :
    (CalculateTurretRotation_ForAimJoint W s b T).Pitch =
      CalculateTurretPitch ⟨0, 0, 0⟩ s (s + b)
        ⟨Real.sqrt (((W.SetScale3D FVector.OneVector).Inverse.TransformPosition T).X ^ 2 +
            ((W.SetScale3D FVector.OneVector).Inverse.TransformPosition T).Y ^ 2),
          0, ((W.SetScale3D FVector.OneVector).Inverse.TransformPosition T).Z⟩ := by
  simp only [CalculateTurretRotation_ForAimJoint, FVector.ZeroVector,
    align_target_with_turret]

theorem FTransform.not_AnyHasNegativeScale_of_nonneg {k : ℝ} (hk : 0 ≤ k) :
    ¬ FTransform.AnyHasNegativeScale FVector.OneVector ⟨k, k, k⟩ := by
  unfold FTransform.AnyHasNegativeScale FVector.OneVector
  simp only [not_or, not_lt]
  exact ⟨by norm_num, by norm_num, by norm_num, hk, hk, hk⟩

/-- A uniform, non-negative actor scale `k` acts on the orchestrator exactly as multiplying
the joint offset, the barrel-start offset and the barrel offset by `k`; the target world
location is not scaled. -/
theorem CalculateTurretRotation_ForActor_uniform_scale
    (M : FTransform → FTransform → FTransform) (Q : FQuat) (t a s b W : FVector) {k : ℝ}
    (hk : 0 ≤ k) :
    CalculateTurretRotation_ForActor M ⟨Q, t, ⟨k, k, k⟩⟩ a s b W =
      CalculateTurretRotation_ForActor M ⟨Q, t, ⟨1, 1, 1⟩⟩ (FVector.scale k a)
        (FVector.scale k s) (FVector.scale k b) W := by
  have hS : ∀ v : FVector,
      (FTransform.Default.SetScale3D (FTransform.mk Q t ⟨k, k, k⟩).GetScale3D).TransformPosition v
        = FVector.scale k v := by
    intro v
    simp only [FTransform.TransformPosition, FTransform.SetScale3D, FTransform.GetScale3D,
      FTransform.Default, FQuat.Identity_RotateVector, FVector.add_ZeroVector]
    rfl
  have hS1 : ∀ v : FVector,
      (FTransform.Default.SetScale3D (FTransform.mk Q t ⟨1, 1, 1⟩).GetScale3D).TransformPosition v
        = v := by
    intro v
    simp only [FTransform.TransformPosition, FTransform.SetScale3D, FTransform.GetScale3D,
      FTransform.Default, FQuat.Identity_RotateVector, FVector.add_ZeroVector]
    exact FVector.OneVector_mul v
  have hJ : (FTransform.Multiply M (FTransform.ofTranslation a)
        ⟨Q, t, ⟨k, k, k⟩⟩).SetScale3D FVector.OneVector =
      (FTransform.Multiply M (FTransform.ofTranslation (FVector.scale k a))
        ⟨Q, t, ⟨1, 1, 1⟩⟩).SetScale3D FVector.OneVector := by
    have h1 := FTransform.not_AnyHasNegativeScale_of_nonneg (by norm_num : (0 : ℝ) ≤ 1)
    simp only [FTransform.Multiply, FTransform.ofTranslation,
      FTransform.not_AnyHasNegativeScale_of_nonneg hk, h1, if_false, FTransform.SetScale3D]
    have hv : (FVector.mk k k k) * a = (FVector.mk 1 1 1) * FVector.scale k a := by
      ext <;> simp [FVector.scale]
    rw [hv]
  unfold CalculateTurretRotation_ForActor
  simp only [hS, hS1]
  rw [CalculateTurretRotation_ForAimJoint_unscaled, hJ,
    ← CalculateTurretRotation_ForAimJoint_unscaled]

/-- With the identity actor transform the joint transform is the translation by the joint
offset. -/
theorem CalculateTurretRotation_ForActor_Default
    (M : FTransform → FTransform → FTransform) (a s b W : FVector) :
    CalculateTurretRotation_ForActor M ⟨FQuat.Identity, ⟨0, 0, 0⟩, ⟨1, 1, 1⟩⟩ a s b W =
      CalculateTurretRotation_ForAimJoint (FTransform.ofTranslation a) s b W := by
  have hS1 : ∀ v : FVector,
      (FTransform.Default.SetScale3D (FTransform.mk FQuat.Identity ⟨0, 0, 0⟩
        ⟨1, 1, 1⟩).GetScale3D).TransformPosition v = v := by
    intro v
    simp only [FTransform.TransformPosition, FTransform.SetScale3D, FTransform.GetScale3D,
      FTransform.Default, FQuat.Identity_RotateVector, FVector.add_ZeroVector]
    exact FVector.OneVector_mul v
  have h1 := FTransform.not_AnyHasNegativeScale_of_nonneg (by norm_num : (0 : ℝ) ≤ 1)
  have hJ : FTransform.Multiply M (FTransform.ofTranslation a)
      ⟨FQuat.Identity, ⟨0, 0, 0⟩, ⟨1, 1, 1⟩⟩ = FTransform.ofTranslation a := by
    simp only [FTransform.Multiply, FTransform.ofTranslation, h1, if_false,
      FQuat.Identity_RotateVector]
    ext <;> simp [FQuat.Identity, FVector.OneVector]
  unfold CalculateTurretRotation_ForActor
  simp only [hS1, hJ]

/-- A pure translation by `a`, inverted, maps the world point `W` to `W - a`. -/
theorem FTransform.ofTranslation_inverse_position (a W : FVector) :
    ((FTransform.ofTranslation a).SetScale3D FVector.OneVector).Inverse.TransformPosition W =
      W - a := by
  have hsmall : ¬ |(1 : ℝ)| ≤ SMALL_NUMBER := by
    unfold SMALL_NUMBER
    norm_num
  have hid : FQuat.Identity.Inverse = FQuat.Identity := by
    ext <;> simp [FQuat.Identity, FQuat.Inverse]
  simp only [FTransform.Inverse, FTransform.SetScale3D, FTransform.ofTranslation,
    FTransform.TransformPosition, FTransform.GetSafeScaleReciprocal, FVector.OneVector, hsmall,
    if_false, hid, FQuat.Identity_RotateVector]
  ext <;> simp <;> ring

theorem paddedMin_le_start (J S E : FVector2D) :
    paddedMin J S E ≤ 101 / 100 * (S - J).Size := by
  have h1 : min (S - J).Size (E - J).Size ≤ (S - J).Size := min_le_left _ _
  have h2 : min 3 (1 / 100 * min (S - J).Size (E - J).Size) ≤
      1 / 100 * min (S - J).Size (E - J).Size := min_le_right _ _
  unfold paddedMin
  linarith

/-- The pitch with the joint at the origin and a horizontal barrel from `(0, h)` to
`(e, h)`, `e > 0`, for a target that is not clamped and lies at squared distance
`h^2 + w^2` from the joint, `w >= 0`: the ray distance is `w` and the pitch is the signed
angle from `(w, h)` to the target. -/
theorem CalculateTurretPitch_horizontal (h e w : ℝ) (T : FVector) (he : 0 < e)
    (htol : SMALL_NUMBER < e * e) (hw : 0 ≤ w) (hfar : 101 / 100 * |h| ≤ T.XZ.Size)
    (hT : T.X * T.X + T.Z * T.Z = h * h + w * w) :
    CalculateTurretPitch ⟨0, 0, 0⟩ ⟨0, 0, h⟩ ⟨e, 0, h⟩ T =
      CalculateAngleToRotateFromFirstVectorToSecondVector ⟨w, h⟩ T.XZ := by
  have hxz0 : (FVector.mk 0 0 0).XZ = ⟨0, 0⟩ := rfl
  have hxzs : (FVector.mk 0 0 h).XZ = ⟨0, h⟩ := rfl
  have hxze : (FVector.mk e 0 h).XZ = ⟨e, h⟩ := rfl
  have hclamp : CalculateNearestValidTargetLocation2D ⟨0, 0⟩ ⟨0, h⟩ ⟨e, h⟩ T.XZ = T.XZ := by
    have hpm := paddedMin_le_start ⟨0, 0⟩ ⟨0, h⟩ ⟨e, h⟩
    rw [FVector2D.sub_origin, FVector2D.Size_on_Y_axis] at hpm
    rw [CalculateNearestValidTargetLocation2D_eq, FVector2D.sub_origin,
      if_neg (not_lt.mpr (le_trans hpm hfar))]
  have hR : (FVector2D.mk e h - FVector2D.mk 0 h).GetSafeNormal = ⟨1, 0⟩ := by
    have : (FVector2D.mk e h - FVector2D.mk 0 h) = ⟨e, 0⟩ := by ext <;> simp
    rw [this]
    exact FVector2D.GetSafeNormal_pos_X he htol
  have hz : ¬ FMath.IsNearlyZero (2 * (1 : ℝ)) := by
    unfold FMath.IsNearlyZero SMALL_NUMBER
    norm_num
  have hcoef : CalculateQuadraticCoefficients ⟨0, 0⟩ ⟨0, h⟩ ⟨e, h⟩ T.XZ =
      (1, 0, -(w ^ 2)) := by
    simp only [CalculateQuadraticCoefficients, hR, FMath.Pow_two, FVector.XZ]
    have hc : (0 - 0 : ℝ) ^ 2 + (0 - h) ^ 2 + -(T.X - 0) ^ 2 + -(T.Z - 0) ^ 2 = -(w ^ 2) := by
      linear_combination -hT
    rw [hc]
    norm_num
  have hdisc : (0 : ℝ) ^ 2 - 4 * 1 * -(w ^ 2) = (2 * w) ^ 2 := by ring
  have hsqrt : Real.sqrt ((2 * w) ^ 2) = 2 * w := Real.sqrt_sq (by linarith)
  have hroots : CalculateQuadraticRoots 1 0 (-(w ^ 2)) = some (-w, w) := by
    simp only [CalculateQuadraticRoots, FMath.Pow_two, FMath.Sqrt, hz, if_false, hdisc, hsqrt]
    have hn : ¬ (2 * w) ^ 2 < 0 := not_lt.mpr (sq_nonneg _)
    simp only [hn, if_false, Option.some.injEq, Prod.mk.injEq]
    constructor <;> ring
  have hsel : SelectBestRayDistance (-w) w = w := by
    have hnot : ¬ (-w < 0 ∧ w < 0) := by
      intro hh
      linarith [hh.2]
    unfold SelectBestRayDistance
    rw [if_neg hnot, FMath.Max_eq_max, max_eq_right (by linarith)]
  have hray : CalculateBarrelRayDistance (FVector.mk 0 0 0).XZ (FVector.mk 0 0 h).XZ
      (FVector.mk e 0 h).XZ
      (CalculateNearestValidTargetLocation2D (FVector.mk 0 0 0).XZ (FVector.mk 0 0 h).XZ
        (FVector.mk e 0 h).XZ T.XZ) = some w := by
    rw [hxz0, hxzs, hxze, hclamp]
    unfold CalculateBarrelRayDistance
    simp only [hcoef, hroots, hsel]
  rw [CalculateTurretPitch_of_some hray, hxz0, hxzs, hxze, hclamp, hR, FVector2D.sub_origin,
    FVector2D.sub_origin]
  congr 1
  ext <;> simp

/-- The pitches of the example with the barrel start one unit above the joint: `0` at
scale `1`, where the barrel line passes through the target `(2, 0, 1)`, and not `0` at
scale `2`. -/
theorem CalculateTurretPitch_raised_barrel_examples :
    CalculateTurretPitch ⟨0, 0, 0⟩ ⟨0, 0, 1⟩ ⟨1, 0, 1⟩ ⟨2, 0, 1⟩ = 0 ∧
    CalculateTurretPitch ⟨0, 0, 0⟩ ⟨0, 0, 2⟩ ⟨2, 0, 2⟩ ⟨2, 0, 1⟩ ≠ 0 := by
  have hsz : (FVector.mk 2 0 1).XZ.Size = Real.sqrt 5 := by
    simp only [FVector.XZ, FVector2D.Size, FMath.Sqrt]
    norm_num
  have hone : SMALL_NUMBER < (1 : ℝ) * 1 := by
    unfold SMALL_NUMBER
    norm_num
  have htwo : SMALL_NUMBER < (2 : ℝ) * 2 := by
    unfold SMALL_NUMBER
    norm_num
  have hfar1 : 101 / 100 * |(1 : ℝ)| ≤ (FVector.mk 2 0 1).XZ.Size := by
    rw [hsz, abs_one, Real.le_sqrt' (by norm_num)]
    norm_num
  have hfar2 : 101 / 100 * |(2 : ℝ)| ≤ (FVector.mk 2 0 1).XZ.Size := by
    rw [hsz, abs_of_pos (by norm_num : (0 : ℝ) < 2), Real.le_sqrt' (by norm_num)]
    norm_num
  constructor
  · rw [CalculateTurretPitch_horizontal 1 1 2 ⟨2, 0, 1⟩ (by norm_num) hone (by norm_num) hfar1
      (by norm_num)]
    exact CalculateAngle_self (by unfold SMALL_NUMBER; norm_num [FVector.XZ])
  · rw [CalculateTurretPitch_horizontal 2 2 1 ⟨2, 0, 1⟩ (by norm_num) htwo (by norm_num) hfar2
      (by norm_num)]
    intro h0
    have hrot := GetRotated_CalculateAngle (A := ⟨1, 2⟩) (B := (FVector.mk 2 0 1).XZ)
      (by unfold SMALL_NUMBER; norm_num) (by norm_num [FVector.XZ])
    rw [h0] at hrot
    have hx := congrArg FVector2D.X hrot
    simp [FVector2D.GetRotated, FMath.DegreesToRadians, FVector.XZ] at hx

/-- C14 as stated fails for the yaw and for the pitch, with the identity rotation and the
zero translation.  Yaw: joint offset `(1,0,0)` and target `(2,1,0)` give the joint-space
target `(1,1,0)` at scale `1` and `(0,1,0)` at scale `2`.  Pitch: joint offset `(0,0,0)`,
barrel-start offset `(0,0,1)`, barrel offset `(1,0,0)` and target `(2,0,1)` give pitch `0`
at scale `1` and a non-zero pitch at scale `2`. -/
theorem C14_scale_invariance_counterexample :
    (CalculateTurretRotation_ForActor (fun A _ => A) ⟨FQuat.Identity, ⟨0, 0, 0⟩, ⟨2, 2, 2⟩⟩
        ⟨1, 0, 0⟩ ⟨0, 0, 0⟩ ⟨1, 0, 0⟩ ⟨2, 1, 0⟩).Yaw ≠
      (CalculateTurretRotation_ForActor (fun A _ => A) ⟨FQuat.Identity, ⟨0, 0, 0⟩, ⟨1, 1, 1⟩⟩
        ⟨1, 0, 0⟩ ⟨0, 0, 0⟩ ⟨1, 0, 0⟩ ⟨2, 1, 0⟩).Yaw ∧
    (CalculateTurretRotation_ForActor (fun A _ => A) ⟨FQuat.Identity, ⟨0, 0, 0⟩, ⟨2, 2, 2⟩⟩
        ⟨0, 0, 0⟩ ⟨0, 0, 1⟩ ⟨1, 0, 0⟩ ⟨2, 0, 1⟩).Pitch ≠
      (CalculateTurretRotation_ForActor (fun A _ => A) ⟨FQuat.Identity, ⟨0, 0, 0⟩, ⟨1, 1, 1⟩⟩
        ⟨0, 0, 0⟩ ⟨0, 0, 1⟩ ⟨1, 0, 0⟩ ⟨2, 0, 1⟩).Pitch := by
  have hpi : Real.pi ≠ 0 := Real.pi_ne_zero
  constructor
  · rw [CalculateTurretRotation_ForActor_uniform_scale _ _ _ _ _ _ _ (by norm_num : (0 : ℝ) ≤ 2),
      CalculateTurretRotation_ForActor_Default, CalculateTurretRotation_ForActor_Default,
      CalculateTurretRotation_ForAimJoint_Yaw, CalculateTurretRotation_ForAimJoint_Yaw,
      FTransform.ofTranslation_inverse_position, FTransform.ofTranslation_inverse_position]
    simp only [CalculateTurretYaw, FVector.sub3_X, FVector.sub3_Y, FVector.scale, sub_zero,
      FMath.RadiansToDegrees]
    norm_num
    refine ⟨?_, hpi⟩
    intro h
    have harg : FMath.Atan2 1 0 = Real.pi / 2 := by
      unfold FMath.Atan2
      exact Complex.arg_eq_pi_div_two_iff.mpr ⟨rfl, by norm_num⟩
    have hcos := FMath.sqrt_mul_cos_Atan2 1 1
    rw [← h, harg, Real.cos_pi_div_two, mul_zero] at hcos
    norm_num at hcos
  · rw [CalculateTurretRotation_ForActor_uniform_scale _ _ _ _ _ _ _ (by norm_num : (0 : ℝ) ≤ 2),
      CalculateTurretRotation_ForActor_Default, CalculateTurretRotation_ForActor_Default,
      CalculateTurretRotation_ForAimJoint_Pitch, CalculateTurretRotation_ForAimJoint_Pitch,
      FTransform.ofTranslation_inverse_position, FTransform.ofTranslation_inverse_position]
    obtain ⟨h1, h2⟩ := CalculateTurretPitch_raised_barrel_examples
    have hsq : Real.sqrt ((2 : ℝ) ^ 2) = 2 := Real.sqrt_sq (by norm_num)
    have e1 : FVector.scale 2 ⟨0, 0, 1⟩ = ⟨0, 0, 2⟩ := by
      ext <;> norm_num [FVector.scale]
    have e2 : FVector.scale 2 ⟨1, 0, 0⟩ = ⟨2, 0, 0⟩ := by
      ext <;> norm_num [FVector.scale]
    have e3 : FVector.scale 2 ⟨0, 0, 0⟩ = ⟨0, 0, 0⟩ := by
      ext <;> norm_num [FVector.scale]
    have e4 : FVector.mk 0 0 2 + FVector.mk 2 0 0 = ⟨2, 0, 2⟩ := by
      ext <;> norm_num
    have e5 : FVector.mk 0 0 1 + FVector.mk 1 0 0 = ⟨1, 0, 1⟩ := by
      ext <;> norm_num
    have e6 : FVector.mk 2 0 1 - FVector.mk 0 0 0 = ⟨2, 0, 1⟩ := by
      ext <;> norm_num
    rw [e1, e2, e3, e4, e5, e6]
    simp only [zero_pow (by norm_num : 2 ≠ 0), add_zero, hsq]
    rw [h1]
    exact h2

/-- C14 (amended): for every actor rotation and translation, every joint offset,
barrel-start offset, barrel offset and target world location, and every uniform scale
`k > 0`, `CalculateTurretRotation_ForActor` called with the actor transform scaled by
`(k,k,k)` outputs what it outputs at scale `(1,1,1)` with the joint offset, the
barrel-start offset and the barrel offset each multiplied by `k` (the target is not
scaled); in particular, with the joint offset `(0,0,0)` the yaw is the same at scale
`(k,k,k)` as at scale `(1,1,1)`. -/
theorem C14_uniform_scale_scales_the_offsets (M : FTransform → FTransform → FTransform)
    (Q : FQuat) (t a s b W : FVector) (k : ℝ) (hk : 0 < k) :
    CalculateTurretRotation_ForActor M ⟨Q, t, ⟨k, k, k⟩⟩ a s b W =
      CalculateTurretRotation_ForActor M ⟨Q, t, ⟨1, 1, 1⟩⟩ (FVector.scale k a)
        (FVector.scale k s) (FVector.scale k b) W ∧
    (CalculateTurretRotation_ForActor M ⟨Q, t, ⟨k, k, k⟩⟩ ⟨0, 0, 0⟩ s b W).Yaw =
      (CalculateTurretRotation_ForActor M ⟨Q, t, ⟨1, 1, 1⟩⟩ ⟨0, 0, 0⟩ s b W).Yaw := by
  refine ⟨CalculateTurretRotation_ForActor_uniform_scale M Q t a s b W hk.le, ?_⟩
  rw [CalculateTurretRotation_ForActor_uniform_scale M Q t ⟨0, 0, 0⟩ s b W hk.le]
  have e0 : FVector.scale k ⟨0, 0, 0⟩ = ⟨0, 0, 0⟩ := by
    ext <;> simp [FVector.scale]
  rw [e0]
  rfl

/-- Witness of C14 (amended) at scale `2`, with the identity rotation. -/
theorem C14_uniform_scale_scales_the_offsets_witness :
    (0 : ℝ) < 2 ∧
    (CalculateTurretRotation_ForActor (fun A _ => A) ⟨FQuat.Identity, ⟨5, 6, 7⟩, ⟨2, 2, 2⟩⟩
        ⟨1, 0, 0⟩ ⟨0, 0, 1⟩ ⟨1, 0, 0⟩ ⟨2, 1, 0⟩ =
      CalculateTurretRotation_ForActor (fun A _ => A) ⟨FQuat.Identity, ⟨5, 6, 7⟩, ⟨1, 1, 1⟩⟩
        (FVector.scale 2 ⟨1, 0, 0⟩) (FVector.scale 2 ⟨0, 0, 1⟩) (FVector.scale 2 ⟨1, 0, 0⟩)
        ⟨2, 1, 0⟩ ∧
    (CalculateTurretRotation_ForActor (fun A _ => A) ⟨FQuat.Identity, ⟨5, 6, 7⟩, ⟨2, 2, 2⟩⟩
        ⟨0, 0, 0⟩ ⟨0, 0, 1⟩ ⟨1, 0, 0⟩ ⟨2, 1, 0⟩).Yaw =
      (CalculateTurretRotation_ForActor (fun A _ => A) ⟨FQuat.Identity, ⟨5, 6, 7⟩, ⟨1, 1, 1⟩⟩
        ⟨0, 0, 0⟩ ⟨0, 0, 1⟩ ⟨1, 0, 0⟩ ⟨2, 1, 0⟩).Yaw) :=
  ⟨by norm_num, C14_uniform_scale_scales_the_offsets (fun A _ => A) FQuat.Identity ⟨5, 6, 7⟩
    ⟨1, 0, 0⟩ ⟨0, 0, 1⟩ ⟨1, 0, 0⟩ ⟨2, 1, 0⟩ 2 (by norm_num)⟩

/-- The resolver inside the pitch solver when the joint is not the origin: with joint
`(0,0,1)`, barrel from `(0,0,2)` to `(1,0,2)` and target `(0,0,3/2)`, the clamp returns
`(0, 101/100)`, at distance `1/100` from the joint while the barrel line is at distance
`1`, and the resolver fails. -/
theorem CalculateBarrelRayDistance_joint_off_origin_fails :
    CalculateNearestValidTargetLocation2D ⟨0, 1⟩ ⟨0, 2⟩ ⟨1, 2⟩ ⟨0, 3 / 2⟩ = ⟨0, 101 / 100⟩ ∧
    CalculateBarrelRayDistance ⟨0, 1⟩ ⟨0, 2⟩ ⟨1, 2⟩ ⟨0, 101 / 100⟩ = none := by
  have e1 : FVector2D.mk 0 2 - FVector2D.mk 0 1 = ⟨0, 1⟩ := by ext <;> norm_num
  have e2 : FVector2D.mk 0 (3 / 2) - FVector2D.mk 0 1 = ⟨0, 1 / 2⟩ := by ext <;> norm_num
  have e3 : FVector2D.mk 1 2 - FVector2D.mk 0 2 = ⟨1, 0⟩ := by ext <;> norm_num
  have hpm : paddedMin ⟨0, 1⟩ ⟨0, 2⟩ ⟨1, 2⟩ = 101 / 100 := by
    have hE : (1 : ℝ) ≤ (FVector2D.mk 1 2 - FVector2D.mk 0 1).Size := by
      unfold FVector2D.Size FMath.Sqrt
      rw [Real.le_sqrt' (by norm_num)]
      norm_num
    simp only [paddedMin, e1, FVector2D.Size_on_Y_axis, abs_one, min_eq_left hE]
    norm_num
  have hn : (FVector2D.mk 0 (1 / 2)).GetSafeNormal = ⟨0, 1⟩ := by
    rw [FVector2D.GetSafeNormal_of_lt (by unfold SMALL_NUMBER; norm_num)]
    have hs : Real.sqrt (0 * 0 + 1 / 2 * (1 / 2)) = 1 / 2 := by
      rw [mul_zero, zero_add]
      exact Real.sqrt_mul_self (by norm_num)
    ext
    · simp
    · simp only [hs]; norm_num
  constructor
  · rw [CalculateNearestValidTargetLocation2D_eq, hpm, e2, hn, FVector2D.Size_on_Y_axis,
      if_pos (by norm_num [abs_of_pos])]
    ext <;> simp
  · have hbar : SMALL_NUMBER <
        (FVector2D.mk 1 2 - FVector2D.mk 0 2).X * (FVector2D.mk 1 2 - FVector2D.mk 0 2).X +
        (FVector2D.mk 1 2 - FVector2D.mk 0 2).Y * (FVector2D.mk 1 2 - FVector2D.mk 0 2).Y := by
      rw [e3]
      unfold SMALL_NUMBER
      norm_num
    obtain ⟨-, hdisc⟩ := CalculateQuadraticCoefficients_discriminant
      (J := ⟨0, 1⟩) ⟨0, 101 / 100⟩ hbar
    rw [e3, FVector2D.GetSafeNormal_unit_X] at hdisc
    have hneg : (CalculateQuadraticCoefficients ⟨0, 1⟩ ⟨0, 2⟩ ⟨1, 2⟩ ⟨0, 101 / 100⟩).2.1 ^ 2 -
        4 * (CalculateQuadraticCoefficients ⟨0, 1⟩ ⟨0, 2⟩ ⟨1, 2⟩ ⟨0, 101 / 100⟩).1 *
          (CalculateQuadraticCoefficients ⟨0, 1⟩ ⟨0, 2⟩ ⟨1, 2⟩ ⟨0, 101 / 100⟩).2.2 < 0 := by
      rw [hdisc]
      simp only [FVector2D.sub2_X, FVector2D.sub2_Y]
      norm_num
    unfold CalculateBarrelRayDistance
    simp only [CalculateQuadraticRoots, FMath.Pow_two, hneg, if_true, ite_self]

/-! ## The quadratic of the resolver and the order of its roots -/

/-- C21: the quadratic coefficients encode the equidistance condition.  With `R` the safe
normal of `E - S`, `CalculateQuadraticCoefficients` outputs `a = R.x^2 + R.y^2`,
`b = 2*S.x*R.x - 2*J.x*R.x + 2*S.y*R.y - 2*J.y*R.y` and
`c = (J.x-S.x)^2 + (J.y-S.y)^2 - (T.x-J.x)^2 - (T.y-J.y)^2`, and for every real `d`
`a*d^2 + b*d + c = |S + R*d - J|^2 - |T - J|^2`. -/
theorem C21_coefficients_encode_equidistance (J S E T : FVector2D) (d : ℝ) :
    CalculateQuadraticCoefficients J S E T =
      ((E - S).GetSafeNormal.X ^ 2 + (E - S).GetSafeNormal.Y ^ 2,
        2 * S.X * (E - S).GetSafeNormal.X - 2 * J.X * (E - S).GetSafeNormal.X +
          2 * S.Y * (E - S).GetSafeNormal.Y - 2 * J.Y * (E - S).GetSafeNormal.Y,
        (J.X - S.X) ^ 2 + (J.Y - S.Y) ^ 2 - (T.X - J.X) ^ 2 - (T.Y - J.Y) ^ 2) ∧
    (CalculateQuadraticCoefficients J S E T).1 * d ^ 2 +
        (CalculateQuadraticCoefficients J S E T).2.1 * d +
        (CalculateQuadraticCoefficients J S E T).2.2 =
      (S + (E - S).GetSafeNormal * d - J).Size ^ 2 - (T - J).Size ^ 2 := by
  constructor
  · simp only [CalculateQuadraticCoefficients, FMath.Pow_two, Prod.mk.injEq]
    refine ⟨trivial, ?_, ?_⟩ <;> ring
  · rw [FVector2D.Size_sq, FVector2D.Size_sq]
    exact CalculateQuadraticCoefficients_eval J S E T d

/-- With a positive leading coefficient the first output of `CalculateQuadraticRoots` is
at most the second. -/
theorem CalculateQuadraticRoots_ordered {A B C X1 X2 : ℝ} (hA : 0 < A)
    (h : CalculateQuadraticRoots A B C = some (X1, X2)) : X1 ≤ X2 := by
  obtain ⟨-, -, h1, h2⟩ := CalculateQuadraticRoots_eq_some h
  have hs := Real.sqrt_nonneg (B ^ 2 - 4 * A * C)
  rw [h1, h2]
  exact div_le_div_of_nonneg_right (by linarith) (by linarith)

/-- The resolver on joint `(0,0)`, barrel from `(3/2,0)` to `(5/2,0)` and target
`(1/2,0)`: the roots are `-2` and `-1`, both behind the barrel start, and `-2` is
selected. -/
theorem CalculateBarrelRayDistance_both_negative_example :
    CalculateBarrelRayDistance ⟨0, 0⟩ ⟨3 / 2, 0⟩ ⟨5 / 2, 0⟩ ⟨1 / 2, 0⟩ = some (-2) := by
  have h := CalculateBarrelRayDistance_axis (3 / 2) (5 / 2) ⟨1 / 2, 0⟩ (by norm_num)
    (by unfold SMALL_NUMBER; norm_num)
  have hsz : (⟨1 / 2, 0⟩ : FVector2D).Size = 1 / 2 := by
    rw [FVector2D.Size_on_axis]; norm_num
  have hsel : SelectBestRayDistance (-(3 / 2) - 1 / 2) (-(3 / 2) + 1 / 2) = -2 := by
    unfold SelectBestRayDistance FMath.Min FMath.Max
    norm_num
  rw [hsz, hsel] at h
  exact h

/-- C22: inside the ray-distance resolver the roots are ordered.  Whenever
`CalculateBarrelRayDistance` succeeds, the barrel ray is a unit vector, the leading
coefficient `a` equals `1`, and the two roots handed to `SelectBestRayDistance` satisfy
`d1 <= d2`; so when both are negative the `Min` of the both-negative branch is `d1`, the
root farther from zero, and that is the distance returned. -/
theorem C22_resolver_roots_are_ordered (J S E T : FVector2D) (d : ℝ)
    (h : CalculateBarrelRayDistance J S E T = some d) :
    (E - S).GetSafeNormal.X * (E - S).GetSafeNormal.X +
      (E - S).GetSafeNormal.Y * (E - S).GetSafeNormal.Y = 1 ∧
    (CalculateQuadraticCoefficients J S E T).1 = 1 ∧
    ∃ d1 d2 : ℝ,
      CalculateQuadraticRoots (CalculateQuadraticCoefficients J S E T).1
        (CalculateQuadraticCoefficients J S E T).2.1
        (CalculateQuadraticCoefficients J S E T).2.2 = some (d1, d2) ∧
      d = SelectBestRayDistance d1 d2 ∧ d1 ≤ d2 ∧
      (d1 < 0 ∧ d2 < 0 → FMath.Min d1 d2 = d1 ∧ d = d1 ∧ |d2| ≤ |d1|) := by
  obtain ⟨hbar, hunit⟩ := CalculateBarrelRayDistance_unit_ray h
  obtain ⟨ha, -⟩ := CalculateQuadraticCoefficients_discriminant (J := J) T hbar
  obtain ⟨d1, d2, hr, hd⟩ := CalculateBarrelRayDistance_eq_some h
  have hle : d1 ≤ d2 := CalculateQuadraticRoots_ordered (by rw [ha]; norm_num) hr
  refine ⟨hunit, ha, d1, d2, hr, hd, hle, ?_⟩
  intro hneg
  have hmin : FMath.Min d1 d2 = d1 := by
    rw [FMath.Min_eq_min, min_eq_left hle]
  refine ⟨hmin, ?_, ?_⟩
  · rw [hd]
    unfold SelectBestRayDistance
    rw [if_pos hneg, hmin]
  · rw [abs_of_neg hneg.1, abs_of_neg hneg.2]
    linarith

/-- Witness of C22 on joint `(0,0)`, barrel from `(3/2,0)` to `(5/2,0)` and target
`(1/2,0)`, where both roots are negative. -/
theorem C22_resolver_roots_are_ordered_witness :
    CalculateBarrelRayDistance ⟨0, 0⟩ ⟨3 / 2, 0⟩ ⟨5 / 2, 0⟩ ⟨1 / 2, 0⟩ = some (-2) ∧
    ((FVector2D.mk (5 / 2) 0 - FVector2D.mk (3 / 2) 0).GetSafeNormal.X *
        (FVector2D.mk (5 / 2) 0 - FVector2D.mk (3 / 2) 0).GetSafeNormal.X +
      (FVector2D.mk (5 / 2) 0 - FVector2D.mk (3 / 2) 0).GetSafeNormal.Y *
        (FVector2D.mk (5 / 2) 0 - FVector2D.mk (3 / 2) 0).GetSafeNormal.Y = 1 ∧
    (CalculateQuadraticCoefficients ⟨0, 0⟩ ⟨3 / 2, 0⟩ ⟨5 / 2, 0⟩ ⟨1 / 2, 0⟩).1 = 1 ∧
    ∃ d1 d2 : ℝ,
      CalculateQuadraticRoots
        (CalculateQuadraticCoefficients ⟨0, 0⟩ ⟨3 / 2, 0⟩ ⟨5 / 2, 0⟩ ⟨1 / 2, 0⟩).1
        (CalculateQuadraticCoefficients ⟨0, 0⟩ ⟨3 / 2, 0⟩ ⟨5 / 2, 0⟩ ⟨1 / 2, 0⟩).2.1
        (CalculateQuadraticCoefficients ⟨0, 0⟩ ⟨3 / 2, 0⟩ ⟨5 / 2, 0⟩ ⟨1 / 2, 0⟩).2.2 =
          some (d1, d2) ∧
      (-2 : ℝ) = SelectBestRayDistance d1 d2 ∧ d1 ≤ d2 ∧
      (d1 < 0 ∧ d2 < 0 → FMath.Min d1 d2 = d1 ∧ (-2 : ℝ) = d1 ∧ |d2| ≤ |d1|)) :=
  ⟨CalculateBarrelRayDistance_both_negative_example,
    C22_resolver_roots_are_ordered ⟨0, 0⟩ ⟨3 / 2, 0⟩ ⟨5 / 2, 0⟩ ⟨1 / 2, 0⟩ (-2)
      CalculateBarrelRayDistance_both_negative_example⟩

/-! ## Real roots and the root in front of the barrel start -/

/-- The linear and the constant coefficient of the resolver's quadratic in terms of the
joint-relative vectors. -/
theorem CalculateQuadraticCoefficients_linear_constant (J S E T : FVector2D) :
    (CalculateQuadraticCoefficients J S E T).2.1 =
      2 * ((S - J).X * (E - S).GetSafeNormal.X + (S - J).Y * (E - S).GetSafeNormal.Y) ∧
    (CalculateQuadraticCoefficients J S E T).2.2 =
      ((S - J).X * (S - J).X + (S - J).Y * (S - J).Y) -
        ((T - J).X * (T - J).X + (T - J).Y * (T - J).Y) := by
  simp only [CalculateQuadraticCoefficients, FMath.Pow_two, FVector2D.sub2_X,
    FVector2D.sub2_Y]
  constructor <;> ring

/-- When the target is at least as far from the joint as the nearer barrel end, the linear
coefficient is not positive or the constant coefficient is not positive: if the barrel
start is the farther end, the barrel ray points towards the joint. -/
theorem linear_or_constant_nonpos {J S E T : FVector2D}
    (hbar : SMALL_NUMBER < (E - S).X * (E - S).X + (E - S).Y * (E - S).Y)
    (hfar : min (S - J).Size (E - J).Size ≤ (T - J).Size) :
    (CalculateQuadraticCoefficients J S E T).2.1 ≤ 0 ∨
      (CalculateQuadraticCoefficients J S E T).2.2 ≤ 0 := by
  obtain ⟨hb, hc⟩ := CalculateQuadraticCoefficients_linear_constant J S E T
  have hu := FVector2D.GetSafeNormal_unit hbar
  have hss : 0 < (E - S).X * (E - S).X + (E - S).Y * (E - S).Y :=
    lt_trans SMALL_NUMBER_pos hbar
  have hl : 0 < Real.sqrt ((E - S).X * (E - S).X + (E - S).Y * (E - S).Y) :=
    Real.sqrt_pos.mpr hss
  have hn := FVector2D.GetSafeNormal_of_lt hbar
  have hRX : (E - S).X = (E - S).GetSafeNormal.X *
      Real.sqrt ((E - S).X * (E - S).X + (E - S).Y * (E - S).Y) := by
    have hx := congrArg FVector2D.X hn
    simp only at hx
    rw [hx, div_mul_cancel₀ _ hl.ne']
  have hRY : (E - S).Y = (E - S).GetSafeNormal.Y *
      Real.sqrt ((E - S).X * (E - S).X + (E - S).Y * (E - S).Y) := by
    have hy := congrArg FVector2D.Y hn
    simp only at hy
    rw [hy, div_mul_cancel₀ _ hl.ne']
  clear hn
  have hm : 0 ≤ min (S - J).Size (E - J).Size :=
    le_min (FVector2D.Size_nonneg _) (FVector2D.Size_nonneg _)
  have hsq : (min (S - J).Size (E - J).Size) ^ 2 ≤ (T - J).Size ^ 2 :=
    pow_le_pow_left₀ hm hfar 2
  rw [FVector2D.Size_sq] at hsq
  rw [hb, hc]
  generalize Real.sqrt ((E - S).X * (E - S).X + (E - S).Y * (E - S).Y) = l at hl hRX hRY
  generalize (E - S).GetSafeNormal = R at hu hRX hRY
  simp only [FVector2D.sub2_X, FVector2D.sub2_Y] at hRX hRY hsq ⊢
  by_contra hcon
  rw [not_or, not_le, not_le] at hcon
  obtain ⟨hbpos, hcpos⟩ := hcon
  rcases le_total (S - J).Size (E - J).Size with h | h
  · rw [min_eq_left h, FVector2D.Size_sq] at hsq
    simp only [FVector2D.sub2_X, FVector2D.sub2_Y] at hsq
    linarith
  · rw [min_eq_right h, FVector2D.Size_sq] at hsq
    simp only [FVector2D.sub2_X, FVector2D.sub2_Y] at hsq
    have hEX : E.X - J.X = (S.X - J.X) + R.X * l := by linarith
    have hEY : E.Y - J.Y = (S.Y - J.Y) + R.Y * l := by linarith
    rw [hEX, hEY] at hsq
    have hW : ((S.X - J.X) + R.X * l) * ((S.X - J.X) + R.X * l) +
        ((S.Y - J.Y) + R.Y * l) * ((S.Y - J.Y) + R.Y * l) =
        ((S.X - J.X) * (S.X - J.X) + (S.Y - J.Y) * (S.Y - J.Y)) +
          l * (2 * ((S.X - J.X) * R.X + (S.Y - J.Y) * R.Y)) + l ^ 2 := by
      linear_combination (l ^ 2) * hu
    rw [hW] at hsq
    have h1 : 0 < l * (2 * ((S.X - J.X) * R.X + (S.Y - J.Y) * R.Y)) := mul_pos hl hbpos
    have h2 : 0 < l ^ 2 := pow_pos hl 2
    linarith

/-- C23 as stated fails in two ways, with the joint at the origin.  With the barrel from
`(0,0,1)` to `(1,0,1)` and the target `(1/100000, 0, 0)`, which is not the origin, the
clamp returns the zero vector, at distance `0 < min(|S|, |E|)` from the joint, and the
resolver fails.  With the barrel from `(0,0,0)` to `(1/100000,0,0)`, whose ends are
distinct, and the target `(1,0,0)` the resolver fails as well. -/
theorem C23_clamp_real_roots_counterexample :
    (FVector.mk 0 0 1).XZ ≠ (FVector.mk 1 0 1).XZ ∧
    (FVector.mk (1 / 100000) 0 0).XZ ≠ FVector2D.mk 0 0 ∧
    CalculateNearestValidTargetLocation2D (FVector.mk 0 0 0).XZ (FVector.mk 0 0 1).XZ
      (FVector.mk 1 0 1).XZ (FVector.mk (1 / 100000) 0 0).XZ = ⟨0, 0⟩ ∧
    (FVector2D.mk 0 0 - (FVector.mk 0 0 0).XZ).Size <
      min (FVector.mk 0 0 1).XZ.Size (FVector.mk 1 0 1).XZ.Size ∧
    CalculateBarrelRayDistance (FVector.mk 0 0 0).XZ (FVector.mk 0 0 1).XZ
      (FVector.mk 1 0 1).XZ ⟨0, 0⟩ = none ∧
    (FVector.mk 0 0 0).XZ ≠ (FVector.mk (1 / 100000) 0 0).XZ ∧
    (FVector.mk 1 0 0).XZ ≠ FVector2D.mk 0 0 ∧
    CalculateBarrelRayDistance (FVector.mk 0 0 0).XZ (FVector.mk 0 0 0).XZ
      (FVector.mk (1 / 100000) 0 0).XZ
      (CalculateNearestValidTargetLocation2D (FVector.mk 0 0 0).XZ (FVector.mk 0 0 0).XZ
        (FVector.mk (1 / 100000) 0 0).XZ (FVector.mk 1 0 0).XZ) = none := by
  have hS : (FVector2D.mk 0 1).Size = 1 := by
    rw [FVector2D.Size_on_Y_axis, abs_one]
  have hE : (1 : ℝ) ≤ (FVector2D.mk 1 1).Size := by
    unfold FVector2D.Size FMath.Sqrt
    rw [Real.le_sqrt' (by norm_num)]
    norm_num
  have hmin : (1 : ℝ) ≤ min (FVector2D.mk 0 1).Size (FVector2D.mk 1 1).Size := by
    rw [hS]
    exact le_min le_rfl hE
  refine ⟨?_, ?_, ?_, ?_, ?_, ?_, ?_, ?_⟩
  · intro h
    have hx := congrArg FVector2D.X h
    simp [FVector.XZ] at hx
  · intro h
    have hx := congrArg FVector2D.X h
    simp [FVector.XZ] at hx
  · have hpm : (1 : ℝ) ≤ paddedMin ⟨0, 0⟩ ⟨0, 1⟩ ⟨1, 1⟩ := by
      have h := min_Size_le_paddedMin ⟨0, 0⟩ ⟨0, 1⟩ ⟨1, 1⟩
      simp only [FVector2D.sub_origin] at h
      exact le_trans hmin h
    have hsz : (FVector2D.mk (1 / 100000) 0).Size = 1 / 100000 := by
      rw [FVector2D.Size_on_axis]
      norm_num [abs_of_pos]
    have hn : (FVector2D.mk (1 / 100000) 0).GetSafeNormal = ⟨0, 0⟩ :=
      FVector2D.GetSafeNormal_of_le (by unfold SMALL_NUMBER; norm_num)
    simp only [FVector.XZ]
    rw [CalculateNearestValidTargetLocation2D_eq, FVector2D.sub_origin, hsz,
      if_pos (by linarith), hn]
    ext <;> simp
  · simp only [FVector.XZ, FVector2D.sub_origin, FVector2D.Size_on_axis, abs_zero]
    linarith
  · have hbar : SMALL_NUMBER <
        ((FVector.mk 1 0 1).XZ - (FVector.mk 0 0 1).XZ).X *
          ((FVector.mk 1 0 1).XZ - (FVector.mk 0 0 1).XZ).X +
        ((FVector.mk 1 0 1).XZ - (FVector.mk 0 0 1).XZ).Y *
          ((FVector.mk 1 0 1).XZ - (FVector.mk 0 0 1).XZ).Y := by
      simp only [FVector.XZ, FVector2D.sub2_X, FVector2D.sub2_Y]
      unfold SMALL_NUMBER
      norm_num
    obtain ⟨-, hdisc⟩ := CalculateQuadraticCoefficients_discriminant
      (J := (FVector.mk 0 0 0).XZ) ⟨0, 0⟩ hbar
    have hR : ((FVector.mk 1 0 1).XZ - (FVector.mk 0 0 1).XZ).GetSafeNormal = ⟨1, 0⟩ := by
      have : (FVector.mk 1 0 1).XZ - (FVector.mk 0 0 1).XZ = ⟨1, 0⟩ := by
        ext <;> simp [FVector.XZ]
      rw [this]
      exact FVector2D.GetSafeNormal_unit_X
    rw [hR] at hdisc
    have hneg : (CalculateQuadraticCoefficients (FVector.mk 0 0 0).XZ (FVector.mk 0 0 1).XZ
          (FVector.mk 1 0 1).XZ ⟨0, 0⟩).2.1 ^ 2 -
        4 * (CalculateQuadraticCoefficients (FVector.mk 0 0 0).XZ (FVector.mk 0 0 1).XZ
          (FVector.mk 1 0 1).XZ ⟨0, 0⟩).1 *
          (CalculateQuadraticCoefficients (FVector.mk 0 0 0).XZ (FVector.mk 0 0 1).XZ
          (FVector.mk 1 0 1).XZ ⟨0, 0⟩).2.2 < 0 := by
      rw [hdisc]
      simp only [FVector.XZ, FVector2D.sub2_X, FVector2D.sub2_Y]
      norm_num
    unfold CalculateBarrelRayDistance
    simp only [CalculateQuadraticRoots, FMath.Pow_two, hneg, if_true, ite_self]
  · intro h
    have hx := congrArg FVector2D.X h
    simp [FVector.XZ] at hx
  · intro h
    have hx := congrArg FVector2D.X h
    simp [FVector.XZ] at hx
  · apply (CalculateBarrelRayDistance_of_small_barrel _ _ _).2
    simp only [FVector.XZ, FVector2D.sub2_X, FVector2D.sub2_Y]
    unfold SMALL_NUMBER
    norm_num

/-- C23 (amended): the clamp guarantees real roots when the joint is the origin.  For every
barrel start `S` and barrel end `E` whose X-Z projections are farther apart than the
safe-normalisation tolerance (`|E - S|^2 > SMALL_NUMBER`) and every target `T` whose X-Z
projection is farther from the origin than that tolerance (`|T|^2 > SMALL_NUMBER`), in
`CalculateTurretPitch(0, S, E, T)` the clamped target is at distance at least
`min(|S|, |E|)` from the joint, the discriminant of the resulting quadratic is
non-negative, and `CalculateBarrelRayDistance` returns `true`, so the pitch is the signed
angle and not the pitch-`0` fallback. -/
theorem C23_clamp_guarantees_real_roots (S E T : FVector)
    (hbar : SMALL_NUMBER < (E.XZ - S.XZ).Size ^ 2)
    (htol : SMALL_NUMBER < T.XZ.Size ^ 2) :
    min (S.XZ - FVector2D.mk 0 0).Size (E.XZ - FVector2D.mk 0 0).Size ≤
      (CalculateNearestValidTargetLocation2D ⟨0, 0⟩ S.XZ E.XZ T.XZ - FVector2D.mk 0 0).Size ∧
    0 ≤ (CalculateQuadraticCoefficients ⟨0, 0⟩ S.XZ E.XZ
          (CalculateNearestValidTargetLocation2D ⟨0, 0⟩ S.XZ E.XZ T.XZ)).2.1 ^ 2 -
        4 * (CalculateQuadraticCoefficients ⟨0, 0⟩ S.XZ E.XZ
          (CalculateNearestValidTargetLocation2D ⟨0, 0⟩ S.XZ E.XZ T.XZ)).1 *
          (CalculateQuadraticCoefficients ⟨0, 0⟩ S.XZ E.XZ
          (CalculateNearestValidTargetLocation2D ⟨0, 0⟩ S.XZ E.XZ T.XZ)).2.2 ∧
    ∃ d : ℝ,
      CalculateBarrelRayDistance ⟨0, 0⟩ S.XZ E.XZ
        (CalculateNearestValidTargetLocation2D ⟨0, 0⟩ S.XZ E.XZ T.XZ) = some d ∧
      CalculateTurretPitch ⟨0, 0, 0⟩ S E T =
        CalculateAngleToRotateFromFirstVectorToSecondVector
          (S.XZ + (E.XZ - S.XZ).GetSafeNormal * d - FVector2D.mk 0 0)
          (CalculateNearestValidTargetLocation2D ⟨0, 0⟩ S.XZ E.XZ T.XZ -
            FVector2D.mk 0 0) := by
  rw [FVector2D.Size_sq] at hbar htol
  have hfar : min (S.XZ - FVector2D.mk 0 0).Size (E.XZ - FVector2D.mk 0 0).Size ≤
      (CalculateNearestValidTargetLocation2D ⟨0, 0⟩ S.XZ E.XZ T.XZ -
        FVector2D.mk 0 0).Size := by
    have hm := min_Size_le_paddedMin ⟨0, 0⟩ S.XZ E.XZ
    simp only [FVector2D.sub_origin] at hm ⊢
    exact le_trans hm (paddedMin_le_Size_clamp htol)
  obtain ⟨d, hd⟩ := CalculateBarrelRayDistance_some_of_far hbar hfar
  obtain ⟨d1, d2, hr, -⟩ := CalculateBarrelRayDistance_eq_some hd
  obtain ⟨-, hD, -, -⟩ := CalculateQuadraticRoots_eq_some hr
  have hd0 : CalculateBarrelRayDistance (FVector.mk 0 0 0).XZ S.XZ E.XZ
      (CalculateNearestValidTargetLocation2D (FVector.mk 0 0 0).XZ S.XZ E.XZ T.XZ) =
        some d := hd
  exact ⟨hfar, hD, d, hd, CalculateTurretPitch_of_some hd0⟩

/-- Witness of C23 (amended): barrel from `(1,0,0)` to `(2,0,0)` and target `(0,0,3)`. -/
theorem C23_clamp_guarantees_real_roots_witness :
    SMALL_NUMBER < ((FVector.mk 2 0 0).XZ - (FVector.mk 1 0 0).XZ).Size ^ 2 ∧
    SMALL_NUMBER < (FVector.mk 0 0 3).XZ.Size ^ 2 ∧
    (min ((FVector.mk 1 0 0).XZ - FVector2D.mk 0 0).Size
        ((FVector.mk 2 0 0).XZ - FVector2D.mk 0 0).Size ≤
      (CalculateNearestValidTargetLocation2D ⟨0, 0⟩ (FVector.mk 1 0 0).XZ
        (FVector.mk 2 0 0).XZ (FVector.mk 0 0 3).XZ - FVector2D.mk 0 0).Size ∧
    0 ≤ (CalculateQuadraticCoefficients ⟨0, 0⟩ (FVector.mk 1 0 0).XZ (FVector.mk 2 0 0).XZ
          (CalculateNearestValidTargetLocation2D ⟨0, 0⟩ (FVector.mk 1 0 0).XZ
            (FVector.mk 2 0 0).XZ (FVector.mk 0 0 3).XZ)).2.1 ^ 2 -
        4 * (CalculateQuadraticCoefficients ⟨0, 0⟩ (FVector.mk 1 0 0).XZ (FVector.mk 2 0 0).XZ
          (CalculateNearestValidTargetLocation2D ⟨0, 0⟩ (FVector.mk 1 0 0).XZ
            (FVector.mk 2 0 0).XZ (FVector.mk 0 0 3).XZ)).1 *
          (CalculateQuadraticCoefficients ⟨0, 0⟩ (FVector.mk 1 0 0).XZ (FVector.mk 2 0 0).XZ
          (CalculateNearestValidTargetLocation2D ⟨0, 0⟩ (FVector.mk 1 0 0).XZ
            (FVector.mk 2 0 0).XZ (FVector.mk 0 0 3).XZ)).2.2 ∧
    ∃ d : ℝ,
      CalculateBarrelRayDistance ⟨0, 0⟩ (FVector.mk 1 0 0).XZ (FVector.mk 2 0 0).XZ
        (CalculateNearestValidTargetLocation2D ⟨0, 0⟩ (FVector.mk 1 0 0).XZ
          (FVector.mk 2 0 0).XZ (FVector.mk 0 0 3).XZ) = some d ∧
      CalculateTurretPitch ⟨0, 0, 0⟩ ⟨1, 0, 0⟩ ⟨2, 0, 0⟩ ⟨0, 0, 3⟩ =
        CalculateAngleToRotateFromFirstVectorToSecondVector
          ((FVector.mk 1 0 0).XZ +
            ((FVector.mk 2 0 0).XZ - (FVector.mk 1 0 0).XZ).GetSafeNormal * d -
            FVector2D.mk 0 0)
          (CalculateNearestValidTargetLocation2D ⟨0, 0⟩ (FVector.mk 1 0 0).XZ
            (FVector.mk 2 0 0).XZ (FVector.mk 0 0 3).XZ - FVector2D.mk 0 0)) := by
  have h1 : SMALL_NUMBER < ((FVector.mk 2 0 0).XZ - (FVector.mk 1 0 0).XZ).Size ^ 2 := by
    rw [FVector2D.Size_sq]
    simp only [FVector.XZ, FVector2D.sub2_X, FVector2D.sub2_Y]
    unfold SMALL_NUMBER
    norm_num
  have h2 : SMALL_NUMBER < (FVector.mk 0 0 3).XZ.Size ^ 2 := by
    rw [FVector2D.Size_sq]
    simp only [FVector.XZ]
    unfold SMALL_NUMBER
    norm_num
  exact ⟨h1, h2, C23_clamp_guarantees_real_roots ⟨1, 0, 0⟩ ⟨2, 0, 0⟩ ⟨0, 0, 3⟩ h1 h2⟩

/-- C24 as stated fails: with joint `(0,0)`, barrel start `(0,0)`, barrel end
`(1/100000, 0)` and target `(1, 0)`, the barrel ends are distinct and the target is at
least as far from the joint as the nearer barrel end, yet the barrel is within the
normalisation tolerance, the quadratic has leading coefficient `0`, there are no roots and
`CalculateBarrelRayDistance` outputs nothing. -/
theorem C24_front_root_counterexample :
    FVector2D.mk 0 0 ≠ FVector2D.mk (1 / 100000) 0 ∧
    min (FVector2D.mk 0 0 - FVector2D.mk 0 0).Size
        (FVector2D.mk (1 / 100000) 0 - FVector2D.mk 0 0).Size ≤
      (FVector2D.mk 1 0 - FVector2D.mk 0 0).Size ∧
    (CalculateQuadraticCoefficients ⟨0, 0⟩ ⟨0, 0⟩ ⟨1 / 100000, 0⟩ ⟨1, 0⟩).1 = 0 ∧
    CalculateQuadraticRoots
      (CalculateQuadraticCoefficients ⟨0, 0⟩ ⟨0, 0⟩ ⟨1 / 100000, 0⟩ ⟨1, 0⟩).1
      (CalculateQuadraticCoefficients ⟨0, 0⟩ ⟨0, 0⟩ ⟨1 / 100000, 0⟩ ⟨1, 0⟩).2.1
      (CalculateQuadraticCoefficients ⟨0, 0⟩ ⟨0, 0⟩ ⟨1 / 100000, 0⟩ ⟨1, 0⟩).2.2 = none ∧
    CalculateBarrelRayDistance ⟨0, 0⟩ ⟨0, 0⟩ ⟨1 / 100000, 0⟩ ⟨1, 0⟩ = none := by
  have hsmall : (FVector2D.mk (1 / 100000) 0 - FVector2D.mk 0 0).X *
        (FVector2D.mk (1 / 100000) 0 - FVector2D.mk 0 0).X +
      (FVector2D.mk (1 / 100000) 0 - FVector2D.mk 0 0).Y *
        (FVector2D.mk (1 / 100000) 0 - FVector2D.mk 0 0).Y ≤ SMALL_NUMBER := by
    simp only [FVector2D.sub2_X, FVector2D.sub2_Y]
    unfold SMALL_NUMBER
    norm_num
  obtain ⟨ha, hnone⟩ := CalculateBarrelRayDistance_of_small_barrel ⟨0, 0⟩ ⟨1, 0⟩ hsmall
  have hz : FMath.IsNearlyZero (2 * (0 : ℝ)) := by
    unfold FMath.IsNearlyZero
    rw [mul_zero, abs_zero]
    exact SMALL_NUMBER_pos.le
  refine ⟨?_, ?_, ha, ?_, hnone⟩
  · intro h
    have hx := congrArg FVector2D.X h
    norm_num at hx
  · simp only [FVector2D.sub_origin, FVector2D.Size_on_axis, abs_zero, abs_one]
    exact le_trans (min_le_left _ _) (by norm_num)
  · rw [ha]
    simp only [CalculateQuadraticRoots, hz, if_true]

/-- C24 (amended): the both-negative branch of root selection is unreachable for valid
targets.  For every 2D `J`, `S`, `E` with the barrel `E - S` longer than the
safe-normalisation tolerance (`|E - S|^2 > SMALL_NUMBER`) and every target `T'` with
`|T' - J| >= min(|S - J|, |E - J|)`, the quadratic has two real roots `d1 <= d2`, the
larger root `d2` is non-negative, and `CalculateBarrelRayDistance` outputs `d2`, so the
scaled barrel end `S + R*d2` lies in front of the barrel start. -/
theorem C24_larger_root_is_in_front (J S E T : FVector2D)
    (hbar : SMALL_NUMBER < (E - S).Size ^ 2)
    (hfar : min (S - J).Size (E - J).Size ≤ (T - J).Size) :
    ∃ d1 d2 : ℝ,
      CalculateQuadraticRoots (CalculateQuadraticCoefficients J S E T).1
        (CalculateQuadraticCoefficients J S E T).2.1
        (CalculateQuadraticCoefficients J S E T).2.2 = some (d1, d2) ∧
      d1 ≤ d2 ∧ 0 ≤ d2 ∧ ¬ (d1 < 0 ∧ d2 < 0) ∧
      CalculateBarrelRayDistance J S E T = some d2 := by
  rw [FVector2D.Size_sq] at hbar
  obtain ⟨ha, -⟩ := CalculateQuadraticCoefficients_discriminant (J := J) T hbar
  obtain ⟨d, hd⟩ := CalculateBarrelRayDistance_some_of_far hbar hfar
  obtain ⟨d1, d2, hr, hsel⟩ := CalculateBarrelRayDistance_eq_some hd
  have hle : d1 ≤ d2 := CalculateQuadraticRoots_ordered (by rw [ha]; norm_num) hr
  obtain ⟨-, hD, -, h2⟩ := CalculateQuadraticRoots_eq_some hr
  have hbc := linear_or_constant_nonpos hbar hfar
  rw [ha] at h2 hD
  have hd2 : 0 ≤ d2 := by
    generalize (CalculateQuadraticCoefficients J S E T).2.1 = b at h2 hD hbc
    generalize (CalculateQuadraticCoefficients J S E T).2.2 = c at h2 hD hbc
    have hsqrt : b ≤ Real.sqrt (b ^ 2 - 4 * 1 * c) := by
      rcases hbc with hb | hc
      · exact le_trans hb (Real.sqrt_nonneg _)
      · exact le_trans (le_abs_self b) (Real.abs_le_sqrt (by linarith))
    rw [h2]
    exact div_nonneg (by linarith) (by norm_num)
  have hnot : ¬ (d1 < 0 ∧ d2 < 0) := fun hh => absurd hh.2 (not_lt.mpr hd2)
  refine ⟨d1, d2, hr, hle, hd2, hnot, ?_⟩
  rw [hd, hsel]
  unfold SelectBestRayDistance
  rw [if_neg hnot, FMath.Max_eq_max, max_eq_right hle]

/-- Witness of C24 (amended) on joint `(0,0)`, barrel from `(1,0)` to `(2,0)` and target
`(3,0)`. -/
theorem C24_larger_root_is_in_front_witness :
    SMALL_NUMBER < (FVector2D.mk 2 0 - FVector2D.mk 1 0).Size ^ 2 ∧
    min (FVector2D.mk 1 0 - FVector2D.mk 0 0).Size (FVector2D.mk 2 0 - FVector2D.mk 0 0).Size ≤
      (FVector2D.mk 3 0 - FVector2D.mk 0 0).Size ∧
    ∃ d1 d2 : ℝ,
      CalculateQuadraticRoots (CalculateQuadraticCoefficients ⟨0, 0⟩ ⟨1, 0⟩ ⟨2, 0⟩ ⟨3, 0⟩).1
        (CalculateQuadraticCoefficients ⟨0, 0⟩ ⟨1, 0⟩ ⟨2, 0⟩ ⟨3, 0⟩).2.1
        (CalculateQuadraticCoefficients ⟨0, 0⟩ ⟨1, 0⟩ ⟨2, 0⟩ ⟨3, 0⟩).2.2 = some (d1, d2) ∧
      d1 ≤ d2 ∧ 0 ≤ d2 ∧ ¬ (d1 < 0 ∧ d2 < 0) ∧
      CalculateBarrelRayDistance ⟨0, 0⟩ ⟨1, 0⟩ ⟨2, 0⟩ ⟨3, 0⟩ = some d2 := by
  have h1 : SMALL_NUMBER < (FVector2D.mk 2 0 - FVector2D.mk 1 0).Size ^ 2 := by
    rw [FVector2D.Size_sq]
    simp only [FVector2D.sub2_X, FVector2D.sub2_Y]
    unfold SMALL_NUMBER
    norm_num
  have h2 : min (FVector2D.mk 1 0 - FVector2D.mk 0 0).Size
      (FVector2D.mk 2 0 - FVector2D.mk 0 0).Size ≤
      (FVector2D.mk 3 0 - FVector2D.mk 0 0).Size := by
    simp only [FVector2D.sub_origin, FVector2D.Size_on_axis]
    refine le_trans (min_le_left _ _) ?_
    norm_num [abs_of_pos]
  exact ⟨h1, h2, C24_larger_root_is_in_front ⟨0, 0⟩ ⟨1, 0⟩ ⟨2, 0⟩ ⟨3, 0⟩ h1 h2⟩

end TurretRotation

end
